import Mathlib

/-!
# UDT: a shallow embedding of the sender, the connected state and the cache

The sources are `udt/connected_protocol/state/connected/sender.h`,
`state/connected_state.h`, `state/base_state.h` and
`cache/connections_info_manager.h`.

The sender of a connected UDT session keeps three containers

* `loss_packets_`  : `std::set<PacketSequenceNumber>`, the sequence numbers to retransmit,
* `nack_packets_`  : `std::map<PacketSequenceNumber, SendDatagramPtr>`, the datagrams in flight,
* `packets_to_send_` : `std::queue<SendDatagramPtr>`, the fragments not yet sent,

and the operations on them are modelled below as pure functions on an explicit
state.  Ordered containers are ascending lists; machine integers are `Nat`.
The mutexes are not modelled: every operation is one atomic step.

The connected state is a record of the sender, the receiver, the timers and
the session fields its handlers use, with a log of the control packets sent;
the classes whose sources are absent enter through the structure `Env`.  The
cache of connection infos is the list of the entries of its map.
-/

namespace Udt

/-! ## Sequence numbers -/

/-- The size of the 31 bit sequence space. -/
def SEQ_MOD : Nat := 2147483648

/-- Modelled from the spec: the sequence generator (its header is not among the
sources).  Section 4.1: 31 bit modular arithmetic, `current()`, `next()`
returns the current value and then increments, `inc`/`dec` wrap. -/
structure SequenceGenerator where
  current : Nat
deriving DecidableEq, Repr

/-- Modelled from the spec: `SequenceGenerator::Inc`, the successor with wrap
around in the 31 bit space. -/
def Inc (x : Nat) : Nat := (x + 1) % SEQ_MOD

/-- Modelled from the spec: `SequenceGenerator::Dec`, the predecessor with wrap
around in the 31 bit space. -/
def Dec (x : Nat) : Nat := (x + (SEQ_MOD - 1)) % SEQ_MOD

/-- Modelled from the spec: `SequenceGenerator::Next`, returns the current value
and advances the generator by one. -/
def SequenceGenerator.Next (g : SequenceGenerator) : Nat × SequenceGenerator :=
  (g.current, { current := Inc g.current })

/-- The method `Sender::IsInterval`: bit 31 of a NAK list element. -/
def IsInterval (seq_num : Nat) : Bool := (seq_num &&& 0x80000000) != 0

/-- The method `Sender::GetPacketSequenceValue`: the low 31 bits. -/
def GetPacketSequenceValue (seq_num : Nat) : Nat := seq_num &&& 0x7FFFFFFF

/-! ## Error codes and datagrams -/

/-- The values of `common::error` the protocol engine completes operations with. -/
inductive ErrorCode where
  | success
  | not_connected
  | operation_canceled
  | connection_aborted
  | buffer_is_full_error
deriving DecidableEq, Repr

/-- Position of a fragment inside its message. -/
inductive MessagePosition where
  | FIRST
  | MIDDLE
  | LAST
  | ONLY_ONE_PACKET
deriving DecidableEq, Repr

/-- Header of a data datagram, the fields the sender writes. -/
structure Header where
  timestamp : Nat
  packet_sequence_number : Nat
  destination_socket : Nat
  message_number : Nat
  message_position : MessagePosition
deriving DecidableEq, Repr

/-- The type `Protocol::SendDatagram`: header, payload bytes and the two flags. -/
structure SendDatagram where
  header : Header
  payload : List Nat
  acked : Bool
  pending_send : Bool
deriving DecidableEq, Repr

/-- The `Protocol` template parameter, as far as the sender uses it: the
constant `SendDatagram::Header::size` and the value of `new SendDatagram()`. -/
structure Protocol where
  header_size : Nat
  new_datagram : SendDatagram
deriving DecidableEq, Repr

/-! ## Ordered containers -/

/-- The operation `std::set::insert` on an ascending list. -/
def setInsert (x : Nat) : List Nat → List Nat
  | [] => [x]
  | y :: ys =>
    if x < y then x :: y :: ys
    else if x = y then y :: ys
    else y :: setInsert x ys

/-- The operation `std::set::erase(key)`. -/
def setErase (x : Nat) (l : List Nat) : List Nat := l.filter (fun y => y != x)

/-- The operation `std::map::find`, `none` standing for `end()`. -/
def mapFind (k : Nat) : List (Nat × SendDatagram) → Option SendDatagram
  | [] => none
  | e :: m => if e.1 = k then some e.2 else mapFind k m

/-- The assignment `m[k] = d` on a `std::map`: insert or overwrite, keys kept ascending. -/
def mapAssign (k : Nat) (d : SendDatagram) :
    List (Nat × SendDatagram) → List (Nat × SendDatagram)
  | [] => [(k, d)]
  | e :: m =>
    if k < e.1 then (k, d) :: e :: m
    else if k = e.1 then (k, d) :: m
    else e :: mapAssign k d m

/-- The operation `std::map::erase(key)`. -/
def mapErase (k : Nat) (m : List (Nat × SendDatagram)) : List (Nat × SendDatagram) :=
  m.filter (fun e => e.1 != k)

/-- The call `it->second->set_acked(true)` for the entry stored under `k`. -/
def mapSetAcked (k : Nat) (m : List (Nat × SendDatagram)) : List (Nat × SendDatagram) :=
  m.map (fun e => if e.1 = k then (e.1, { e.2 with acked := true }) else e)

/-! ## The queue of write operations -/

/-- A pending write operation (`io::basic_pending_write_operation`): `id`
stands for the pointer that identifies it, `const_buffers` for the bytes of
its buffers. -/
structure WriteOp where
  id : Nat
  const_buffers : List Nat
deriving DecidableEq, Repr

/-- Modelled from the spec: the class `queue::basic_async_queue` of the
sender's `write_ops_queue_` is not among the sources.  The queue holds the
pending write operations in arrival order and can be closed. -/
structure WriteOpsQueue where
  ops : List WriteOp
  closed : Bool
deriving DecidableEq, Repr

/-- Modelled from the spec: the call `write_ops_queue_.get(ec)` of the absent
queue class takes the operation at the front; `none` stands for a call that
sets `ec`, which an empty queue does. -/
def WriteOpsQueue.get (q : WriteOpsQueue) : Option (WriteOp × WriteOpsQueue) :=
  match q.ops with
  | [] => none
  | op :: rest => some (op, { q with ops := rest })

/-- Modelled from the spec: the call `write_ops_queue_.close(ec)` of the absent
queue class. -/
def WriteOpsQueue.close (q : WriteOpsQueue) : WriteOpsQueue := { q with closed := true }

/-- Modelled from the spec: the call `write_ops_queue_.push(write_op, ec)` of
the absent queue class; a closed queue refuses the operation and sets `ec` to
`closed_error`, an open one appends it and leaves `ec` clear. -/
def WriteOpsQueue.push (q : WriteOpsQueue) (op : WriteOp) (closed_error : ErrorCode) :
    WriteOpsQueue × ErrorCode :=
  if q.closed then (q, closed_error)
  else ({ q with ops := q.ops ++ [op] }, ErrorCode.success)

/-! ## Sender state -/

/-- The fields of the socket session the sender reads and writes. -/
structure Session where
  packet_seq_gen : SequenceGenerator
  message_seq_gen : SequenceGenerator
  packet_data_size : Nat
  remote_socket_id : Nat
  window_flow_size : Nat
  /-- number of `p_flow->RegisterNewSocket(p_session_)` calls so far -/
  flow_registrations : Nat
deriving DecidableEq, Repr

/-- The congestion control object, as far as the sender uses it. -/
structure CongestionControl where
  window_flow_size : Nat
  /-- the value of `sending_period()` in nanoseconds -/
  sending_period : Int
  /-- argument of the last `UpdateLastSendSeqNum` call -/
  last_send_seq_num : Nat
deriving DecidableEq, Repr

/-- The data members of `Sender`. -/
structure Sender where
  p_session : Session
  p_congestion_control : CongestionControl
  max_send_size : Nat
  loss_packets : List Nat
  nack_packets : List (Nat × SendDatagram)
  next_sending_packet_time : Int
  packets_to_send : List SendDatagram
  unqueue_write_op : Bool
  /-- the member `write_ops_queue_`, empty and open when the sender is built -/
  write_ops_queue : WriteOpsQueue := { ops := [], closed := false }
deriving DecidableEq, Repr

/-- The constructor `Sender::Sender` followed by `Init`: empty containers,
`max_send_size_(8192)`, `next_sending_packet_time_(0)`. -/
def Sender.init (sess : Session) (cc : CongestionControl) : Sender :=
  { p_session := sess
    p_congestion_control := cc
    max_send_size := 8192
    loss_packets := []
    nack_packets := []
    next_sending_packet_time := 0
    packets_to_send := []
    unqueue_write_op := true }

/-- The call `p_session_->p_flow->RegisterNewSocket(p_session_)`. -/
def Sender.RegisterNewSocket (s : Sender) : Sender :=
  { s with p_session := { s.p_session with
      flow_registrations := s.p_session.flow_registrations + 1 } }

/-! ## `UpdateLossListFromNackDgr` -/

/-- The inner loop `while (j != second_range) { insert(j); j = Inc(j); }`.
The fuel bounds the number of iterations. -/
def rangeLoop : Nat → Nat → Nat → List Nat → List Nat
  | 0, _, _, loss => loss
  | fuel + 1, j, second_range, loss =>
    if j != second_range then
      rangeLoop fuel (Inc j) second_range (setInsert j loss)
    else loss

/-- The `for` loop of `UpdateLossListFromNackDgr` over the remaining elements
`nack_loss_list[i..]`.  An element with bit 31 set consumes the element after
it (the `++i` in the body), whether or not that element is a range end. -/
def nackLoop : List Nat → List Nat → List Nat
  | [], loss => loss
  | [current_seq], loss =>
    if IsInterval current_seq then loss
    else setInsert (GetPacketSequenceValue current_seq) loss
  | current_seq :: next_seq :: rest, loss =>
    if IsInterval current_seq then
      if !IsInterval next_seq then
        nackLoop rest
          (rangeLoop SEQ_MOD (GetPacketSequenceValue current_seq)
            (GetPacketSequenceValue next_seq) loss)
      else nackLoop rest loss
    else
      nackLoop (next_seq :: rest) (setInsert (GetPacketSequenceValue current_seq) loss)

/-- The method `Sender::UpdateLossListFromNackDgr`, on the loss list of the NAK payload. -/
def UpdateLossListFromNackDgr (s : Sender) (nack_loss_list : List Nat) : Sender :=
  let s1 := { s with loss_packets := nackLoop nack_loss_list s.loss_packets }
  if s1.loss_packets.isEmpty then s1 else s1.RegisterNewSocket

/-! ## `UpdateLossListFromNackPackets` -/

/-- The `while` loop of `UpdateLossListFromNackPackets` over the entries of
`nack_packets_` from the iterator position on; the result is the new loss set
and the entries that stay in the map. -/
def nackPacketsLoop :
    List (Nat × SendDatagram) → List Nat → List Nat × List (Nat × SendDatagram)
  | [], loss => (loss, [])
  | e :: m, loss =>
    if !e.2.acked then
      let r := nackPacketsLoop m (setInsert e.1 loss)
      (r.1, e :: r.2)
    else if !e.2.pending_send then
      nackPacketsLoop m loss
    else
      let r := nackPacketsLoop m loss
      (r.1, e :: r.2)

/-- The method `Sender::UpdateLossListFromNackPackets`. -/
def UpdateLossListFromNackPackets (s : Sender) : Sender :=
  if s.nack_packets.isEmpty then s
  else
    let r := nackPacketsLoop s.nack_packets s.loss_packets
    { s with loss_packets := r.1, nack_packets := r.2 }.RegisterNewSocket

/-- The method `Sender::HasLossPackets`. -/
def HasLossPackets (s : Sender) : Bool := !s.loss_packets.isEmpty

/-- The method `Sender::HasNackPackets`. -/
def HasNackPackets (s : Sender) : Bool := !s.nack_packets.isEmpty

/-- The method `Sender::HasPacketToSend`. -/
def HasPacketToSend (s : Sender) : Bool :=
  !s.packets_to_send.isEmpty || !s.loss_packets.isEmpty

/-! ## `NextScheduledPacket` -/

/-- The method `Sender::UpdateNextSendingPacketTime`: the value every branch assigns to
`next_sending_packet_time_`; `gen_time` is the measured
`Clock::now() - start_gen` in nanoseconds. -/
def UpdateNextSendingPacketTime (s : Sender) (d : SendDatagram) (gen_time : Int) : Sender :=
  { s with next_sending_packet_time :=
      if d.header.packet_sequence_number % 16 == 0 || !s.loss_packets.isEmpty then 0
      else
        let next_interval := s.p_congestion_control.sending_period - gen_time
        if next_interval > 0 then next_interval else 0 }

/-- The second half of `NextScheduledPacket` (lines 202 to 243): take the front
of `packets_to_send_` unless the window is closed.  `seq_num` is the value of
`packet_seq_gen.current()` read at the start of the call and `elapsed_us` the
measured `Clock::now() - start_timestamp` in microseconds. -/
def freshPacket (s : Sender) (seq_num elapsed_us : Nat) (gen_time : Int) :
    Option SendDatagram × Sender :=
  match s.packets_to_send with
  | [] => (none, s)
  | front :: rest =>
    if seq_num % 16 != 1 &&
        s.nack_packets.length >=
          min s.p_congestion_control.window_flow_size s.p_session.window_flow_size then
      (none, s)
    else
      let d : SendDatagram :=
        { front with header := { front.header with
            timestamp := elapsed_us % 4294967296
            packet_sequence_number := seq_num } }
      let s1 : Sender :=
        { s with
          p_congestion_control := { s.p_congestion_control with last_send_seq_num := seq_num }
          p_session := { s.p_session with
            packet_seq_gen := s.p_session.packet_seq_gen.Next.2 }
          packets_to_send := rest }
      let s2 := UpdateNextSendingPacketTime s1 d gen_time
      let s3 : Sender := { s2 with nack_packets := mapAssign seq_num d s2.nack_packets }
      (mapFind seq_num s3.nack_packets, s3)

/-- The method `Sender::NextScheduledPacket`.  The result is the datagram the returned
pointer designates (`none` for `nullptr`) and the state after the call. -/
def NextScheduledPacket (s : Sender) (elapsed_us : Nat) (gen_time : Int) :
    Option SendDatagram × Sender :=
  let seq_num := s.p_session.packet_seq_gen.current
  match s.loss_packets with
  | [] => freshPacket s seq_num elapsed_us gen_time
  | packet_loss_number :: _ =>
    let s1 : Sender := { s with loss_packets := setErase packet_loss_number s.loss_packets }
    match mapFind packet_loss_number s1.nack_packets with
    | none => freshPacket s1 seq_num elapsed_us gen_time
    | some d =>
      if !d.acked then (some d, UpdateNextSendingPacketTime s1 d gen_time)
      else if !d.pending_send then
        freshPacket { s1 with nack_packets := mapErase packet_loss_number s1.nack_packets }
          seq_num elapsed_us gen_time
      else freshPacket s1 seq_num elapsed_us gen_time

/-! ## `AckPackets` -/

/-- The `while` loop of `AckPackets`: walk backwards from `current_seq_num`
as long as the sequence number is a key of `nack_packets_`. -/
def ackLoop : Nat → Nat → List Nat → List (Nat × SendDatagram) →
    List Nat × List (Nat × SendDatagram)
  | 0, _, loss, nack => (loss, nack)
  | fuel + 1, current_seq_num, loss, nack =>
    match mapFind current_seq_num nack with
    | none => (loss, nack)
    | some _ =>
      ackLoop fuel (Dec current_seq_num) (setErase current_seq_num loss)
        (mapSetAcked current_seq_num nack)

/-- The method `Sender::AckPackets`. -/
def AckPackets (s : Sender) (seq_number : Nat) : Sender :=
  let seq_number := GetPacketSequenceValue seq_number
  let r := ackLoop SEQ_MOD (Dec seq_number) s.loss_packets s.nack_packets
  { s with loss_packets := r.1, nack_packets := r.2 }

/-! ## Segmentation of a write -/

/-- The method `Sender::AddPacket`: refuse when the queue holds more than `max_send_size_`
datagrams, push at the back otherwise. -/
def AddPacket (s : Sender) (d : SendDatagram) : Bool × Sender :=
  if s.packets_to_send.length > s.max_send_size then (false, s)
  else (true, { s with packets_to_send := s.packets_to_send ++ [d] })

/-- The call `set_message_position` through a pointer to the datagram at the back of
`packets_to_send_`.  Both `p_current_datagram` after a successful `AddPacket`
and `p_previous_datagram` at a refused one designate that datagram. -/
def setBackPosition (p : MessagePosition) : List SendDatagram → List SendDatagram
  | [] => []
  | [d] => [{ d with header := { d.header with message_position := p } }]
  | d :: e :: ds => d :: setBackPosition p (e :: ds)

/-- The inner loop of `ProcessWriteOpBuffers`: copy bytes of the user buffer
into the payload until one of the two is exhausted.  The result is the payload
and the rest of the user buffer. -/
def copyLoop : Nat → List Nat → List Nat → List Nat × List Nat
  | 0, user_buf, payload => (payload, user_buf)
  | _ + 1, [], payload => (payload, [])
  | room + 1, b :: user_buf, payload => copyLoop room user_buf (payload ++ [b])

/-- The outer loop of `ProcessWriteOpBuffers`.  The result is the returned
byte count and the sender state. -/
def segmentLoop (fresh : SendDatagram) (payload_size message_seq_number : Nat) :
    Nat → Sender → List Nat → Nat → Nat → Nat × Sender
  | 0, s, _, _, total_copy => (total_copy, s)
  | fuel + 1, s, user_buf, packet_created, total_copy =>
    if user_buf.isEmpty then (total_copy, s)
    else
      let c := copyLoop payload_size user_buf []
      let copy_length := c.1.length
      let dgr : SendDatagram :=
        { fresh with
          payload := c.1
          header := { fresh.header with
            message_number := message_seq_number
            destination_socket := s.p_session.remote_socket_id } }
      let a := AddPacket s dgr
      let add_error := !a.1
      if add_error && packet_created == 0 then (0, a.2)
      else if add_error then
        let p := if packet_created == 1 then MessagePosition.ONLY_ONE_PACKET
                 else MessagePosition.LAST
        (total_copy, { a.2 with packets_to_send := setBackPosition p a.2.packets_to_send })
      else
        let p :=
          if !c.2.isEmpty then
            (if packet_created == 1 then MessagePosition.ONLY_ONE_PACKET
             else MessagePosition.LAST)
          else MessagePosition.MIDDLE
        segmentLoop fresh payload_size message_seq_number fuel
          { a.2 with packets_to_send := setBackPosition p a.2.packets_to_send }
          c.2 (packet_created + 1) (total_copy + copy_length)

/-- The method `Sender::ProcessWriteOpBuffers`.  The buffer sequence is given
by its bytes in order (what the `buffers_begin` iterator runs over).  The
payload of a fragment has room for `packet_data_size() - Header::size` bytes
(the subtraction is the one on `Nat`; the claims below that depend on the
payload size assume `Header::size < packet_data_size()`).  Every iteration of
the outer loop consumes a byte or lengthens the queue, so the fuel given here
is never exhausted (`segmentLoop_closed_form` below). -/
def ProcessWriteOpBuffers (P : Protocol) (s : Sender) (write_buffers : List Nat) :
    Nat × Sender :=
  let n := s.p_session.message_seq_gen.Next
  let s1 : Sender := { s with p_session := { s.p_session with message_seq_gen := n.2 } }
  segmentLoop P.new_datagram (s.p_session.packet_data_size - P.header_size) n.1
    (write_buffers.length + s.max_send_size + 2) s1 write_buffers 0 0

/-- The method `Sender::ProcessWriteOp`: the completion posted for the write operation
(`none` when `ec` is set) and the state. -/
def ProcessWriteOp (P : Protocol) (s : Sender) (ec : Bool) (const_buffers : List Nat) :
    Option (ErrorCode × Nat) × Sender :=
  if ec then (none, { s with unqueue_write_op := false })
  else
    let r := ProcessWriteOpBuffers P s const_buffers
    (some (ErrorCode.success, r.1), r.2.RegisterNewSocket)

/-! ## The invariant of the retransmission containers -/

/-- The sequence number `x` is a key of the map and its datagram is not acknowledged. -/
def isUnackedKey (nack : List (Nat × SendDatagram)) (x : Nat) : Bool :=
  match mapFind x nack with
  | some d => !d.acked
  | none => false

/-- Every element of the loss set is a key of the map with `acked == false`. -/
def LossIn (loss : List Nat) (nack : List (Nat × SendDatagram)) : Prop :=
  ∀ x ∈ loss, isUnackedKey nack x = true

instance (loss : List Nat) (nack : List (Nat × SendDatagram)) : Decidable (LossIn loss nack) := by
  unfold LossIn; infer_instance

/-- The keys of the `std::map` are strictly ascending. -/
def KeysAscending (nack : List (Nat × SendDatagram)) : Prop :=
  (nack.map Prod.fst).Pairwise (fun a b => a < b)

instance (nack : List (Nat × SendDatagram)) : Decidable (KeysAscending nack) := by
  unfold KeysAscending; infer_instance

/-- The state invariant: the map is a well formed `std::map`, the loss set
lies inside its unacknowledged keys, and no queued datagram is acknowledged. -/
def Sender.Inv (s : Sender) : Prop :=
  KeysAscending s.nack_packets ∧ LossIn s.loss_packets s.nack_packets ∧
    ∀ d ∈ s.packets_to_send, d.acked = false

instance (s : Sender) : Decidable s.Inv := by
  unfold Sender.Inv; infer_instance

/-- The operations of the sender that touch the retransmission containers. -/
inductive SenderOp where
  | write (const_buffers : List Nat)
  | nackPackets
  | next (elapsed_us : Nat) (gen_time : Int)
  | ack (seq_number : Nat)
  | nackDgr (nack_loss_list : List Nat)
deriving DecidableEq, Repr

/-- The operation is not `UpdateLossListFromNackDgr`. -/
def SenderOp.isLocal : SenderOp → Bool
  | SenderOp.nackDgr _ => false
  | _ => true

/-- The state after one operation. -/
def SenderOp.apply (P : Protocol) (s : Sender) : SenderOp → Sender
  | SenderOp.write const_buffers => (ProcessWriteOp P s false const_buffers).2
  | SenderOp.nackPackets => UpdateLossListFromNackPackets s
  | SenderOp.next elapsed_us gen_time => (NextScheduledPacket s elapsed_us gen_time).2
  | SenderOp.ack seq_number => AckPackets s seq_number
  | SenderOp.nackDgr nack_loss_list => UpdateLossListFromNackDgr s nack_loss_list

/-- The state after a sequence of operations. -/
def runOps (P : Protocol) (ops : List SenderOp) (s : Sender) : Sender :=
  ops.foldl (fun t op => op.apply P t) s

/-- The fragment `ProcessWriteOpBuffers` builds from `new SendDatagram()`:
payload, message number, destination socket and position label. -/
def mkFragment (fresh : SendDatagram) (message_seq_number destination_socket : Nat)
    (payload : List Nat) (p : MessagePosition) : SendDatagram :=
  { fresh with
    payload := payload
    header := { fresh.header with
      message_number := message_seq_number
      destination_socket := destination_socket
      message_position := p } }

/-- The label the non-error branch of `ProcessWriteOpBuffers` gives the
fragment created when `packet_created` fragments were made before it and
`rest` is what remains of the user buffer. -/
def fragmentLabel (packet_created : Nat) (rest : List Nat) : MessagePosition :=
  if !rest.isEmpty then
    (if packet_created == 1 then MessagePosition.ONLY_ONE_PACKET else MessagePosition.LAST)
  else MessagePosition.MIDDLE

/-- The fragments the outer loop of `ProcessWriteOpBuffers` has pushed after
at most `room` successful `AddPacket` calls on the user buffer `user_buf`,
`packet_created` fragments having been made before. -/
def acceptedFragments (fresh : SendDatagram) (payload_size message_seq_number
    destination_socket : Nat) : Nat → Nat → List Nat → List SendDatagram
  | 0, _, _ => []
  | _ + 1, _, [] => []
  | room + 1, packet_created, b :: user_buf =>
    mkFragment fresh message_seq_number destination_socket ((b :: user_buf).take payload_size)
        (fragmentLabel packet_created ((b :: user_buf).drop payload_size)) ::
      acceptedFragments fresh payload_size message_seq_number destination_socket room
        (packet_created + 1) ((b :: user_buf).drop payload_size)

/-! ## Concrete states used in the evaluations below -/

/-- A freshly constructed datagram with all fields zero. -/
def exDatagram : SendDatagram :=
  { header :=
      { timestamp := 0, packet_sequence_number := 0, destination_socket := 0,
        message_number := 0, message_position := MessagePosition.FIRST }
    payload := [], acked := false, pending_send := false }

/-- A protocol with a 16 byte header. -/
def exProtocol : Protocol := { header_size := 16, new_datagram := exDatagram }

/-- A session with 4 payload bytes per datagram (`packet_data_size` 20) and peer window `w`. -/
def exSession (w : Nat) : Session :=
  { packet_seq_gen := { current := 0 }, message_seq_gen := { current := 0 },
    packet_data_size := 20, remote_socket_id := 7, window_flow_size := w,
    flow_registrations := 0 }

/-- A congestion control with window `w` and a sending period of 1000 ns. -/
def exCC (w : Nat) : CongestionControl :=
  { window_flow_size := w, sending_period := 1000, last_send_seq_num := 0 }

/-- The sender right after construction, both windows `w`. -/
def exSender (w : Nat) : Sender := Sender.init (exSession w) (exCC w)

/-- Two fragments queued on a fresh sender with both windows 1, the first of
them already sent: one entry in flight, the generator at 1. -/
def exWindowOne : Sender :=
  (NextScheduledPacket
    (ProcessWriteOpBuffers exProtocol (exSender 1) [1, 2, 3, 4, 5, 6, 7, 8]).2 0 0).2

/-- A sender with the sequence numbers 3 and 5 in flight and reported lost. -/
def exLossy : Sender :=
  { exSender 4 with
    loss_packets := [3, 5]
    nack_packets :=
      [(3, { exDatagram with payload := [1], header := { exDatagram.header with
              packet_sequence_number := 3 } }),
       (5, { exDatagram with payload := [2], header := { exDatagram.header with
              packet_sequence_number := 5 } })]
    packets_to_send := [{ exDatagram with payload := [9] }] }

/-- A sender whose generator started at 0x7FFFFFFE and that has sent four
datagrams: the keys in flight are 0x7FFFFFFE, 0x7FFFFFFF, 0 and 1. -/
def exWrapped : Sender :=
  let s0 : Sender := Sender.init
    { exSession 8 with packet_seq_gen := { current := 0x7FFFFFFE } } (exCC 8)
  let s1 := (ProcessWriteOpBuffers exProtocol s0 [1, 2, 3, 4, 5, 6, 7, 8, 9, 10, 11, 12, 13]).2
  let s2 := (NextScheduledPacket s1 0 0).2
  let s3 := (NextScheduledPacket s2 0 0).2
  let s4 := (NextScheduledPacket s3 0 0).2
  (NextScheduledPacket s4 0 0).2

/-- A sender with the sequence numbers 3, 4 and 5 in flight, 3 and 4 reported lost. -/
def exContiguous : Sender :=
  { exSender 4 with
    loss_packets := [3, 4]
    nack_packets :=
      [(3, { exDatagram with payload := [1] }), (4, { exDatagram with payload := [2] }),
       (5, { exDatagram with payload := [3] })] }

/-- A sender whose queue accepts `room` more datagrams (`max_send_size_` is
`room - 1` and the queue is empty); 4 payload bytes per datagram. -/
def exRoom (room : Nat) : Sender := { exSender 4 with max_send_size := room - 1 }

/-- A sender whose queue is full: one datagram queued, `max_send_size_` 0. -/
def exFull : Sender :=
  { exSender 4 with max_send_size := 0, packets_to_send := [exDatagram, exDatagram] }

/-- A run of the sender without any NAK datagram: two writes, three sends, an
expiry of the EXP timer, retransmissions, an acknowledgement and a second expiry. -/
def exRun : List SenderOp :=
  [SenderOp.write [1, 2, 3, 4, 5, 6, 7, 8, 9], SenderOp.next 10 0, SenderOp.next 20 0,
   SenderOp.nackPackets, SenderOp.next 30 0, SenderOp.write [10, 11], SenderOp.ack 1,
   SenderOp.next 40 0, SenderOp.nackPackets]

/-- A sender with both windows 1, one datagram in flight under key 0 and one
datagram queued, the generator at `current`. -/
def exGate (current : Nat) : Sender :=
  { exSender 1 with
    p_session := { exSession 1 with packet_seq_gen := { current := current } }
    nack_packets := [(0, { exDatagram with payload := [1] })]
    packets_to_send := [{ exDatagram with payload := [9] }] }

/-- A sender with the acknowledged keys 1 (not pending) and 2 (pending) and the
unacknowledged key 3 in flight, and 7 in the loss set. -/
def exSweep : Sender :=
  { exSender 4 with
    loss_packets := [7]
    nack_packets :=
      [(1, { exDatagram with payload := [1], acked := true }),
       (2, { exDatagram with payload := [2], acked := true, pending_send := true }),
       (3, { exDatagram with payload := [3] })] }

/-! ## The defaults of `BaseState` (`base_state.h`) -/

/-- The enumeration `BaseState::type`. -/
inductive StateType where
  | CLOSED
  | CONNECTING
  | ACCEPTING
  | CONNECTED
  | TIMEOUT
deriving DecidableEq, Repr

/-- What a pending read or write operation is completed with: the arguments of
`op->complete(ec, bytes)` in the handler posted to the io service. -/
structure Completion where
  ec : ErrorCode
  bytes_transferred : Nat
deriving DecidableEq, Repr

/-- The default `BaseState::PushReadOp`: the state object `st` is not touched
and the operation is completed with `not_connected` and 0 bytes. -/
def BaseState.PushReadOp {σ : Type} (st : σ) : σ × Completion :=
  (st, { ec := ErrorCode.not_connected, bytes_transferred := 0 })

/-- The default `BaseState::PushWriteOp`. -/
def BaseState.PushWriteOp {σ : Type} (st : σ) : σ × Completion :=
  (st, { ec := ErrorCode.not_connected, bytes_transferred := 0 })

/-- The default `BaseState::HasPacketToSend`. -/
def BaseState.HasPacketToSend {σ : Type} (_st : σ) : Bool := false

/-- The default `BaseState::NextScheduledPacket`: `nullptr`. -/
def BaseState.NextScheduledPacket {σ : Type} (st : σ) : Option SendDatagram × σ := (none, st)

/-- The default `BaseState::NextScheduledPacketTime`: zero nanoseconds. -/
def BaseState.NextScheduledPacketTime {σ : Type} (_st : σ) : Int := 0

/-- The default `BaseState::OnConnectionDgr`: the datagram is dropped. -/
def BaseState.OnConnectionDgr {σ δ : Type} (st : σ) (_p_connection_dgr : δ) : σ := st

/-- The default `BaseState::OnControlDgr`: the datagram is dropped. -/
def BaseState.OnControlDgr {σ δ : Type} (st : σ) (_p_control_dgr : δ) : σ := st

/-- The default `BaseState::OnDataDgr`: the datagram is dropped. -/
def BaseState.OnDataDgr {σ δ : Type} (st : σ) (_p_datagram : δ) : σ := st

/-! ## The connected state (`connected_state.h`) -/

/-- The type code of a control datagram, `other` standing for every code the
`switch` of `OnControlDgr` does not list. -/
inductive ControlType where
  | KEEP_ALIVE
  | ACK
  | NACK
  | SHUTDOWN
  | ACK_OF_ACK
  | MESSAGE_DROP_REQUEST
  | other (code : Nat)
deriving DecidableEq, Repr

/-- The payload of an ACK datagram: after `SetAsLightAck` only the packet
sequence number, after `SetAsFullAck` the fields the handler fills in. -/
inductive AckPayload where
  | light (max_packet_sequence_number : Nat)
  | full (max_packet_sequence_number rtt rtt_var available_buffer_size
      packet_arrival_speed estimated_link_capacity : Nat)
deriving DecidableEq, Repr

/-- A call of `p_session_->AsyncSendControlPacket(dgr, type, additional_info,
handler)`.  For an ACK, `ack` holds the header time stamp and the payload the
handler has set; the other datagrams are sent as constructed. -/
structure ControlPacket where
  type : ControlType
  additional_info : Nat
  ack : Option (Nat × AckPayload)
deriving DecidableEq, Repr

/-- A received data datagram, as far as the connected state looks at it. -/
structure DataDatagram where
  packet_sequence_number : Nat
  payload : List Nat
deriving DecidableEq, Repr

/-- A record of the ACK history. -/
structure AckRecord where
  ack_seq : Nat
  packet_seq : Nat
  timestamp : Int
deriving DecidableEq, Repr

/-- Modelled from the spec: the data of the receiver (`receiver.h` is not among
the sources).  The fields read and written through getters and setters by
`ConnectedState` are plain fields; the reassembly buffer is summarised by the
largest sequence number received and the list of gaps (section 3). -/
structure Receiver where
  exp_count : Nat
  last_exp_reset : Int
  last_ack_number : Nat
  last_ack_timestamp : Int
  largest_ack_number_acknowledged : Nat
  largest_acknowledged_seq_number : Nat
  last_ack2_seq_number : Nat
  ack_history : List AckRecord
  largest_received : Nat
  gaps : List Nat
  available_buffer : Nat
deriving DecidableEq, Repr

/-- Modelled from the spec: the connection info record of section 3, times in
microseconds (`connection_info.h` is not among the sources). -/
structure ConnectionInfo where
  rtt : Int
  rtt_var : Int
  ack_period : Int
  nack_period : Int
  exp_period : Int
  packet_arrival_speed : Nat
  estimated_link_capacity : Nat
deriving DecidableEq, Repr

/-- The payload of a received ACK datagram as `OnAck` reads it through the
class `AckDatagram`, whose source is absent: the fields and the two tests
`IsLightAck()` and `IsFull()` on the payload size. -/
structure AckDatagramPayload where
  max_packet_sequence_number : Nat
  IsLightAck : Bool
  IsFull : Bool
  rtt : Nat
  available_buffer_size : Nat
  packet_arrival_speed : Nat
  estimated_link_capacity : Nat
deriving DecidableEq, Repr

/-- A received ACK datagram: the additional info of its header and its
payload. -/
structure AckDatagram where
  additional_info : Nat
  payload : AckDatagramPayload
deriving DecidableEq, Repr

/-- A received control datagram: the type code `header().flags()`, the
additional info of the header, and the payload as the classes `AckDatagram`
and `NAckDatagram` read it once the buffers are copied into them
(`payload().GetLossPackets()` for the latter). -/
structure ControlDatagram where
  flags : ControlType
  additional_info : Nat
  ack_payload : AckDatagramPayload
  loss_packets : List Nat
deriving DecidableEq, Repr

/-- The callbacks of the congestion control, for the log of invocations. -/
inductive CCEvent where
  | OnPacketReceived
  | OnPacketSent
  | OnAck
  | OnLoss
  | OnTimeout
  | OnClose
deriving DecidableEq, Repr

/-- The operations `ConnectedState` calls on classes whose sources are absent
(receiver, connection info, congestion control, the comparison methods of the
sequence generator, the session and the queue of write operations), and the
constants `Logger::ACTIVE` and `Header::NO_ADDITIONAL_INFO`.  Operations that
read the clock take the time, in microseconds, as last argument.
`GetPacketArrivalSpeed` and `GetEstimatedLinkCapacity` stand for the values
after `(uint32_t)ceil(...)`.  The callbacks of the congestion control act on
its own data. -/
structure Env where
  logger_active : Bool
  NO_ADDITIONAL_INFO : Nat
  AckNumber : Receiver → SequenceGenerator → Nat
  OnDataDatagram : Receiver → DataDatagram → Receiver
  StoreAck : Receiver → Nat → Nat → Bool → Int → Receiver
  AvailableReceiveBufferSize : Receiver → Nat
  GetPacketArrivalSpeed : Receiver → Nat
  GetEstimatedLinkCapacity : Receiver → Nat
  ResetExpCounter : Receiver → Int → Receiver
  IncExpCounter : Receiver → Receiver
  HasTimeout : Receiver → Int → Bool
  UpdateExpPeriod : ConnectionInfo → Nat → ConnectionInfo
  OnPacketReceived : CongestionControl → DataDatagram → CongestionControl
  OnTimeout : CongestionControl → CongestionControl
  /-- the methods `Compare` and `SeqOffset` of the packet sequence generator -/
  Compare : SequenceGenerator → Nat → Nat → Int
  SeqOffset : SequenceGenerator → Nat → Nat → Int
  /-- the value `window_flow_size.load() - offset` as stored back into the
  session's `window_flow_size`, whose integer type the absent session header
  declares -/
  window_sub : Nat → Int → Nat
  UpdateRTT : ConnectionInfo → Int → ConnectionInfo
  UpdateRTTVar : ConnectionInfo → Nat → ConnectionInfo
  UpdateAckPeriod : ConnectionInfo → ConnectionInfo
  UpdateNAckPeriod : ConnectionInfo → ConnectionInfo
  UpdatePacketArrivalSpeed : ConnectionInfo → Nat → ConnectionInfo
  UpdateEstimatedLinkCapacity : ConnectionInfo → Nat → ConnectionInfo
  /-- the method `Receiver::AckAck`: the packet sequence number and the round
  trip time it writes through its pointers when it returns `true`, `none`
  when it returns `false` -/
  AckAck : Receiver → Nat → Int → Option (Nat × Int) × Receiver
  /-- the method `Receiver::Stop` -/
  ReceiverStop : Receiver → Receiver
  OnAck : CongestionControl → AckDatagram → SequenceGenerator → CongestionControl
  OnLoss : CongestionControl → List Nat → SequenceGenerator → CongestionControl
  OnClose : CongestionControl → CongestionControl
  /-- the error code `push` sets on a closed queue of write operations -/
  push_closed_error : ErrorCode

/-- A deadline timer: the period of the pending `async_wait` (`none` when
nothing is pending) and the number of `async_wait` calls made so far. -/
structure Timer where
  expiry : Option Int
  waits : Nat
deriving DecidableEq, Repr

/-- The call `timer.cancel(ec)`. -/
def Timer.cancel (t : Timer) : Timer := { t with expiry := none }

/-- The calls `timer.expires_from_now(period); timer.async_wait(handler)`. -/
def Timer.launch (t : Timer) (period : Int) : Timer :=
  { expiry := some period, waits := t.waits + 1 }

/-- The data members of `ConnectedState` and the fields of the session it uses
beyond those of the sender (`sender.p_session`): `connection_info`,
`ack_seq_gen`, `start_timestamp` and the current state of the session, which
`ChangeState` replaces.  `sent` logs the `AsyncSendControlPacket` calls and
`cc_events` the callbacks made on the congestion control, whose data is
`sender.p_congestion_control`. -/
structure ConnectedState where
  sender : Sender
  receiver : Receiver
  connection_info : ConnectionInfo
  ack_seq_gen : SequenceGenerator
  start_timestamp : Int
  session_state : StateType
  stop_timers : Bool
  ack_timer : Timer
  nack_timer : Timer
  exp_timer : Timer
  nack_count : Nat
  ack_count : Nat
  ack_sent_count : Nat
  ack2_count : Nat
  ack2_sent_count : Nat
  received_count : Nat
  packet_received_since_light_ack : Nat
  sent : List ControlPacket
  cc_events : List CCEvent
  /-- the arguments of the `p_connection_info_cache->Update` calls so far -/
  cache_updates : List ConnectionInfo := []
deriving DecidableEq, Repr

/-- The conversion `(uint32_t)` of a signed 64 bit count. -/
def toUInt32 (x : Int) : Nat := (x % 4294967296).toNat

/-- The method `ConnectedState::StopTimers`. -/
def ConnectedState.StopTimers (st : ConnectedState) : ConnectedState :=
  { st with
    stop_timers := true
    ack_timer := st.ack_timer.cancel
    nack_timer := st.nack_timer.cancel
    exp_timer := st.exp_timer.cancel }

/-- The method `ConnectedState::Close`: `ChangeState` makes a closed state the
current state of the session. -/
def ConnectedState.Close (st : ConnectedState) : ConnectedState :=
  { st with session_state := StateType.CLOSED }

/-- The method `ConnectedState::LaunchAckTimer`. -/
def ConnectedState.LaunchAckTimer (st : ConnectedState) : ConnectedState :=
  if st.stop_timers then st
  else { st with ack_timer := st.ack_timer.launch st.connection_info.ack_period }

/-- The method `ConnectedState::LaunchExpTimer`. -/
def ConnectedState.LaunchExpTimer (E : Env) (st : ConnectedState) : ConnectedState :=
  if st.stop_timers then st
  else
    let ci := E.UpdateExpPeriod st.connection_info st.receiver.exp_count
    { st with connection_info := ci, exp_timer := st.exp_timer.launch ci.exp_period }

/-- The method `ConnectedState::ResetExp`. -/
def ConnectedState.ResetExp (E : Env) (st : ConnectedState) (with_timer : Bool) (now : Int) :
    ConnectedState :=
  let st1 : ConnectedState := { st with receiver := E.ResetExpCounter st.receiver now }
  if with_timer || !HasNackPackets st1.sender then
    { st1 with exp_timer := st1.exp_timer.cancel }
  else st1

/-- The test of `AckTimerHandler` (lines 243 to 248) under which no ACK is
sent: the timer fired and the ack number is already acknowledged, or it is the
last ack number sent and less than twice the round trip time has passed. -/
def ConnectedState.ackSuppressed (st : ConnectedState) (light_ack : Bool) (ack_number : Nat)
    (now : Int) : Bool :=
  !light_ack &&
    (ack_number == st.receiver.largest_ack_number_acknowledged ||
      (ack_number == st.receiver.last_ack_number &&
        decide (now - st.receiver.last_ack_timestamp < 2 * st.connection_info.rtt)))

/-- The payload `AckTimerHandler` fills in (lines 263 to 285); `is_light` is
the value of `light_ack && packet_received_since_light_ack_ >= 64`. -/
def ConnectedState.ackPayload (E : Env) (st : ConnectedState) (is_light : Bool)
    (ack_number : Nat) : AckPayload :=
  if is_light then AckPayload.light ack_number
  else
    let available_buffer := E.AvailableReceiveBufferSize st.receiver
    AckPayload.full ack_number (toUInt32 st.connection_info.rtt)
      (toUInt32 st.connection_info.rtt_var)
      (if available_buffer < 2 then 2 else available_buffer)
      (E.GetPacketArrivalSpeed st.receiver) (E.GetEstimatedLinkCapacity st.receiver)

/-- The part of `AckTimerHandler` that builds, registers and sends the ACK
(lines 252 to 301). -/
def ConnectedState.emitAck (E : Env) (st : ConnectedState) (light_ack : Bool)
    (ack_number : Nat) (now : Int) : ConnectedState :=
  let ack_sent_count :=
    if E.logger_active then (st.ack_sent_count + 1) % 4294967296 else st.ack_sent_count
  let ack_seq_num := st.ack_seq_gen.current
  let is_light := light_ack && decide (st.packet_received_since_light_ack ≥ 64)
  let payload := st.ackPayload E is_light ack_number
  let receiver : Receiver :=
    { E.StoreAck st.receiver ack_seq_num ack_number light_ack now with
      last_ack_number := ack_number }
  let timestamp := toUInt32 (receiver.last_ack_timestamp - st.start_timestamp)
  { st with
    ack_sent_count := ack_sent_count
    ack_seq_gen := st.ack_seq_gen.Next.2
    packet_received_since_light_ack :=
      if is_light then 0 else st.packet_received_since_light_ack
    receiver := receiver
    sent := st.sent ++
      [{ type := ControlType.ACK, additional_info := ack_seq_num,
         ack := some (timestamp, payload) }] }

/-- The method `ConnectedState::AckTimerHandler`; the error code is not looked
at by the method, `now` is the value of `Clock::now()`. -/
def ConnectedState.AckTimerHandler (E : Env) (st : ConnectedState) (light_ack : Bool)
    (now : Int) : ConnectedState :=
  if st.stop_timers then st
  else
    let st1 := if !light_ack then st.LaunchAckTimer else st
    let ack_number := E.AckNumber st1.receiver st1.sender.p_session.packet_seq_gen
    if st1.ackSuppressed light_ack ack_number now then st1
    else st1.emitAck E light_ack ack_number now

/-- The first part of `ConnectedState::OnDataDgr` (lines 115 to 125): the EXP
counter is reset, the datagram is passed to the congestion control and to the
receiver, and the datagrams received since the last light ACK are counted. -/
def ConnectedState.countDataDgr (E : Env) (st : ConnectedState) (p_datagram : DataDatagram)
    (now : Int) : ConnectedState :=
  let st1 := st.ResetExp E false now
  let st2 : ConnectedState :=
    if E.logger_active then { st1 with received_count := (st1.received_count + 1) % 4294967296 }
    else st1
  { st2 with
    sender := { st2.sender with
      p_congestion_control :=
        E.OnPacketReceived st2.sender.p_congestion_control p_datagram }
    cc_events := st2.cc_events ++ [CCEvent.OnPacketReceived]
    receiver := E.OnDataDatagram st2.receiver p_datagram
    packet_received_since_light_ack :=
      (st2.packet_received_since_light_ack + 1) % 4294967296 }

/-- The method `ConnectedState::OnDataDgr`. -/
def ConnectedState.OnDataDgr (E : Env) (st : ConnectedState) (p_datagram : DataDatagram)
    (now : Int) : ConnectedState :=
  let st3 := st.countDataDgr E p_datagram now
  if st3.packet_received_since_light_ack ≥ 64 then st3.AckTimerHandler E true now
  else st3

/-- The method `ConnectedState::ExpTimerHandler`; `ec` tells whether the error
code is set. -/
def ConnectedState.ExpTimerHandler (E : Env) (st : ConnectedState) (ec : Bool) (now : Int) :
    ConnectedState :=
  if st.stop_timers then st
  else if ec then st.LaunchExpTimer E
  else
    let st1 : ConnectedState :=
      if !HasLossPackets st.sender then
        { st with sender := UpdateLossListFromNackPackets st.sender }
      else st
    if E.HasTimeout st1.receiver now then
      ConnectedState.Close
        { st1 with
          sender := { st1.sender with
            p_congestion_control := E.OnTimeout st1.sender.p_congestion_control }
          cc_events := st1.cc_events ++ [CCEvent.OnTimeout] }
    else
      let st2 : ConnectedState :=
        if !HasLossPackets st1.sender then
          { st1 with
            sent := st1.sent ++
              [{ type := ControlType.KEEP_ALIVE, additional_info := E.NO_ADDITIONAL_INFO,
                 ack := none }] }
        else st1
      let st3 : ConnectedState := { st2 with receiver := E.IncExpCounter st2.receiver }
      st3.LaunchExpTimer E

/-- The state after a series of data datagrams, each with its arrival time. -/
def ConnectedState.OnDataDgrs (E : Env) (st : ConnectedState) :
    List (DataDatagram × Int) → ConnectedState
  | [] => st
  | x :: xs => ConnectedState.OnDataDgrs E (st.OnDataDgr E x.1 x.2) xs

/-- The number of light ACKs among the control packets sent. -/
def lightAcks (sent : List ControlPacket) : Nat :=
  (sent.filter fun p =>
    match p.type, p.ack with
    | ControlType.ACK, some (_, AckPayload.light _) => true
    | _, _ => false).length

/-- An instance of the absent operations, following sections 4.2 and 5 of the
design where they are specific: the ACK history gets a record per ACK, a
timeout needs more than 16 expirations and more than 10 s without reset, the
EXP period is `max (4 RTT + RTTVar + syn, count (RTT + 4 RTTVar) + syn)` with
a `syn` of 10 ms.  `Compare` gives the sign of the distance in the half space,
`SeqOffset` the signed distance, the window of the session is a 32 bit
unsigned integer, the round trip time and its variance are moving averages,
and `AckAck` looks the ack sequence number up in the ACK history. -/
def exEnv : Env :=
  { logger_active := false
    NO_ADDITIONAL_INFO := 0
    AckNumber := fun r _ => match r.gaps with
      | [] => Inc r.largest_received
      | x :: _ => x
    OnDataDatagram := fun r d => { r with largest_received := d.packet_sequence_number }
    StoreAck := fun r ack_seq ack_number _ now =>
      { r with
        ack_history := r.ack_history ++
          [{ ack_seq := ack_seq, packet_seq := ack_number, timestamp := now }]
        last_ack_timestamp := now }
    AvailableReceiveBufferSize := fun r => r.available_buffer
    GetPacketArrivalSpeed := fun _ => 0
    GetEstimatedLinkCapacity := fun _ => 0
    ResetExpCounter := fun r now => { r with exp_count := 1, last_exp_reset := now }
    IncExpCounter := fun r => { r with exp_count := r.exp_count + 1 }
    HasTimeout := fun r now => decide (r.exp_count > 16 ∧ now - r.last_exp_reset > 10000000)
    UpdateExpPeriod := fun ci n =>
      { ci with
        exp_period :=
          max (4 * ci.rtt + ci.rtt_var + 10000) (n * (ci.rtt + 4 * ci.rtt_var) + 10000) }
    OnPacketReceived := fun cc _ => cc
    OnTimeout := fun cc => cc
    Compare := fun _ a b =>
      if a = b then 0 else if (a + SEQ_MOD - b) % SEQ_MOD < SEQ_MOD / 2 then 1 else -1
    SeqOffset := fun _ a b =>
      if (b + SEQ_MOD - a) % SEQ_MOD < SEQ_MOD / 2 then ((b + SEQ_MOD - a) % SEQ_MOD : Nat)
      else ((b + SEQ_MOD - a) % SEQ_MOD : Nat) - (SEQ_MOD : Int)
    window_sub := fun w offset => toUInt32 (w - offset)
    UpdateRTT := fun ci rtt => { ci with rtt := (7 * ci.rtt + rtt) / 8 }
    UpdateRTTVar := fun ci v => { ci with rtt_var := (3 * ci.rtt_var + v) / 4 }
    UpdateAckPeriod := fun ci => ci
    UpdateNAckPeriod := fun ci => { ci with nack_period := 4 * ci.rtt + ci.rtt_var + 10000 }
    UpdatePacketArrivalSpeed := fun ci v =>
      { ci with packet_arrival_speed := (7 * ci.packet_arrival_speed + v) / 8 }
    UpdateEstimatedLinkCapacity := fun ci v =>
      { ci with estimated_link_capacity := (7 * ci.estimated_link_capacity + v) / 8 }
    AckAck := fun r ack_seq now =>
      match r.ack_history.find? (fun rec => rec.ack_seq == ack_seq) with
      | some rec => (some (rec.packet_seq, now - rec.timestamp), r)
      | none => (none, r)
    ReceiverStop := fun r => r
    OnAck := fun cc _ _ => cc
    OnLoss := fun cc _ _ => cc
    OnClose := fun cc => cc
    push_closed_error := ErrorCode.connection_aborted }

/-- A receiver that has received the sequence numbers up to 41 without gap and
has sent no ACK yet. -/
def exReceiver : Receiver :=
  { exp_count := 1, last_exp_reset := 0, last_ack_number := 0, last_ack_timestamp := 0,
    largest_ack_number_acknowledged := 0, largest_acknowledged_seq_number := 0,
    last_ack2_seq_number := 0, ack_history := [], largest_received := 41, gaps := [],
    available_buffer := 100 }

/-- A connected state with running timers, a round trip time of `rtt`
microseconds and the sender `s`. -/
def exConnected (s : Sender) (rtt : Int) : ConnectedState :=
  { sender := s
    receiver := exReceiver
    connection_info :=
      { rtt := rtt, rtt_var := 0, ack_period := 10000, nack_period := 0, exp_period := 0,
        packet_arrival_speed := 0, estimated_link_capacity := 0 }
    ack_seq_gen := { current := 5 }
    start_timestamp := 0
    session_state := StateType.CONNECTED
    stop_timers := false
    ack_timer := { expiry := none, waits := 0 }
    nack_timer := { expiry := none, waits := 0 }
    exp_timer := { expiry := none, waits := 0 }
    nack_count := 0, ack_count := 0, ack_sent_count := 0, ack2_count := 0
    ack2_sent_count := 0, received_count := 0
    packet_received_since_light_ack := 0
    sent := []
    cc_events := [] }

/-- A connected state whose receiver has counted 17 expirations since its last
reset at time 0. -/
def exExpired (s : Sender) : ConnectedState :=
  { exConnected s 100 with receiver := { exReceiver with exp_count := 17 } }

/-! ## Control datagrams in the connected state -/

/-- The method `ConnectedState::OnAck`. -/
def ConnectedState.OnAck (E : Env) (st : ConnectedState) (ack_dgr : AckDatagram) :
    ConnectedState :=
  let payload := ack_dgr.payload
  let packet_ack_number := GetPacketSequenceValue payload.max_packet_sequence_number
  let ack_seq_num := ack_dgr.additional_info
  let st1 : ConnectedState :=
    if E.logger_active then { st with ack_count := (st.ack_count + 1) % 4294967296 } else st
  let st2 : ConnectedState := { st1 with sender := AckPackets st1.sender packet_ack_number }
  let st3 : ConnectedState :=
    { st2 with
      receiver := { st2.receiver with last_ack2_seq_number := ack_seq_num }
      sent := st2.sent ++
        [{ type := ControlType.ACK_OF_ACK, additional_info := ack_seq_num, ack := none }] }
  let packet_seq_gen := st3.sender.p_session.packet_seq_gen
  if payload.IsLightAck then
    if E.Compare packet_seq_gen packet_ack_number
        st3.receiver.largest_acknowledged_seq_number ≥ 0 then
      let offset := E.SeqOffset packet_seq_gen st3.receiver.largest_acknowledged_seq_number
        packet_ack_number
      { st3 with
        sender := { st3.sender with
          p_session := { st3.sender.p_session with
            window_flow_size := E.window_sub st3.sender.p_session.window_flow_size offset } }
        receiver := { st3.receiver with largest_acknowledged_seq_number := packet_ack_number } }
    else st3
  else
    let ci1 := E.UpdateRTT st3.connection_info payload.rtt
    let rtt_var := toUInt32 |(payload.rtt : Int) - ci1.rtt|
    let ci2 := E.UpdateNAckPeriod (E.UpdateAckPeriod (E.UpdateRTTVar ci1 rtt_var))
    let cc := E.OnAck st3.sender.p_congestion_control ack_dgr packet_seq_gen
    let ci3 :=
      if payload.IsFull then
        let ci := if payload.packet_arrival_speed > 0 then
          E.UpdatePacketArrivalSpeed ci2 payload.packet_arrival_speed else ci2
        if payload.estimated_link_capacity > 0 then
          E.UpdateEstimatedLinkCapacity ci payload.estimated_link_capacity else ci
      else ci2
    let st4 : ConnectedState :=
      { st3 with
        connection_info := ci3
        sender := { st3.sender with p_congestion_control := cc }
        cc_events := st3.cc_events ++ [CCEvent.OnAck] }
    if E.Compare packet_seq_gen packet_ack_number
        st4.receiver.largest_acknowledged_seq_number ≥ 0 then
      { st4 with
        receiver := { st4.receiver with largest_acknowledged_seq_number := packet_ack_number }
        sender := { st4.sender with
          p_session := { st4.sender.p_session with
            window_flow_size := payload.available_buffer_size } } }
    else st4

/-- The method `ConnectedState::OnNAck`, on the loss list of the datagram. -/
def ConnectedState.OnNAck (E : Env) (st : ConnectedState) (nack_loss_list : List Nat) :
    ConnectedState :=
  let st1 : ConnectedState :=
    if E.logger_active then { st with nack_count := (st.nack_count + 1) % 4294967296 } else st
  let st2 : ConnectedState :=
    { st1 with sender := UpdateLossListFromNackDgr st1.sender nack_loss_list }
  { st2 with
    sender := { st2.sender with
      p_congestion_control :=
        E.OnLoss st2.sender.p_congestion_control nack_loss_list
          st2.sender.p_session.packet_seq_gen }
    cc_events := st2.cc_events ++ [CCEvent.OnLoss] }

/-- The method `ConnectedState::OnAckOfAck`, on the additional info of the
datagram; `now` is the clock reading of `AckAck`. -/
def ConnectedState.OnAckOfAck (E : Env) (st : ConnectedState) (ack_seq_num : Nat) (now : Int) :
    ConnectedState :=
  let packet_seq_gen := st.sender.p_session.packet_seq_gen
  let r := E.AckAck st.receiver ack_seq_num now
  let st1 : ConnectedState := { st with receiver := r.2 }
  match r.1 with
  | none => st1
  | some (packet_seq_num, rtt) =>
    let st2 : ConnectedState :=
      if E.logger_active then { st1 with ack2_count := (st1.ack2_count + 1) % 4294967296 }
      else st1
    let st3 : ConnectedState :=
      if E.Compare packet_seq_gen packet_seq_num
          st2.receiver.largest_ack_number_acknowledged > 0 then
        { st2 with
          receiver := { st2.receiver with largest_ack_number_acknowledged := packet_seq_num } }
      else st2
    let ci1 := E.UpdateRTT st3.connection_info rtt
    let rtt_var := (ci1.rtt - rtt).natAbs
    { st3 with
      connection_info := E.UpdateNAckPeriod (E.UpdateAckPeriod (E.UpdateRTTVar ci1 rtt_var)) }

/-- The method `ConnectedState::OnControlDgr`; `now` is the clock reading of
the receiver operations.  The `switch` has no `default` label: a datagram of
another type changes nothing. -/
def ConnectedState.OnControlDgr (E : Env) (st : ConnectedState) (p_control_dgr : ControlDatagram)
    (now : Int) : ConnectedState :=
  match p_control_dgr.flags with
  | ControlType.KEEP_ALIVE => st.ResetExp E false now
  | ControlType.ACK =>
    (st.ResetExp E true now).OnAck E
      { additional_info := p_control_dgr.additional_info, payload := p_control_dgr.ack_payload }
  | ControlType.NACK => (st.ResetExp E true now).OnNAck E p_control_dgr.loss_packets
  | ControlType.SHUTDOWN => (st.ResetExp E false now).Close
  | ControlType.ACK_OF_ACK =>
    (st.ResetExp E false now).OnAckOfAck E p_control_dgr.additional_info now
  | ControlType.MESSAGE_DROP_REQUEST => st.ResetExp E false now
  | ControlType.other _ => st

/-! ## Stopping the connected state -/

/-- The method `Sender::StopUnqueueWriteOp`. -/
def Sender.StopUnqueueWriteOp (s : Sender) : Sender := { s with unqueue_write_op := false }

/-- The loop `for (;;)` of `Sender::CloseWriteOpsQueue`: each operation the
queue hands out is completed with `operation_canceled` and 0 bytes, until `get`
sets the error code.  The result is the queue and the completions dispatched,
in order. -/
def closeLoop : Nat → WriteOpsQueue → List (WriteOp × Completion) →
    WriteOpsQueue × List (WriteOp × Completion)
  | 0, q, done => (q, done)
  | fuel + 1, q, done =>
    match q.get with
    | none => (q, done)
    | some (p_write_op, q1) =>
      closeLoop fuel q1
        (done ++ [(p_write_op, { ec := ErrorCode.operation_canceled, bytes_transferred := 0 })])

/-- The method `Sender::CloseWriteOpsQueue`, with the completions it
dispatches. -/
def Sender.CloseWriteOpsQueue (s : Sender) : Sender × List (WriteOp × Completion) :=
  let r := closeLoop (s.write_ops_queue.ops.length + 1) s.write_ops_queue []
  ({ s with write_ops_queue := r.1.close }, r.2)

/-- The method `Sender::Stop`; `p_state_.reset()` releases the pointer to the
state, which no field records. -/
def Sender.Stop (s : Sender) : Sender × List (WriteOp × Completion) :=
  s.StopUnqueueWriteOp.CloseWriteOpsQueue

/-- The method `Sender::PushWriteOp`: the state and the completion posted when
`push` sets the error code. -/
def Sender.PushWriteOp (E : Env) (s : Sender) (write_op : WriteOp) :
    Sender × Option (WriteOp × Completion) :=
  let r := s.write_ops_queue.push write_op E.push_closed_error
  let s1 : Sender := { s with write_ops_queue := r.1 }
  if r.2 ≠ ErrorCode.success then (s1, some (write_op, { ec := r.2, bytes_transferred := 0 }))
  else (s1, none)

/-- The method `ConnectedState::PushWriteOp`. -/
def ConnectedState.PushWriteOp (E : Env) (st : ConnectedState) (write_op : WriteOp) :
    ConnectedState × Option (WriteOp × Completion) :=
  let r := st.sender.PushWriteOp E write_op
  ({ st with sender := r.1 }, r.2)

/-- The method `ConnectedState::StopServices`, with the completions of the
write operations. -/
def ConnectedState.StopServices (E : Env) (st : ConnectedState) :
    ConnectedState × List (WriteOp × Completion) :=
  let r := st.sender.Stop
  ({ st with sender := r.1, receiver := E.ReceiverStop st.receiver }, r.2)

/-- The method `ConnectedState::CloseConnection`; the handler of the SHUTDOWN
packet, which unbinds the session, runs when the packet is sent. -/
def ConnectedState.CloseConnection (E : Env) (st : ConnectedState) : ConnectedState :=
  { st with
    sender := { st.sender with
      p_congestion_control := E.OnClose st.sender.p_congestion_control }
    cc_events := st.cc_events ++ [CCEvent.OnClose]
    cache_updates := st.cache_updates ++ [st.connection_info]
    sent := st.sent ++
      [{ type := ControlType.SHUTDOWN, additional_info := E.NO_ADDITIONAL_INFO, ack := none }] }

/-- The method `ConnectedState::Stop`, with the completions of the write
operations. -/
def ConnectedState.Stop (E : Env) (st : ConnectedState) :
    ConnectedState × List (WriteOp × Completion) :=
  let r := st.StopTimers.StopServices E
  (r.1.CloseConnection E, r.2)
/-! ## The cache of connection infos (`connections_info_manager.h`) -/

/-- An endpoint of the next layer protocol: the characters of the string
`address().to_string()` gives for it, and its port. -/
structure NextEndpoint where
  address : List Char
  port : Nat
deriving DecidableEq, Repr

/-- The data members of `ConnectionsInfoManager`.  The map
`std::map<remote_address, ConnectionInfo::Ptr>` is the list of its entries in
ascending key order; a `ConnectionInfo::Ptr` is the address of the object it
points to, which is what `operator<` on shared pointers compares. -/
structure ConnectionsInfoManager where
  max_cache_size : Nat
  connections_info : List (List Char × Nat)
deriving DecidableEq, Repr

/-- The constructor `ConnectionsInfoManager(max_cache_size = 64)`. -/
def ConnectionsInfoManager.init (max_cache_size : Nat) : ConnectionsInfoManager :=
  { max_cache_size := max_cache_size, connections_info := [] }

/-- The call `connections_info_.find(address)`; `none` is `end()`. -/
def cacheFind (address : List Char) : List (List Char × Nat) → Option Nat
  | [] => none
  | e :: m => if e.1 = address then some e.2 else cacheFind address m

/-- The assignment `connections_info_[address] = p`. -/
def cacheAssign (address : List Char) (p : Nat) : List (List Char × Nat) → List (List Char × Nat)
  | [] => [(address, p)]
  | e :: m =>
    if address < e.1 then (address, p) :: e :: m
    else if e.1 = address then (address, p) :: m
    else e :: cacheAssign address p m

/-- The `while` loop of `FreeItem`: `oldest` is the entry `oldest_pair_it`
points to, the list holds the entries from `current_pair_it` to the end. -/
def oldestLoop : List (List Char × Nat) → List Char × Nat → List Char × Nat
  | [], oldest => oldest
  | current :: rest, oldest =>
    oldestLoop rest (if current.2 < oldest.2 then current else oldest)

/-- The method `ConnectionsInfoManager::FreeItem`: the entry the loop ends on
is erased.  On an empty map the source erases the end iterator, which is
undefined: `none`. -/
def ConnectionsInfoManager.FreeItem (m : ConnectionsInfoManager) :
    Option ConnectionsInfoManager :=
  match m.connections_info with
  | [] => none
  | first :: rest =>
    some { m with connections_info := (first :: rest).erase (oldestLoop (first :: rest) first) }

/-- The method `ConnectionsInfoManager::GetConnectionInfo`; `fresh` is the
pointer `std::make_shared<ConnectionInfo>()` returns if it is called.  The
result is the pointer returned and the manager after the call. -/
def ConnectionsInfoManager.GetConnectionInfo (m : ConnectionsInfoManager)
    (next_endpoint : NextEndpoint) (fresh : Nat) : Option (Nat × ConnectionsInfoManager) :=
  let address := next_endpoint.address
  match cacheFind address m.connections_info with
  | some p => some (p, m)
  | none =>
    let freed : Option ConnectionsInfoManager :=
      if m.connections_info.length > m.max_cache_size then m.FreeItem else some m
    freed.map fun m1 =>
      (fresh, { m1 with connections_info := cacheAssign address fresh m1.connections_info })

/-- A series of `GetConnectionInfo` calls, each with the endpoint and the
pointer a new allocation would return; `none` if one of them is undefined. -/
def ConnectionsInfoManager.lookups (m : ConnectionsInfoManager) :
    List (NextEndpoint × Nat) → Option ConnectionsInfoManager
  | [] => some m
  | c :: cs =>
    match m.GetConnectionInfo c.1 c.2 with
    | none => none
    | some r => ConnectionsInfoManager.lookups r.2 cs

/-- The entry the text of the design asks to evict: among the addresses
`present`, the one passed least recently to `GetConnectionInfo`, `history`
being the addresses of the calls so far in the order of the calls. -/
def leastRecentlyUsed (history : List (List Char)) (present : List (List Char)) :
    Option (List Char) :=
  (history.filter fun a => decide (a ∈ present)).dedup.head?
/-! ## Runs of the connected state -/

/-- An event of the connected state: a data datagram, a control datagram, a
fire of the ACK timer (`AckTimerHandler(ec, false)`), a fire of the EXP timer,
or `Stop`; the datagrams and the timer fires come with the clock reading. -/
inductive ConnectedEvent where
  | dataDgr (p_datagram : DataDatagram) (now : Int)
  | controlDgr (p_control_dgr : ControlDatagram) (now : Int)
  | ackTimer (now : Int)
  | expTimer (ec : Bool) (now : Int)
  | stop
deriving DecidableEq, Repr

/-- The state after the handler of an event. -/
def ConnectedState.handle (E : Env) (st : ConnectedState) : ConnectedEvent → ConnectedState
  | ConnectedEvent.dataDgr p_datagram now => st.OnDataDgr E p_datagram now
  | ConnectedEvent.controlDgr p_control_dgr now => st.OnControlDgr E p_control_dgr now
  | ConnectedEvent.ackTimer now => st.AckTimerHandler E false now
  | ConnectedEvent.expTimer ec now => st.ExpTimerHandler E ec now
  | ConnectedEvent.stop => (st.Stop E).1

/-- The state after a series of events. -/
def ConnectedState.run (E : Env) (st : ConnectedState) : List ConnectedEvent → ConnectedState
  | [] => st
  | ev :: evs => ConnectedState.run E (st.handle E ev) evs

/-- The ack sequence numbers of the ACK packets among the control packets
sent, in the order they were sent. -/
def ackSeqs (sent : List ControlPacket) : List Nat :=
  (sent.filter fun p => decide (p.type = ControlType.ACK)).map fun p => p.additional_info

/-- A control datagram of type `flags` with additional info 9; read as an ACK
it carries the packet number 10 with bit 31 set, is light or full according to
`light`, and advertises a buffer of 50 packets; read as a NAK it carries the
loss list `[3]`. -/
def exControlDgr (flags : ControlType) (light : Bool) : ControlDatagram :=
  { flags := flags
    additional_info := 9
    ack_payload :=
      { max_packet_sequence_number := 0x8000000A, IsLightAck := light, IsFull := !light,
        rtt := 200, available_buffer_size := 50, packet_arrival_speed := 1000,
        estimated_link_capacity := 2000 }
    loss_packets := [3] }

/-- Three lookups on a cache: the addresses 10.0.0.1 and 10.0.0.2, then
10.0.0.1 again from another port; the objects allocated for the first two are
at the addresses 100 and 200. -/
def exCalls : List (NextEndpoint × Nat) :=
  [({ address := "10.0.0.1".toList, port := 9000 }, 100),
   ({ address := "10.0.0.2".toList, port := 9000 }, 200),
   ({ address := "10.0.0.1".toList, port := 9001 }, 300)]

/-- Lookups of `n` different addresses, the strings of 0, 1, ... `n - 1`
letters `a`; the object of the `i`-th is allocated at the address `1000 + i`. -/
def exDistinctCalls (n : Nat) : List (NextEndpoint × Nat) :=
  (List.range n).map fun i => ({ address := List.replicate i 'a', port := 9000 }, 1000 + i)

/-- The getter `max_packet_sequence_number()` of the ACK payload. -/
def AckPayload.max_packet_sequence_number : AckPayload → Nat
  | AckPayload.light n => n
  | AckPayload.full n _ _ _ _ _ => n
/-- The order of the ack sequence numbers: those of the ACKs sent so far,
followed by the value the generator gives next, go from each to the next by
`Inc`. -/
def ConnectedState.AckOrder (st : ConnectedState) : Prop :=
  List.Chain' (fun a b => b = Inc a) (ackSeqs st.sent ++ [st.ack_seq_gen.current])

/-- The step of a handler on the ack sequence numbers: either no ACK is sent
and the generator is left alone, or one ACK is sent with the current value of
the generator, which is advanced by `Inc`. -/
def ConnectedState.AckStep (st st2 : ConnectedState) : Prop :=
  (ackSeqs st2.sent = ackSeqs st.sent ∧ st2.ack_seq_gen = st.ack_seq_gen) ∨
  (ackSeqs st2.sent = ackSeqs st.sent ++ [st.ack_seq_gen.current] ∧
    st2.ack_seq_gen.current = Inc st.ack_seq_gen.current)
/-- Two fires of the ACK timer 10 ms apart with a KEEP_ALIVE datagram and a
data datagram between them. -/
def exEvents : List ConnectedEvent :=
  [ConnectedEvent.ackTimer 1000000,
   ConnectedEvent.controlDgr (exControlDgr ControlType.KEEP_ALIVE false) 1000500,
   ConnectedEvent.dataDgr { packet_sequence_number := 42, payload := [1, 2] } 1000600,
   ConnectedEvent.ackTimer 1010000]

/-- A sender with two write operations waiting in its queue and the unqueue
loop running. -/
def exPending : Sender :=
  { exSender 4 with
    unqueue_write_op := true
    write_ops_queue :=
      { ops := [{ id := 1, const_buffers := [1, 2] }, { id := 2, const_buffers := [3] }],
        closed := false } }

/-! ## The loop of `UpdateLossListFromNackDgr` with its index -/

/-- The ways a loop of the model can fail to return: a read of the list
outside its bounds, or more iterations than the bound allows. -/
inductive LoopFault where
  | out_of_bounds
  | out_of_fuel
deriving DecidableEq, Repr

/-- The loop `while (j != second_range) { insert(j); j = Inc(j); }` with a
bound on the number of tests of its condition: `none` when the bound is
reached before the loop exits. -/
def rangeLoopBounded : Nat → Nat → Nat → List Nat → Option (List Nat)
  | 0, _, _, _ => none
  | fuel + 1, j, second_range, loss =>
    if j != second_range then
      rangeLoopBounded fuel (Inc j) second_range (setInsert j loss)
    else some loss

/-- The `for` loop of `UpdateLossListFromNackDgr` as written, with the index
`i` (a `uint32_t`) and every read `nack_loss_list[i]` checked against the
bounds of the list; `fuel` bounds the number of iterations of the `for` loop,
the range loop is given `SEQ_MOD` tests. -/
def nackIndexLoop : Nat → List Nat → Nat → List Nat → Except LoopFault (List Nat)
  | 0, _, _, _ => Except.error LoopFault.out_of_fuel
  | fuel + 1, nack_loss_list, i, loss =>
    if i < nack_loss_list.length then
      match nack_loss_list[i]? with
      | none => Except.error LoopFault.out_of_bounds
      | some current_seq =>
        if IsInterval current_seq then
          let first_range := GetPacketSequenceValue current_seq
          let i1 := (i + 1) % 4294967296
          if i1 < nack_loss_list.length then
            match nack_loss_list[i1]? with
            | none => Except.error LoopFault.out_of_bounds
            | some next_seq =>
              if !IsInterval next_seq then
                match rangeLoopBounded SEQ_MOD first_range (GetPacketSequenceValue next_seq)
                    loss with
                | none => Except.error LoopFault.out_of_fuel
                | some loss1 =>
                  nackIndexLoop fuel nack_loss_list ((i1 + 1) % 4294967296) loss1
              else nackIndexLoop fuel nack_loss_list ((i1 + 1) % 4294967296) loss
          else nackIndexLoop fuel nack_loss_list ((i1 + 1) % 4294967296) loss
        else
          nackIndexLoop fuel nack_loss_list ((i + 1) % 4294967296)
            (setInsert (GetPacketSequenceValue current_seq) loss)
    else Except.ok loss

/-- The step of a handler once the timers are stopped: the flag stays set, the
ack sequence generator is left alone, each timer is left alone or cancelled,
and at most one control packet is sent, an ACK_OF_ACK or a SHUTDOWN. -/
def ConnectedState.QuietStep (st st2 : ConnectedState) : Prop :=
  st2.stop_timers = true ∧ st2.ack_seq_gen = st.ack_seq_gen ∧
  (st2.ack_timer = st.ack_timer ∨ st2.ack_timer = st.ack_timer.cancel) ∧
  (st2.nack_timer = st.nack_timer ∨ st2.nack_timer = st.nack_timer.cancel) ∧
  (st2.exp_timer = st.exp_timer ∨ st2.exp_timer = st.exp_timer.cancel) ∧
  (st2.sent = st.sent ∨
    ∃ p, st2.sent = st.sent ++ [p] ∧
      (p.type = ControlType.ACK_OF_ACK ∨ p.type = ControlType.SHUTDOWN))

/-- The state `st` is one reached from `StopTimers` on `st0`: the flag is set,
the ack sequence generator is the one of `st0`, the three timers are the
cancelled timers of `st0`, and the control packets sent since are ACK_OF_ACK
and SHUTDOWN packets. -/
def ConnectedState.Quiet (st0 st : ConnectedState) : Prop :=
  st.stop_timers = true ∧ st.ack_seq_gen = st0.ack_seq_gen ∧
  st.ack_timer = st0.ack_timer.cancel ∧ st.nack_timer = st0.nack_timer.cancel ∧
  st.exp_timer = st0.exp_timer.cancel ∧
  ∃ new, st.sent = st0.sent ++ new ∧
    ∀ p ∈ new, p.type = ControlType.ACK_OF_ACK ∨ p.type = ControlType.SHUTDOWN

/-! ## Runs of the sender with a log -/

/-- The log of a run of the sender: the datagrams pushed into
`packets_to_send_` and the datagrams `NextScheduledPacket` returned after
taking them from that queue, both in the order of the events. -/
structure SenderLog where
  enqueued : List SendDatagram
  fresh : List SendDatagram
deriving DecidableEq, Repr

/-- The state and the log after one operation.  A write logs what it leaves
in `packets_to_send_` behind the datagrams that were there; a call of
`NextScheduledPacket` that takes a datagram from `packets_to_send_` logs the
datagram it returns. -/
def SenderOp.applyLogged (P : Protocol) (s : Sender) (log : SenderLog) :
    SenderOp → Sender × SenderLog
  | SenderOp.write const_buffers =>
    let s1 := (ProcessWriteOp P s false const_buffers).2
    (s1, { log with
      enqueued := log.enqueued ++ s1.packets_to_send.drop s.packets_to_send.length })
  | SenderOp.next elapsed_us gen_time =>
    let r := NextScheduledPacket s elapsed_us gen_time
    (r.2,
      if r.2.packets_to_send ≠ s.packets_to_send then
        { log with fresh := log.fresh ++ r.1.toList }
      else log)
  | op => (op.apply P s, log)

/-- The state and the log after a sequence of operations. -/
def runLogged (P : Protocol) : List SenderOp → Sender → SenderLog → Sender × SenderLog
  | [], s, log => (s, log)
  | op :: ops, s, log =>
    runLogged P ops (op.applyLogged P s log).1 (op.applyLogged P s log).2

/-- The datagram `q` after `set_timestamp` and `set_packet_sequence_number` on
its header. -/
def SendDatagram.stamped (q : SendDatagram) (timestamp packet_sequence_number : Nat) :
    SendDatagram :=
  { q with header := { q.header with
      timestamp := timestamp
      packet_sequence_number := packet_sequence_number } }

/-- Every entry of the map of packets in flight is stored under the sequence
number of its header. -/
def KeyedBySeq (nack : List (Nat × SendDatagram)) : Prop :=
  ∀ e ∈ nack, e.2.header.packet_sequence_number = e.1

/-- The invariant of a logged run that started with the generator at `g0`:
the map is keyed by the sequence numbers of the headers, the datagrams taken
from the queue carry the sequence numbers `g0, Inc g0, ...` and the generator
holds the next one, and the datagrams pushed into the queue are, in order,
those taken from it, before their stamps, followed by those still in it. -/
def SenderTrace (g0 : Nat) (s : Sender) (log : SenderLog) : Prop :=
  KeyedBySeq s.nack_packets ∧
  (log.fresh.map fun d => d.header.packet_sequence_number) =
    List.iterate Inc g0 log.fresh.length ∧
  s.p_session.packet_seq_gen.current = Inc^[log.fresh.length] g0 ∧
  ∃ taken, log.enqueued = taken ++ s.packets_to_send ∧
    List.Forall₂ (fun d q =>
      d = q.stamped d.header.timestamp d.header.packet_sequence_number) log.fresh taken

/-! ## Lemmas on the containers -/

theorem mem_setInsert (x y : Nat) (l : List Nat) :
    y ∈ setInsert x l ↔ y = x ∨ y ∈ l := by
  induction l with
  | nil => simp [setInsert]
  | cons a l ih =>
    unfold setInsert
    split_ifs with h1 h2
    · simp
    · subst h2; simp
    · simp [ih]; tauto

theorem mem_setErase (x y : Nat) (l : List Nat) :
    y ∈ setErase x l ↔ y ∈ l ∧ y ≠ x := by
  simp [setErase]

theorem mapFind_mapAssign_self (k : Nat) (d : SendDatagram) (m : List (Nat × SendDatagram)) :
    mapFind k (mapAssign k d m) = some d := by
  induction m with
  | nil => simp [mapAssign, mapFind]
  | cons e m ih =>
    unfold mapAssign
    split_ifs with h1 h2
    · simp [mapFind]
    · simp [mapFind]
    · have : e.1 ≠ k := fun h => h2 h.symm
      simp [mapFind, this, ih]

theorem length_mapAssign_le (k : Nat) (d : SendDatagram) (m : List (Nat × SendDatagram)) :
    (mapAssign k d m).length ≤ m.length + 1 := by
  induction m with
  | nil => simp [mapAssign]
  | cons e m ih =>
    unfold mapAssign
    split_ifs <;> simp
    omega

/-! ## Lemmas on `NextScheduledPacket` -/

theorem UpdateNextSendingPacketTime_frame (s : Sender) (d : SendDatagram) (g : Int) :
    (UpdateNextSendingPacketTime s d g).loss_packets = s.loss_packets ∧
    (UpdateNextSendingPacketTime s d g).nack_packets = s.nack_packets ∧
    (UpdateNextSendingPacketTime s d g).packets_to_send = s.packets_to_send ∧
    (UpdateNextSendingPacketTime s d g).p_session = s.p_session ∧
    (UpdateNextSendingPacketTime s d g).p_congestion_control = s.p_congestion_control :=
  ⟨rfl, rfl, rfl, rfl, rfl⟩

/-- The three outcomes of the second half of `NextScheduledPacket`: nothing
queued, window closed, or the front of the queue is stamped and sent. -/
theorem freshPacket_cases (s : Sender) (q e : Nat) (g : Int) :
    (s.packets_to_send = [] ∧ freshPacket s q e g = (none, s)) ∨
    (s.packets_to_send ≠ [] ∧ q % 16 ≠ 1 ∧
      min s.p_congestion_control.window_flow_size s.p_session.window_flow_size
        ≤ s.nack_packets.length ∧ freshPacket s q e g = (none, s)) ∨
    (∃ front rest d, s.packets_to_send = front :: rest ∧
      (q % 16 = 1 ∨ s.nack_packets.length <
        min s.p_congestion_control.window_flow_size s.p_session.window_flow_size) ∧
      d = ({ front with header := { front.header with
              timestamp := e % 4294967296, packet_sequence_number := q } } : SendDatagram) ∧
      (freshPacket s q e g).1 = some d ∧
      (freshPacket s q e g).2.nack_packets = mapAssign q d s.nack_packets ∧
      (freshPacket s q e g).2.packets_to_send = rest ∧
      (freshPacket s q e g).2.loss_packets = s.loss_packets ∧
      (freshPacket s q e g).2.p_session =
        { s.p_session with packet_seq_gen := { current := Inc s.p_session.packet_seq_gen.current } } ∧
      (freshPacket s q e g).2.p_congestion_control =
        { s.p_congestion_control with last_send_seq_num := q }) := by
  cases hs : s.packets_to_send with
  | nil => left; simp [freshPacket, hs]
  | cons front rest =>
    right
    by_cases h : (q % 16 != 1 && decide (s.nack_packets.length ≥
        min s.p_congestion_control.window_flow_size s.p_session.window_flow_size)) = true
    · left
      have h2 := h
      simp only [Bool.and_eq_true, bne_iff_ne, ne_eq, decide_eq_true_eq] at h2
      refine ⟨by simp, h2.1, h2.2, ?_⟩
      simp only [freshPacket, hs, h, if_true]
    · right
      refine ⟨front, rest, _, rfl, ?_, rfl, ?_⟩
      · simp only [Bool.and_eq_true, bne_iff_ne, ne_eq, decide_eq_true_eq, not_and] at h
        by_cases hq : q % 16 = 1
        · exact Or.inl hq
        · exact Or.inr (by have := h hq; omega)
      · simp only [freshPacket, hs, h]
        refine ⟨?_, rfl, rfl, rfl, rfl, rfl⟩
        exact mapFind_mapAssign_self _ _ _

theorem freshPacket_loss (s : Sender) (q e : Nat) (g : Int) :
    (freshPacket s q e g).2.loss_packets = s.loss_packets := by
  rcases freshPacket_cases s q e g with h | h | ⟨_, _, _, _, _, _, _, _, _, h, _⟩
  · rw [h.2]
  · rw [h.2.2.2]
  · exact h

/-- A datagram leaves `packets_to_send_` only through the window gate: when the
stamped sequence number is not 1 modulo 16 the map had room for it. -/
theorem freshPacket_bound (s : Sender) (q e : Nat) (g : Int) (hq : q % 16 ≠ 1)
    (hpop : (freshPacket s q e g).2.packets_to_send ≠ s.packets_to_send) :
    (freshPacket s q e g).2.nack_packets.length ≤
      min s.p_congestion_control.window_flow_size s.p_session.window_flow_size := by
  rcases freshPacket_cases s q e g with h | h | ⟨front, rest, d, _, hw, _, _, hn, _, _, _, _⟩
  · rw [h.2] at hpop; exact absurd rfl hpop
  · rw [h.2.2.2] at hpop; exact absurd rfl hpop
  · rw [hn]
    refine le_trans (length_mapAssign_le _ _ _) ?_
    rcases hw with hw | hw
    · exact absurd hw hq
    · omega

theorem length_mapErase_le (k : Nat) (m : List (Nat × SendDatagram)) :
    (mapErase k m).length ≤ m.length := by
  unfold mapErase
  exact List.length_filter_le _ _

/-- The two ways through `NextScheduledPacket`: a retransmission of the entry
stored under the head of the loss set, or the second half run on a state that
differs from the entry state in the loss set (head removed) and possibly in
the map (an acknowledged entry dropped). -/
theorem NextScheduledPacket_cases (s : Sender) (e : Nat) (g : Int) :
    (∃ x rest d, s.loss_packets = x :: rest ∧ mapFind x s.nack_packets = some d ∧
      d.acked = false ∧
      NextScheduledPacket s e g =
        (some d, UpdateNextSendingPacketTime
          { s with loss_packets := setErase x s.loss_packets } d g)) ∨
    (∃ t : Sender, NextScheduledPacket s e g =
        freshPacket t s.p_session.packet_seq_gen.current e g ∧
      t.packets_to_send = s.packets_to_send ∧ t.p_session = s.p_session ∧
      t.p_congestion_control = s.p_congestion_control ∧
      t.nack_packets.length ≤ s.nack_packets.length ∧
      ((s.loss_packets = [] ∧ t = s) ∨
        (∃ x rest, s.loss_packets = x :: rest ∧
          t.loss_packets = setErase x s.loss_packets ∧
          (t.nack_packets = s.nack_packets ∨ t.nack_packets = mapErase x s.nack_packets) ∧
          ∀ d, mapFind x s.nack_packets = some d → d.acked = true))) := by
  cases hl : s.loss_packets with
  | nil =>
    right
    exact ⟨s, by simp [NextScheduledPacket, hl], rfl, rfl, rfl, le_refl _, Or.inl ⟨rfl, rfl⟩⟩
  | cons x rest =>
    cases hf : mapFind x s.nack_packets with
    | none =>
      right
      refine ⟨{ s with loss_packets := setErase x (x :: rest) }, ?_, rfl, rfl, rfl, le_refl _,
        Or.inr ⟨x, rest, rfl, rfl, Or.inl rfl, ?_⟩⟩
      · simp [NextScheduledPacket, hl, hf]
      · intro d hd; rw [hf] at hd; exact absurd hd (by simp)
    | some d =>
      cases ha : d.acked with
      | false =>
        left
        exact ⟨x, rest, d, rfl, hf, ha, by simp [NextScheduledPacket, hl, hf, ha]⟩
      | true =>
        right
        cases hp : d.pending_send with
        | false =>
          refine ⟨{ s with loss_packets := setErase x (x :: rest),
                           nack_packets := mapErase x s.nack_packets }, ?_, rfl, rfl, rfl,
            length_mapErase_le _ _, Or.inr ⟨x, rest, rfl, rfl, Or.inr rfl, ?_⟩⟩
          · simp [NextScheduledPacket, hl, hf, ha, hp]
          · intro d2 hd; rw [hf] at hd; rw [← Option.some.inj hd]; exact ha
        | true =>
          refine ⟨{ s with loss_packets := setErase x (x :: rest) }, ?_, rfl, rfl, rfl,
            le_refl _, Or.inr ⟨x, rest, rfl, rfl, Or.inl rfl, ?_⟩⟩
          · simp [NextScheduledPacket, hl, hf, ha, hp]
          · intro d2 hd; rw [hf] at hd; rw [← Option.some.inj hd]; exact ha

/-! ## Claims on `UpdateLossListFromNackDgr` -/

/-- C2 (the code departs from the claim): for the NAK loss list
`[0x80000005, 7]`, the range 5 to 7, the loss set becomes `[5, 6]`: the range
end 7 is not inserted.  For the one element range `[0x80000005, 5]` nothing is
inserted at all. -/
theorem UpdateLossListFromNackDgr_range_end_excluded :
    (UpdateLossListFromNackDgr (exSender 4) [0x80000005, 7]).loss_packets = [5, 6] ∧
    7 ∉ (UpdateLossListFromNackDgr (exSender 4) [0x80000005, 7]).loss_packets ∧
    (UpdateLossListFromNackDgr (exSender 4) [0x80000005, 5]).loss_packets = [] := by
  decide

/-! ## Claims on `NextScheduledPacket` -/

/-- C5, as stated, fails: with both windows equal to 1, one datagram in flight
and the generator at 1 (1 mod 16 = 1), `NextScheduledPacket` returns a
datagram and leaves two entries in `nack_packets_`. -/
theorem NextScheduledPacket_window_exceeded :
    exWindowOne.p_session.packet_seq_gen.current = 1 ∧
    (NextScheduledPacket exWindowOne 0 0).1 ≠ none ∧
    (NextScheduledPacket exWindowOne 0 0).2.nack_packets.length = 2 ∧
    min exWindowOne.p_congestion_control.window_flow_size
      exWindowOne.p_session.window_flow_size = 1 := by
  decide

/-- C5, amended: whenever `NextScheduledPacket` takes a datagram from
`packets_to_send_` while the current packet sequence number is not 1 modulo
16, the number of entries of `nack_packets_` after the call is at most the
minimum of the congestion control window and the session window. -/
theorem NextScheduledPacket_in_flight_bound (s : Sender) (e : Nat) (g : Int)
    (hq : s.p_session.packet_seq_gen.current % 16 ≠ 1)
    (hpop : (NextScheduledPacket s e g).2.packets_to_send ≠ s.packets_to_send) :
    (NextScheduledPacket s e g).1 ≠ none ∧
    (NextScheduledPacket s e g).2.nack_packets.length ≤
      min s.p_congestion_control.window_flow_size s.p_session.window_flow_size := by
  rcases NextScheduledPacket_cases s e g with ⟨x, rest, d, _, _, _, h⟩ | ⟨t, h, hp, hs, hc, _, _⟩
  · rw [h] at hpop; exact absurd rfl hpop
  · rw [h] at hpop ⊢
    rw [← hp] at hpop
    rw [← hs] at hq
    refine ⟨?_, ?_⟩
    · rcases freshPacket_cases t s.p_session.packet_seq_gen.current e g with
        h1 | h1 | ⟨_, _, d, _, _, _, h1, _⟩
      · rw [h1.2] at hpop; exact absurd rfl hpop
      · rw [h1.2.2.2] at hpop; exact absurd rfl hpop
      · rw [h1]; simp
    · have := freshPacket_bound t s.p_session.packet_seq_gen.current e g (hs ▸ hq) hpop
      rw [hs, hc] at this
      exact this

/-- Witness of C5 amended: the first datagram of a fresh sender with windows 1. -/
theorem NextScheduledPacket_in_flight_bound_witness :
    (ProcessWriteOpBuffers exProtocol (exSender 1)
        [1, 2, 3, 4, 5]).2.p_session.packet_seq_gen.current % 16 ≠ 1 ∧
    (NextScheduledPacket (ProcessWriteOpBuffers exProtocol (exSender 1) [1, 2, 3, 4, 5]).2
        0 0).2.packets_to_send ≠
      (ProcessWriteOpBuffers exProtocol (exSender 1) [1, 2, 3, 4, 5]).2.packets_to_send ∧
    (NextScheduledPacket (ProcessWriteOpBuffers exProtocol (exSender 1) [1, 2, 3, 4, 5]).2
        0 0).2.nack_packets.length ≤ 1 :=
  ⟨by decide, by decide,
    (NextScheduledPacket_in_flight_bound
      (ProcessWriteOpBuffers exProtocol (exSender 1) [1, 2, 3, 4, 5]).2 0 0
      (by decide) (by decide)).2⟩

theorem setErase_head_of_sorted (x : Nat) (rest : List Nat)
    (hs : (x :: rest).Pairwise (fun a b => a < b)) : setErase x (x :: rest) = rest := by
  have h := (List.pairwise_cons.mp hs).1
  unfold setErase
  rw [List.filter_cons_of_neg (by simp)]
  apply List.filter_eq_self.mpr
  intro a ha
  have := h a ha
  simp
  omega

/-- C10: when `loss_packets_` is not empty, `NextScheduledPacket` removes its
smallest element `x`; if `nack_packets_` holds an unacknowledged entry for `x`
the call returns exactly that entry, which stays in the map, and neither
`packets_to_send_` nor the sequence generator is touched. -/
theorem NextScheduledPacket_retransmission_first (s : Sender) (e : Nat) (g : Int)
    (x : Nat) (rest : List Nat) (hl : s.loss_packets = x :: rest)
    (hs : s.loss_packets.Pairwise (fun a b => a < b)) :
    (∀ y ∈ s.loss_packets, x ≤ y) ∧
    (NextScheduledPacket s e g).2.loss_packets = setErase x s.loss_packets ∧
    (NextScheduledPacket s e g).2.loss_packets = rest ∧
    x ∉ (NextScheduledPacket s e g).2.loss_packets ∧
    (∀ d, mapFind x s.nack_packets = some d → d.acked = false →
      (NextScheduledPacket s e g).1 = some d ∧
      (NextScheduledPacket s e g).2.nack_packets = s.nack_packets ∧
      (NextScheduledPacket s e g).2.packets_to_send = s.packets_to_send ∧
      (NextScheduledPacket s e g).2.p_session = s.p_session) := by
  have hmin : ∀ y ∈ s.loss_packets, x ≤ y := by
    intro y hy
    rw [hl] at hy hs
    rcases List.mem_cons.mp hy with h | h
    · omega
    · exact le_of_lt ((List.pairwise_cons.mp hs).1 y h)
  have herase : setErase x s.loss_packets = rest := by
    rw [hl] at hs ⊢; exact setErase_head_of_sorted x rest hs
  have hloss : (NextScheduledPacket s e g).2.loss_packets = setErase x s.loss_packets := by
    rcases NextScheduledPacket_cases s e g with ⟨x2, rest2, d, hl2, _, _, h⟩ | ⟨t, h, _, _, _, _, ht⟩
    · rw [h]
      rw [hl] at hl2
      have hx : x2 = x := (List.cons.inj hl2).1.symm
      rw [hx]
      rfl
    · rw [h, freshPacket_loss]
      rcases ht with ⟨h0, _⟩ | ⟨x2, rest2, hl2, ht, _⟩
      · rw [hl] at h0; exact absurd h0 (by simp)
      · rw [hl] at hl2
        have hx : x2 = x := (List.cons.inj hl2).1.symm
        rw [ht, hx]
  refine ⟨hmin, hloss, hloss.trans herase, ?_, ?_⟩
  · rw [hloss]
    intro hmem
    exact ((mem_setErase x x _).mp hmem).2 rfl
  · intro d hd ha
    rcases NextScheduledPacket_cases s e g with ⟨x2, rest2, d2, hl2, hf2, _, h⟩ | ⟨t, _, _, _, _, _, ht⟩
    · rw [hl] at hl2
      have hx : x2 = x := (List.cons.inj hl2).1.symm
      rw [hx, hd] at hf2
      rw [h, ← Option.some.inj hf2]
      exact ⟨rfl, rfl, rfl, rfl⟩
    · rcases ht with ⟨h0, _⟩ | ⟨x2, rest2, hl2, _, _, hack⟩
      · rw [hl] at h0; exact absurd h0 (by simp)
      · rw [hl] at hl2
        have hx : x2 = x := (List.cons.inj hl2).1.symm
        rw [hx] at hack
        have := hack d hd
        rw [ha] at this
        exact absurd this (by simp)

/-- Witness of C10: the retransmission of sequence number 3. -/
theorem NextScheduledPacket_retransmission_first_witness :
    exLossy.loss_packets = 3 :: [5] ∧
    exLossy.loss_packets.Pairwise (fun a b => a < b) ∧
    (NextScheduledPacket exLossy 0 0).2.loss_packets = [5] ∧
    (NextScheduledPacket exLossy 0 0).1 = mapFind 3 exLossy.nack_packets :=
  ⟨rfl, by decide,
    (NextScheduledPacket_retransmission_first exLossy 0 0 3 [5] rfl (by decide)).2.2.1,
    ((NextScheduledPacket_retransmission_first exLossy 0 0 3 [5] rfl (by decide)).2.2.2.2
      _ rfl rfl).1⟩

/-! ## Claims on `AckPackets` -/

theorem mapFind_mapSetAcked (k c : Nat) (m : List (Nat × SendDatagram)) :
    mapFind k (mapSetAcked c m) =
      (mapFind k m).map (fun d => if k = c then { d with acked := true } else d) := by
  induction m with
  | nil => simp [mapSetAcked, mapFind]
  | cons e m ih =>
    have ih2 : mapFind k (List.map (fun e => if e.1 = c then (e.1, { e.2 with acked := true }) else e) m) =
      (mapFind k m).map (fun d => if k = c then { d with acked := true } else d) := ih
    by_cases h1 : e.1 = c <;> by_cases h2 : e.1 = k
    · subst h2; simp [mapSetAcked, mapFind, h1]
    · have hck : ¬ c = k := by rw [← h1]; exact h2
      have hkc : ¬ k = c := fun h => hck h.symm
      simp [mapSetAcked, mapFind, h1, hck, hkc, ih2]
    · subst h2; simp [mapSetAcked, mapFind, h1]
    · simp [mapSetAcked, mapFind, h1, h2, ih2]

theorem keys_mapSetAcked (c : Nat) (m : List (Nat × SendDatagram)) :
    (mapSetAcked c m).map Prod.fst = m.map Prod.fst := by
  unfold mapSetAcked
  rw [List.map_map]
  apply List.map_congr_left
  intro e _
  by_cases h : e.1 = c <;> simp [h]

/-- What the loop of `AckPackets` does when it stops by itself after `n`
iterations: the `n` sequence numbers walked over are acknowledged and leave
the loss set, everything else is as before. -/
theorem ackLoop_spec : ∀ (fuel c : Nat) (loss : List Nat) (nack : List (Nat × SendDatagram))
    (n : Nat), n < fuel →
    (∀ i, i < n → mapFind (Dec^[i] c) nack ≠ none) →
    mapFind (Dec^[n] c) nack = none →
    (∀ k d, mapFind k nack = some d → (∃ i, i < n ∧ k = Dec^[i] c) →
      mapFind k (ackLoop fuel c loss nack).2 = some { d with acked := true }) ∧
    (∀ k, (∀ i, i < n → k ≠ Dec^[i] c) →
      mapFind k (ackLoop fuel c loss nack).2 = mapFind k nack) ∧
    (∀ y, y ∈ (ackLoop fuel c loss nack).1 ↔ y ∈ loss ∧ ∀ i, i < n → y ≠ Dec^[i] c) ∧
    (ackLoop fuel c loss nack).2.map Prod.fst = nack.map Prod.fst := by
  intro fuel
  induction fuel with
  | zero => intro c loss nack n hn; omega
  | succ fuel ih =>
    intro c loss nack n hn hrun hstop
    cases n with
    | zero =>
      have h0 : mapFind c nack = none := hstop
      simp [ackLoop, h0]
    | succ n =>
      have hc : mapFind c nack ≠ none := hrun 0 (Nat.succ_pos n)
      obtain ⟨dc, hdc⟩ := Option.ne_none_iff_exists'.mp hc
      have hrun2 : ∀ i, i < n → mapFind (Dec^[i] (Dec c)) (mapSetAcked c nack) ≠ none := by
        intro i hi
        have := hrun (i + 1) (by omega)
        rw [Function.iterate_succ_apply] at this
        rw [mapFind_mapSetAcked]
        simpa using this
      have hstop2 : mapFind (Dec^[n] (Dec c)) (mapSetAcked c nack) = none := by
        rw [Function.iterate_succ_apply] at hstop
        rw [mapFind_mapSetAcked, hstop]; rfl
      obtain ⟨a1, a2, a3, a4⟩ := ih (Dec c) (setErase c loss) (mapSetAcked c nack) n (by omega)
        hrun2 hstop2
      have hloop : ackLoop (fuel + 1) c loss nack =
          ackLoop fuel (Dec c) (setErase c loss) (mapSetAcked c nack) := by
        simp [ackLoop, hdc]
      rw [hloop]
      refine ⟨?_, ?_, ?_, ?_⟩
      · intro k d hk hex
        have hk2 : mapFind k (mapSetAcked c nack) =
            some (if k = c then { d with acked := true } else d) := by
          rw [mapFind_mapSetAcked, hk]; rfl
        by_cases hin : ∃ i, i < n ∧ k = Dec^[i] (Dec c)
        · rw [a1 k _ hk2 hin]
          by_cases hkc : k = c <;> simp [hkc]
        · have hkc : k = c := by
            obtain ⟨i, hi, hki⟩ := hex
            cases i with
            | zero => simpa using hki
            | succ i =>
              exfalso
              apply hin
              exact ⟨i, by omega, by rw [hki, Function.iterate_succ_apply]⟩
          rw [a2 k (by
            intro i hi hki
            exact hin ⟨i, hi, hki⟩), hk2]
          simp [hkc]
      · intro k hk
        have hkc : k ≠ c := by simpa using hk 0 (Nat.succ_pos n)
        rw [a2 k (by
          intro i hi
          have := hk (i + 1) (by omega)
          rwa [Function.iterate_succ_apply] at this), mapFind_mapSetAcked]
        simp [hkc]
      · intro y
        rw [a3 y, mem_setErase]
        constructor
        · rintro ⟨⟨hy, hyc⟩, hall⟩
          refine ⟨hy, ?_⟩
          intro i hi
          cases i with
          | zero => simpa using hyc
          | succ i =>
            rw [Function.iterate_succ_apply]
            exact hall i (by omega)
        · rintro ⟨hy, hall⟩
          refine ⟨⟨hy, by simpa using hall 0 (Nat.succ_pos n)⟩, ?_⟩
          intro i hi
          have := hall (i + 1) (by omega)
          rwa [Function.iterate_succ_apply] at this
      · rw [a4, keys_mapSetAcked]

theorem GetPacketSequenceValue_lt (x : Nat) : GetPacketSequenceValue x < SEQ_MOD := by
  have h : x &&& 0x7FFFFFFF ≤ 0x7FFFFFFF := Nat.and_le_right
  unfold GetPacketSequenceValue SEQ_MOD
  omega

theorem Dec_of_pos (x : Nat) (h0 : 0 < x) (hx : x < SEQ_MOD) : Dec x = x - 1 := by
  unfold Dec SEQ_MOD at *
  omega

theorem iterate_Dec (v : Nat) (hv : v < SEQ_MOD) :
    ∀ i, i + 1 ≤ v → Dec^[i] (Dec v) = v - (i + 1) := by
  intro i
  induction i with
  | zero =>
    intro h
    rw [Function.iterate_zero_apply]
    exact Dec_of_pos v h hv
  | succ i ih =>
    intro h
    have h1 : 0 < v - (i + 1) := Nat.sub_pos_of_lt h
    have h2 : v - (i + 1) < SEQ_MOD := lt_of_le_of_lt (Nat.sub_le _ _) hv
    rw [Function.iterate_succ_apply', ih (Nat.le_of_succ_le h), Dec_of_pos _ h1 h2]
    rfl



theorem setAcked_of_acked (d : SendDatagram) (h : d.acked = true) :
    ({ d with acked := true } : SendDatagram) = d := by
  cases d
  simp only at h
  simp [h]

/-- C3, as stated, fails on the modular sequence space: with the keys
0x7FFFFFFE, 0x7FFFFFFF, 0 and 1 in flight, `AckPackets(1)` acknowledges the
entries 0x7FFFFFFF and 0x7FFFFFFE, whose sequence numbers are not below 1, and
`AckPackets(0x7FFFFFFF)` leaves the keys 0 and 1, which are below 0x7FFFFFFF,
unacknowledged. -/
theorem AckPackets_wraps :
    (exWrapped.nack_packets.map fun e => (e.1, e.2.acked)) =
      [(0, false), (1, false), (0x7FFFFFFE, false), (0x7FFFFFFF, false)] ∧
    ((AckPackets exWrapped 1).nack_packets.map fun e => (e.1, e.2.acked)) =
      [(0, true), (1, false), (0x7FFFFFFE, true), (0x7FFFFFFF, true)] ∧
    ((AckPackets exWrapped 0x7FFFFFFF).nack_packets.map fun e => (e.1, e.2.acked)) =
      [(0, false), (1, false), (0x7FFFFFFE, true), (0x7FFFFFFF, false)] := by
  decide

/-- C3, amended: let `v` be `seq_ack` with bit 31 masked off.  If the sequence
numbers `lo, ..., v - 1` are all keys of `nack_packets_`, `Dec lo` is not a key
(the backward walk stops there) and every key below `lo` is already
acknowledged and outside the loss set, then after `AckPackets(seq_ack)` every
key below `v` is acknowledged and outside `loss_packets_`, no entry with
sequence number at least `v` is changed, no such number leaves the loss set,
and the keys of the map are the same. -/
theorem AckPackets_acknowledges_below (s : Sender) (seq_ack lo : Nat)
    (hlo : lo ≤ GetPacketSequenceValue seq_ack)
    (hblock : ∀ k, lo ≤ k → k < GetPacketSequenceValue seq_ack →
      mapFind k s.nack_packets ≠ none)
    (hstop : mapFind (Dec lo) s.nack_packets = none)
    (hbelow : ∀ k d, k < lo → mapFind k s.nack_packets = some d →
      d.acked = true ∧ k ∉ s.loss_packets) :
    (∀ k d, k < GetPacketSequenceValue seq_ack → mapFind k s.nack_packets = some d →
      mapFind k (AckPackets s seq_ack).nack_packets = some { d with acked := true } ∧
      k ∉ (AckPackets s seq_ack).loss_packets) ∧
    (∀ k, GetPacketSequenceValue seq_ack ≤ k →
      mapFind k (AckPackets s seq_ack).nack_packets = mapFind k s.nack_packets ∧
      (k ∈ (AckPackets s seq_ack).loss_packets ↔ k ∈ s.loss_packets)) ∧
    (AckPackets s seq_ack).nack_packets.map Prod.fst = s.nack_packets.map Prod.fst := by
  have hv : GetPacketSequenceValue seq_ack < SEQ_MOD := GetPacketSequenceValue_lt seq_ack
  have hres1 : (AckPackets s seq_ack).nack_packets =
      (ackLoop SEQ_MOD (Dec (GetPacketSequenceValue seq_ack)) s.loss_packets s.nack_packets).2 := rfl
  have hres2 : (AckPackets s seq_ack).loss_packets =
      (ackLoop SEQ_MOD (Dec (GetPacketSequenceValue seq_ack)) s.loss_packets s.nack_packets).1 := rfl
  rw [hres1, hres2]
  generalize GetPacketSequenceValue seq_ack = v at hlo hblock hv ⊢
  have hn : v - lo < SEQ_MOD := lt_of_le_of_lt (Nat.sub_le _ _) hv
  have hit : ∀ i, i < v - lo → Dec^[i] (Dec v) = v - (i + 1) := fun i hi =>
    iterate_Dec v hv i (by omega)
  have hrun : ∀ i, i < v - lo → mapFind (Dec^[i] (Dec v)) s.nack_packets ≠ none := by
    intro i hi
    rw [hit i hi]
    exact hblock _ (by omega) (by omega)
  have hstop2 : mapFind (Dec^[v - lo] (Dec v)) s.nack_packets = none := by
    cases hvl : v - lo with
    | zero =>
      have : lo = v := by omega
      rw [Function.iterate_zero_apply, ← this]
      exact hstop
    | succ m =>
      rw [Function.iterate_succ_apply', hit m (by omega)]
      have : v - (m + 1) = lo := by omega
      rw [this]
      exact hstop
  obtain ⟨a1, a2, a3, a4⟩ :=
    ackLoop_spec SEQ_MOD (Dec v) s.loss_packets s.nack_packets (v - lo) hn hrun hstop2
  have hnotrun : ∀ k, (k < lo ∨ v ≤ k) → ∀ i, i < v - lo → k ≠ Dec^[i] (Dec v) := by
    intro k hk i hi
    rw [hit i hi]
    omega
  refine ⟨?_, ?_, a4⟩
  · intro k d hkv hkd
    by_cases hk : lo ≤ k
    · have hex : ∃ i, i < v - lo ∧ k = Dec^[i] (Dec v) := by
        refine ⟨v - 1 - k, by omega, ?_⟩
        rw [hit _ (by omega)]
        omega
      refine ⟨a1 k d hkd hex, ?_⟩
      intro hmem
      obtain ⟨i, hi, hki⟩ := hex
      exact ((a3 k).mp hmem).2 i hi hki
    · have hk2 : k < lo := by omega
      obtain ⟨hacked, hnl⟩ := hbelow k d hk2 hkd
      refine ⟨?_, ?_⟩
      · rw [a2 k (hnotrun k (Or.inl hk2)), hkd, setAcked_of_acked d hacked]
      · intro hmem
        exact hnl ((a3 k).mp hmem).1
  · intro k hk
    refine ⟨a2 k (hnotrun k (Or.inr hk)), ?_⟩
    rw [a3 k]
    constructor
    · exact fun h => h.1
    · exact fun h => ⟨h, hnotrun k (Or.inr hk)⟩

/-- Witness of C3 amended: the keys 3, 4, 5 in flight, `AckPackets(5)`. -/
theorem AckPackets_acknowledges_below_witness :
    3 ≤ GetPacketSequenceValue 5 ∧
    mapFind (Dec 3) exContiguous.nack_packets = none ∧
    ((AckPackets exContiguous 5).nack_packets.map fun e => (e.1, e.2.acked)) =
      [(3, true), (4, true), (5, false)] ∧
    (AckPackets exContiguous 5).nack_packets.map Prod.fst =
      exContiguous.nack_packets.map Prod.fst :=
  ⟨by decide, by decide, by decide,
    (AckPackets_acknowledges_below exContiguous 5 3 (by decide)
      (by
        intro k h1 h2
        have h3 : GetPacketSequenceValue 5 = 5 := by decide
        rw [h3] at h2
        have h4 : k = 3 ∨ k = 4 := by omega
        rcases h4 with h4 | h4 <;> subst h4 <;> decide)
      (by decide)
      (by
        intro k d hk hd
        have h4 : k = 0 ∨ k = 1 ∨ k = 2 := by omega
        have h0 : mapFind 0 exContiguous.nack_packets = none := by decide
        have h1 : mapFind 1 exContiguous.nack_packets = none := by decide
        have h2 : mapFind 2 exContiguous.nack_packets = none := by decide
        rcases h4 with h4 | h4 | h4 <;> subst h4
        · rw [h0] at hd; exact Option.noConfusion hd
        · rw [h1] at hd; exact Option.noConfusion hd
        · rw [h2] at hd; exact Option.noConfusion hd)).2.2⟩

/-! ## The loss set / in-flight map invariant -/

theorem mapFind_mapAssign_ne (y k : Nat) (d : SendDatagram) (m : List (Nat × SendDatagram))
    (h : y ≠ k) : mapFind y (mapAssign k d m) = mapFind y m := by
  have hk : ¬ k = y := fun e => h e.symm
  induction m with
  | nil => simp [mapAssign, mapFind, hk]
  | cons e m ih =>
    unfold mapAssign
    split_ifs with h1 h2
    · simp [mapFind, hk]
    · have : ¬ e.1 = y := by rw [← h2]; exact hk
      simp [mapFind, hk, this]
    · simp [mapFind, ih]

theorem mapFind_filter (x : Nat) (d : SendDatagram) (p : Nat × SendDatagram → Bool)
    (m : List (Nat × SendDatagram)) (h : mapFind x m = some d) (hp : p (x, d) = true) :
    mapFind x (m.filter p) = some d := by
  induction m with
  | nil => simp [mapFind] at h
  | cons e m ih =>
    by_cases he : e.1 = x
    · simp only [mapFind, he, if_true, Option.some.injEq] at h
      have hpe : p e = true := by
        have : e = (x, d) := Prod.ext he h
        rw [this]; exact hp
      rw [List.filter_cons_of_pos hpe]
      simp [mapFind, he, h]
    · simp only [mapFind, he, if_false] at h
      by_cases hpe : p e = true
      · rw [List.filter_cons_of_pos hpe]
        simp [mapFind, he, ih h]
      · rw [List.filter_cons_of_neg hpe]
        exact ih h

theorem mapFind_mapErase_ne (y k : Nat) (m : List (Nat × SendDatagram)) (h : y ≠ k) :
    mapFind y (mapErase k m) = mapFind y m := by
  induction m with
  | nil => rfl
  | cons e m ih =>
    unfold mapErase at ih ⊢
    by_cases he : e.1 = k
    · have hy : ¬ e.1 = y := by rw [he]; exact fun e => h e.symm
      rw [List.filter_cons_of_neg (by simp [he])]
      simp [mapFind, hy, ih]
    · rw [List.filter_cons_of_pos (by simp [he])]
      by_cases hy : e.1 = y <;> simp [mapFind, hy, ih]

theorem mem_keys_mapAssign (y k : Nat) (d : SendDatagram) (m : List (Nat × SendDatagram))
    (h : y ∈ (mapAssign k d m).map Prod.fst) : y = k ∨ y ∈ m.map Prod.fst := by
  induction m with
  | nil => simpa [mapAssign] using h
  | cons e m ih =>
    unfold mapAssign at h
    split_ifs at h with h1 h2
    · simpa using h
    · simp only [List.map_cons, List.mem_cons] at h ⊢
      rcases h with h | h
      · exact Or.inl h
      · exact Or.inr (Or.inr h)
    · simp only [List.map_cons, List.mem_cons] at h ⊢
      rcases h with h | h
      · exact Or.inr (Or.inl h)
      · rcases ih h with h | h
        · exact Or.inl h
        · exact Or.inr (Or.inr h)

theorem keys_sorted_mapAssign (k : Nat) (d : SendDatagram) (m : List (Nat × SendDatagram))
    (h : (m.map Prod.fst).Pairwise (fun a b => a < b)) :
    ((mapAssign k d m).map Prod.fst).Pairwise (fun a b => a < b) := by
  induction m with
  | nil => simp [mapAssign]
  | cons e m ih =>
    simp only [List.map_cons, List.pairwise_cons] at h
    unfold mapAssign
    split_ifs with h1 h2
    · simp only [List.map_cons, List.pairwise_cons, List.mem_cons]
      refine ⟨?_, h.1, h.2⟩
      rintro a (ha | ha)
      · omega
      · have := h.1 a ha; omega
    · simp only [List.map_cons, List.pairwise_cons]
      refine ⟨?_, h.2⟩
      intro a ha
      have := h.1 a ha; omega
    · simp only [List.map_cons, List.pairwise_cons]
      refine ⟨?_, ih h.2⟩
      intro a ha
      rcases mem_keys_mapAssign a k d m ha with ha | ha
      · omega
      · exact h.1 a ha

theorem keys_sorted_filter (p : Nat × SendDatagram → Bool) (m : List (Nat × SendDatagram))
    (h : (m.map Prod.fst).Pairwise (fun a b => a < b)) :
    ((m.filter p).map Prod.fst).Pairwise (fun a b => a < b) :=
  List.Pairwise.sublist (List.Sublist.map _ (List.filter_sublist m)) h

theorem mapFind_of_mem_sorted (m : List (Nat × SendDatagram))
    (h : (m.map Prod.fst).Pairwise (fun a b => a < b)) (e : Nat × SendDatagram) (he : e ∈ m) :
    mapFind e.1 m = some e.2 := by
  induction m with
  | nil => simp at he
  | cons a m ih =>
    simp only [List.map_cons, List.pairwise_cons] at h
    rcases List.mem_cons.mp he with hea | hem
    · subst hea; simp [mapFind]
    · have hlt : a.1 < e.1 := h.1 e.1 (List.mem_map_of_mem _ hem)
      have hne : ¬ a.1 = e.1 := by omega
      simp [mapFind, hne, ih h.2 hem]


/-! ## Lemmas on the segmentation loop -/

theorem copyLoop_eq : ∀ (room : Nat) (user_buf payload : List Nat),
    copyLoop room user_buf payload = (payload ++ user_buf.take room, user_buf.drop room) := by
  intro room
  induction room with
  | zero => intro b p; simp [copyLoop]
  | succ n ih =>
    intro b p
    cases b with
    | nil => simp [copyLoop]
    | cons x b => simp [copyLoop, ih]

theorem setBackPosition_append_singleton (p : MessagePosition) (q : List SendDatagram)
    (d : SendDatagram) :
    setBackPosition p (q ++ [d]) =
      q ++ [{ d with header := { d.header with message_position := p } }] := by
  induction q with
  | nil => simp [setBackPosition]
  | cons a q ih =>
    cases hq : q ++ [d] with
    | nil => simp at hq
    | cons b r =>
      rw [List.cons_append, hq, setBackPosition, ← hq, ih]
      rfl

theorem segmentLoop_nil (fresh : SendDatagram) (ps msg fuel : Nat) (s : Sender) (pc tc : Nat) :
    segmentLoop fresh ps msg fuel s [] pc tc = (tc, s) := by
  cases fuel <;> simp [segmentLoop]

/-- One iteration of the outer loop when `AddPacket` accepts the fragment. -/
theorem segmentLoop_accept (fresh : SendDatagram) (ps msg fuel : Nat) (s : Sender)
    (b : Nat) (buf : List Nat) (pc tc : Nat)
    (hroom : s.packets_to_send.length ≤ s.max_send_size) :
    segmentLoop fresh ps msg (fuel + 1) s (b :: buf) pc tc =
      segmentLoop fresh ps msg fuel
        { s with packets_to_send := s.packets_to_send ++
            [mkFragment fresh msg s.p_session.remote_socket_id ((b :: buf).take ps)
              (fragmentLabel pc ((b :: buf).drop ps))] }
        ((b :: buf).drop ps) (pc + 1) (tc + ((b :: buf).take ps).length) := by
  have h : ¬ s.packets_to_send.length > s.max_send_size := by omega
  simp only [segmentLoop, AddPacket, h, copyLoop_eq, List.nil_append, if_false,
    List.isEmpty_cons, Bool.not_false, Bool.not_true, Bool.false_and,
    setBackPosition_append_singleton, mkFragment, fragmentLabel]
  rfl

/-- One iteration of the outer loop when `AddPacket` refuses the fragment. -/
theorem segmentLoop_refuse (fresh : SendDatagram) (ps msg fuel : Nat) (s : Sender)
    (b : Nat) (buf : List Nat) (pc tc : Nat)
    (hfull : s.max_send_size < s.packets_to_send.length) :
    segmentLoop fresh ps msg (fuel + 1) s (b :: buf) pc tc =
      if pc = 0 then (0, s)
      else (tc,
        { s with
          packets_to_send := setBackPosition
            (if pc = 1 then MessagePosition.ONLY_ONE_PACKET else MessagePosition.LAST)
            s.packets_to_send }) := by
  have h : s.packets_to_send.length > s.max_send_size := hfull
  by_cases h0 : pc = 0
  · simp [segmentLoop, AddPacket, h, h0]
  · by_cases h1 : pc = 1
    · simp [segmentLoop, AddPacket, h, h1]
    · simp [segmentLoop, AddPacket, h, h0, h1]

theorem acceptedFragments_nil (fresh : SendDatagram) (ps msg sock r pc : Nat) :
    acceptedFragments fresh ps msg sock r pc [] = [] := by
  cases r <;> rfl

/-- The outer loop of `ProcessWriteOpBuffers` in closed form.  With `r` the
number of datagrams the queue still accepts: if the buffer fits into `r`
fragments all of it is queued; otherwise `r` fragments are queued, the next
one is refused, and the last accepted one is labelled again (nothing happens
and 0 is returned when not even one fragment of the write was accepted). -/
theorem segmentLoop_closed_form (fresh : SendDatagram) (ps msg : Nat) :
    ∀ (r fuel : Nat) (s : Sender) (buf : List Nat) (pc tc : Nat),
      r = s.max_send_size + 1 - s.packets_to_send.length → r < fuel →
      segmentLoop fresh ps msg fuel s buf pc tc =
        if buf.length ≤ r * ps then
          (tc + buf.length,
            { s with
              packets_to_send :=
                s.packets_to_send ++
                  acceptedFragments fresh ps msg s.p_session.remote_socket_id r pc buf })
        else if pc + r = 0 then (0, s)
        else
          (tc + r * ps,
            { s with
              packets_to_send :=
                setBackPosition
                  (if pc + r = 1 then MessagePosition.ONLY_ONE_PACKET
                    else MessagePosition.LAST)
                  (s.packets_to_send ++
                    acceptedFragments fresh ps msg s.p_session.remote_socket_id r pc buf) }) := by
  intro r
  induction r with
  | zero =>
    intro fuel s buf pc tc hr hfuel
    obtain ⟨fuel, rfl⟩ : ∃ f, fuel = f + 1 := ⟨fuel - 1, by omega⟩
    cases buf with
    | nil => simp [segmentLoop_nil, acceptedFragments]
    | cons b buf =>
      rw [segmentLoop_refuse _ _ _ _ _ _ _ _ _ (by omega)]
      simp [acceptedFragments]
  | succ r ih =>
    intro fuel s buf pc tc hr hfuel
    obtain ⟨fuel, rfl⟩ : ∃ f, fuel = f + 1 := ⟨fuel - 1, by omega⟩
    cases buf with
    | nil => simp [segmentLoop_nil, acceptedFragments]
    | cons b buf =>
      rw [segmentLoop_accept _ _ _ _ _ _ _ _ _ (by omega)]
      rw [ih fuel _ _ _ _ (by simp; omega) (by omega)]
      have hlen : ((b :: buf).drop ps).length = (b :: buf).length - ps := List.length_drop _ _
      have htake : ((b :: buf).take ps).length = min ps (b :: buf).length := List.length_take _ _
      have hmul : (r + 1) * ps = r * ps + ps := Nat.succ_mul r ps
      by_cases hfit : (b :: buf).length ≤ (r + 1) * ps
      · have hfit2 : ((b :: buf).drop ps).length ≤ r * ps := by omega
        simp only [hfit, hfit2, if_true, acceptedFragments, List.append_assoc,
          List.singleton_append]
        congr 1
        omega
      · have hfit2 : ¬ ((b :: buf).drop ps).length ≤ r * ps := by omega
        have h0 : ¬ pc + 1 + r = 0 := by omega
        have h0b : ¬ pc + (r + 1) = 0 := by omega
        have h1 : (pc + 1 + r = 1) = (pc + (r + 1) = 1) := by
          apply propext; constructor <;> intro h <;> omega
        simp only [hfit, hfit2, if_false, h0, h0b, h1, acceptedFragments, List.append_assoc,
          List.singleton_append]
        congr 1
        omega

theorem acceptedFragments_length_fit (fresh : SendDatagram) (ps msg sock : Nat) (hps : 0 < ps) :
    ∀ (r pc : Nat) (buf : List Nat), buf.length ≤ r * ps →
      (acceptedFragments fresh ps msg sock r pc buf).length = (buf.length + ps - 1) / ps := by
  intro r
  induction r with
  | zero =>
    intro pc buf h
    have : buf.length = 0 := by omega
    rw [this]
    simp only [acceptedFragments, List.length_nil, Nat.zero_add]
    exact (Nat.div_eq_of_lt (by omega)).symm
  | succ r ih =>
    intro pc buf h
    cases buf with
    | nil =>
      simp only [acceptedFragments, List.length_nil, Nat.zero_add]
      exact (Nat.div_eq_of_lt (by omega)).symm
    | cons b buf =>
      have hlen : ((b :: buf).drop ps).length = (b :: buf).length - ps := List.length_drop _ _
      have hmul : (r + 1) * ps = r * ps + ps := Nat.succ_mul r ps
      simp only [acceptedFragments, List.length_cons]
      rw [ih (pc + 1) _ (by omega), hlen]
      simp only [List.length_cons]
      by_cases hle : buf.length + 1 ≤ ps
      · have h1 : buf.length + 1 - ps = 0 := by omega
        rw [h1, Nat.zero_add, Nat.div_eq_of_lt (by omega)]
        have h2 : buf.length + 1 + ps - 1 = (buf.length) + ps := by omega
        rw [h2, Nat.add_div_right _ hps, Nat.div_eq_of_lt (by omega)]
      · have h2 : buf.length + 1 + ps - 1 = (buf.length + 1 - ps + ps - 1) + ps := by omega
        rw [h2, Nat.add_div_right _ hps]

theorem acceptedFragments_length_full (fresh : SendDatagram) (ps msg sock : Nat) :
    ∀ (r pc : Nat) (buf : List Nat), r * ps < buf.length →
      (acceptedFragments fresh ps msg sock r pc buf).length = r := by
  intro r
  induction r with
  | zero => intro pc buf _; rfl
  | succ r ih =>
    intro pc buf h
    cases buf with
    | nil => simp at h
    | cons b buf =>
      have hlen : ((b :: buf).drop ps).length = (b :: buf).length - ps := List.length_drop _ _
      have hmul : (r + 1) * ps = r * ps + ps := Nat.succ_mul r ps
      simp only [acceptedFragments, List.length_cons]
      rw [ih (pc + 1) _ (by omega)]

theorem acceptedFragments_payload (fresh : SendDatagram) (ps msg sock : Nat) :
    ∀ (r pc : Nat) (buf : List Nat),
      ((acceptedFragments fresh ps msg sock r pc buf).map fun d => d.payload).flatten =
        buf.take (r * ps) := by
  intro r
  induction r with
  | zero => intro pc buf; simp [acceptedFragments]
  | succ r ih =>
    intro pc buf
    cases buf with
    | nil => simp [acceptedFragments]
    | cons b buf =>
      have hmul : (r + 1) * ps = ps + r * ps := by rw [Nat.succ_mul, Nat.add_comm]
      simp only [acceptedFragments, List.map_cons, List.flatten_cons, ih]
      rw [hmul, List.take_add]
      rfl

theorem acceptedFragments_header (fresh : SendDatagram) (ps msg sock : Nat) :
    ∀ (r pc : Nat) (buf : List Nat), ∀ d ∈ acceptedFragments fresh ps msg sock r pc buf,
      d.header.message_number = msg ∧ d.header.destination_socket = sock ∧
      d.acked = fresh.acked ∧ d.pending_send = fresh.pending_send := by
  intro r
  induction r with
  | zero => intro pc buf d hd; simp [acceptedFragments] at hd
  | succ r ih =>
    intro pc buf d hd
    cases buf with
    | nil => simp [acceptedFragments] at hd
    | cons b buf =>
      simp only [acceptedFragments, List.mem_cons] at hd
      rcases hd with hd | hd
      · rw [hd]; exact ⟨rfl, rfl, rfl, rfl⟩
      · exact ih _ _ d hd

theorem setBackPosition_append (p : MessagePosition) (q : List SendDatagram) :
    ∀ (F : List SendDatagram), F ≠ [] →
      setBackPosition p (q ++ F) = q ++ setBackPosition p F := by
  induction q with
  | nil => intro F _; rfl
  | cons a q ih =>
    intro F hF
    cases hq : q ++ F with
    | nil => simp [hF] at hq
    | cons b r => rw [List.cons_append, hq, setBackPosition, ← hq, ih F hF]; rfl

/-- Re-labelling the last datagram changes its position label and nothing else. -/
theorem setBackPosition_spec (p : MessagePosition) : ∀ (F : List SendDatagram),
    (setBackPosition p F).length = F.length ∧
    ((setBackPosition p F).map fun d => d.payload) = (F.map fun d => d.payload) ∧
    ((setBackPosition p F).map fun d => d.acked) = (F.map fun d => d.acked) ∧
    ((setBackPosition p F).map fun d => d.header.message_number) =
      (F.map fun d => d.header.message_number) ∧
    ((setBackPosition p F).map fun d => d.header.destination_socket) =
      (F.map fun d => d.header.destination_socket) ∧
    (F ≠ [] → (setBackPosition p F).getLast?.map (fun d => d.header.message_position) = some p)
    := by
  intro F
  induction F with
  | nil => simp [setBackPosition]
  | cons a F ih =>
    cases F with
    | nil => simp [setBackPosition]
    | cons b F =>
      obtain ⟨h1, h2, h3, h4, h5, h6⟩ := ih
      have hne : setBackPosition p (b :: F) ≠ [] := by
        intro h; rw [h] at h1; simp at h1
      refine ⟨?_, ?_, ?_, ?_, ?_, ?_⟩
      · simp only [setBackPosition, List.length_cons] at h1 ⊢; omega
      · simp only [setBackPosition, List.map_cons] at h2 ⊢; rw [h2]
      · simp only [setBackPosition, List.map_cons] at h3 ⊢; rw [h3]
      · simp only [setBackPosition, List.map_cons] at h4 ⊢; rw [h4]
      · simp only [setBackPosition, List.map_cons] at h5 ⊢; rw [h5]
      · intro _
        have := h6 (by simp)
        rw [setBackPosition]
        obtain ⟨c, L, hL⟩ := List.exists_cons_of_ne_nil hne
        rw [hL] at this ⊢
        rw [List.getLast?_cons_cons]
        exact this

theorem forall_mem_of_map_eq {β : Type} (f : SendDatagram → β) (c : β)
    (L L2 : List SendDatagram) (h : L2.map f = L.map f) (hL : ∀ d ∈ L, f d = c) :
    ∀ d ∈ L2, f d = c := by
  intro d hd
  have h1 : f d ∈ L2.map f := List.mem_map_of_mem f hd
  rw [h] at h1
  obtain ⟨d2, hd2, he⟩ := List.mem_map.mp h1
  rw [← he]
  exact hL d2 hd2

theorem sum_payload_length (F : List SendDatagram) :
    (F.map fun d => d.payload.length).sum = (F.map fun d => d.payload).flatten.length := by
  rw [List.length_flatten, List.map_map]
  rfl

theorem le_ceil_mul (n ps : Nat) (hps : 0 < ps) : n ≤ (n + ps - 1) / ps * ps := by
  have h1 := Nat.div_add_mod (n + ps - 1) ps
  have h2 := Nat.mod_lt (n + ps - 1) hps
  rw [Nat.mul_comm] at h1
  omega

/-- The function `ProcessWriteOpBuffers` in closed form: the fuel of the definition is
never exhausted and the outcome is one of three. -/
theorem ProcessWriteOpBuffers_closed_form (P : Protocol) (s : Sender) (bytes : List Nat) :
    ProcessWriteOpBuffers P s bytes =
      if bytes.length ≤ (s.max_send_size + 1 - s.packets_to_send.length) *
          (s.p_session.packet_data_size - P.header_size) then
        (bytes.length,
          { s with
            p_session := { s.p_session with message_seq_gen := s.p_session.message_seq_gen.Next.2 }
            packets_to_send :=
              s.packets_to_send ++
                acceptedFragments P.new_datagram (s.p_session.packet_data_size - P.header_size)
                  s.p_session.message_seq_gen.current s.p_session.remote_socket_id
                  (s.max_send_size + 1 - s.packets_to_send.length) 0 bytes })
      else if s.max_send_size + 1 - s.packets_to_send.length = 0 then
        (0, { s with
              p_session :=
                { s.p_session with message_seq_gen := s.p_session.message_seq_gen.Next.2 } })
      else
        ((s.max_send_size + 1 - s.packets_to_send.length) *
            (s.p_session.packet_data_size - P.header_size),
          { s with
            p_session := { s.p_session with message_seq_gen := s.p_session.message_seq_gen.Next.2 }
            packets_to_send :=
              setBackPosition
                (if s.max_send_size + 1 - s.packets_to_send.length = 1 then
                  MessagePosition.ONLY_ONE_PACKET else MessagePosition.LAST)
                (s.packets_to_send ++
                  acceptedFragments P.new_datagram
                    (s.p_session.packet_data_size - P.header_size)
                    s.p_session.message_seq_gen.current s.p_session.remote_socket_id
                    (s.max_send_size + 1 - s.packets_to_send.length) 0 bytes) }) := by
  have h := segmentLoop_closed_form P.new_datagram
    (s.p_session.packet_data_size - P.header_size) s.p_session.message_seq_gen.Next.1
    (s.max_send_size + 1 - s.packets_to_send.length) (bytes.length + s.max_send_size + 2)
    { s with p_session :=
        { s.p_session with message_seq_gen := s.p_session.message_seq_gen.Next.2 } }
    bytes 0 0 rfl (by omega)
  unfold ProcessWriteOpBuffers
  simp only []
  rw [h]
  simp only [Nat.zero_add, SequenceGenerator.Next]

/-! ## Claims on the segmentation of a write -/

/-- C6: with a positive payload size `packet_data_size - Header::size` and a
queue that accepts every fragment, `ProcessWriteOpBuffers` appends exactly
`ceil (N / payload_size)` datagrams to `packets_to_send_`, the concatenation
of their payloads is the written byte sequence, and `N` is returned. -/
theorem ProcessWriteOpBuffers_segmentation (P : Protocol) (s : Sender) (bytes : List Nat)
    (hps : P.header_size < s.p_session.packet_data_size)
    (hroom : s.packets_to_send.length +
        (bytes.length + (s.p_session.packet_data_size - P.header_size) - 1) /
          (s.p_session.packet_data_size - P.header_size) ≤ s.max_send_size + 1) :
    ∃ F : List SendDatagram,
      (ProcessWriteOpBuffers P s bytes).2.packets_to_send = s.packets_to_send ++ F ∧
      F.length = (bytes.length + (s.p_session.packet_data_size - P.header_size) - 1) /
          (s.p_session.packet_data_size - P.header_size) ∧
      (F.map fun d => d.payload).flatten = bytes ∧
      (ProcessWriteOpBuffers P s bytes).1 = bytes.length := by
  have hps0 : 0 < s.p_session.packet_data_size - P.header_size := by omega
  generalize hpsd : s.p_session.packet_data_size - P.header_size = ps at hroom hps0
  have hceil := le_ceil_mul bytes.length ps hps0
  have hr : (bytes.length + ps - 1) / ps ≤ s.max_send_size + 1 - s.packets_to_send.length := by
    omega
  have hfit : bytes.length ≤ (s.max_send_size + 1 - s.packets_to_send.length) * ps :=
    le_trans hceil (Nat.mul_le_mul_right ps hr)
  rw [ProcessWriteOpBuffers_closed_form, hpsd, if_pos hfit]
  refine ⟨_, rfl, acceptedFragments_length_fit _ _ _ _ hps0 _ _ _ hfit, ?_, rfl⟩
  rw [acceptedFragments_payload]
  exact List.take_of_length_le hfit

/-- Witness of C6: nine bytes, four payload bytes per datagram, three fragments. -/
theorem ProcessWriteOpBuffers_segmentation_witness :
    exProtocol.header_size < (exSender 4).p_session.packet_data_size ∧
    ∃ F : List SendDatagram,
      (ProcessWriteOpBuffers exProtocol (exSender 4)
        [1, 2, 3, 4, 5, 6, 7, 8, 9]).2.packets_to_send = (exSender 4).packets_to_send ++ F ∧
      F.length = 3 ∧
      (F.map fun d => d.payload).flatten = [1, 2, 3, 4, 5, 6, 7, 8, 9] ∧
      (ProcessWriteOpBuffers exProtocol (exSender 4) [1, 2, 3, 4, 5, 6, 7, 8, 9]).1 = 9 :=
  ⟨by decide,
    ProcessWriteOpBuffers_segmentation exProtocol (exSender 4) [1, 2, 3, 4, 5, 6, 7, 8, 9]
      (by decide) (by decide)⟩

/-- C7 (the code departs from the claim): a write that fits one datagram is
labelled `MIDDLE`, not `ONLY_ONE_PACKET`, and a write of three fragments is
labelled `LAST`, `ONLY_ONE_PACKET`, `MIDDLE`, not `FIRST`, `MIDDLE`, `LAST`;
the queue accepts every fragment in both cases. -/
theorem ProcessWriteOpBuffers_labels :
    ((ProcessWriteOpBuffers exProtocol (exSender 4) [1, 2, 3]).2.packets_to_send.map
        fun d => (d.payload, d.header.message_position)) =
      [([1, 2, 3], MessagePosition.MIDDLE)] ∧
    ((ProcessWriteOpBuffers exProtocol (exSender 4)
        [1, 2, 3, 4, 5, 6, 7, 8, 9]).2.packets_to_send.map
        fun d => (d.payload, d.header.message_position)) =
      [([1, 2, 3, 4], MessagePosition.LAST), ([5, 6, 7, 8], MessagePosition.ONLY_ONE_PACKET),
        ([9], MessagePosition.MIDDLE)] := by
  decide

/-- C8: let the queue accept exactly `r` more datagrams while the write needs
more than `r` fragments.  If `r` is 0 the first fragment is refused, nothing
is enqueued and 0 is returned.  Otherwise segmentation stops after `r`
fragments, which hold the first `r * payload_size` bytes, and the last
accepted fragment is labelled `ONLY_ONE_PACKET` when `r` is 1 and `LAST`
otherwise. -/
theorem ProcessWriteOpBuffers_refused (P : Protocol) (s : Sender) (bytes : List Nat) (r : Nat)
    (hr : s.packets_to_send.length + r = s.max_send_size + 1)
    (hmore : r * (s.p_session.packet_data_size - P.header_size) < bytes.length) :
    (r = 0 → (ProcessWriteOpBuffers P s bytes).1 = 0 ∧
      (ProcessWriteOpBuffers P s bytes).2.packets_to_send = s.packets_to_send) ∧
    (0 < r → ∃ F : List SendDatagram,
      (ProcessWriteOpBuffers P s bytes).2.packets_to_send = s.packets_to_send ++ F ∧
      F.length = r ∧
      (F.map fun d => d.payload).flatten =
        bytes.take (r * (s.p_session.packet_data_size - P.header_size)) ∧
      F.getLast?.map (fun d => d.header.message_position) =
        some (if r = 1 then MessagePosition.ONLY_ONE_PACKET else MessagePosition.LAST) ∧
      (ProcessWriteOpBuffers P s bytes).1 =
        r * (s.p_session.packet_data_size - P.header_size)) := by
  have hr2 : s.max_send_size + 1 - s.packets_to_send.length = r := by omega
  have hnfit : ¬ bytes.length ≤ r * (s.p_session.packet_data_size - P.header_size) := by omega
  rw [ProcessWriteOpBuffers_closed_form, hr2, if_neg hnfit]
  refine ⟨?_, ?_⟩
  · intro h0
    rw [if_pos h0]
    exact ⟨rfl, rfl⟩
  · intro hpos
    rw [if_neg (by omega)]
    have hlen := acceptedFragments_length_full P.new_datagram
      (s.p_session.packet_data_size - P.header_size) s.p_session.message_seq_gen.current
      s.p_session.remote_socket_id r 0 bytes hmore
    have hne : acceptedFragments P.new_datagram
        (s.p_session.packet_data_size - P.header_size) s.p_session.message_seq_gen.current
        s.p_session.remote_socket_id r 0 bytes ≠ [] := by
      intro h; rw [h] at hlen; simp at hlen; omega
    obtain ⟨h1, h2, _, _, _, h6⟩ := setBackPosition_spec
      (if r = 1 then MessagePosition.ONLY_ONE_PACKET else MessagePosition.LAST)
      (acceptedFragments P.new_datagram
        (s.p_session.packet_data_size - P.header_size) s.p_session.message_seq_gen.current
        s.p_session.remote_socket_id r 0 bytes)
    refine ⟨_, ?_, h1.trans hlen, ?_, h6 hne, rfl⟩
    · simp only []
      rw [setBackPosition_append _ _ _ hne]
    · rw [h2, acceptedFragments_payload]

/-- Witness of C8: the queue accepts two datagrams, the write needs three. -/
theorem ProcessWriteOpBuffers_refused_witness :
    (exRoom 2).packets_to_send.length + 2 = (exRoom 2).max_send_size + 1 ∧
    ∃ F : List SendDatagram,
      (ProcessWriteOpBuffers exProtocol (exRoom 2)
        [1, 2, 3, 4, 5, 6, 7, 8, 9]).2.packets_to_send = (exRoom 2).packets_to_send ++ F ∧
      F.length = 2 ∧
      (F.map fun d => d.payload).flatten = [1, 2, 3, 4, 5, 6, 7, 8] ∧
      F.getLast?.map (fun d => d.header.message_position) = some MessagePosition.LAST ∧
      (ProcessWriteOpBuffers exProtocol (exRoom 2) [1, 2, 3, 4, 5, 6, 7, 8, 9]).1 = 8 :=
  ⟨by decide,
    (ProcessWriteOpBuffers_refused exProtocol (exRoom 2) [1, 2, 3, 4, 5, 6, 7, 8, 9] 2
      (by decide) (by decide)).2 (by decide)⟩

/-- C9: the write operation is completed with error code `success` and the
value returned by `ProcessWriteOpBuffers`; that value is the sum of the
payload sizes of the fragments of this write accepted into
`packets_to_send_`; when no fragment is refused it is `N` and the accepted
payloads make up the written bytes; every accepted fragment carries the
message number drawn from the message sequence generator for this write and
the remote socket id of the session. -/
theorem ProcessWriteOp_bytes_copied (P : Protocol) (s : Sender) (bytes : List Nat) :
    (ProcessWriteOp P s false bytes).1 =
      some (ErrorCode.success, (ProcessWriteOpBuffers P s bytes).1) ∧
    ∃ F : List SendDatagram,
      (ProcessWriteOpBuffers P s bytes).2.packets_to_send = s.packets_to_send ++ F ∧
      (ProcessWriteOp P s false bytes).2.packets_to_send = s.packets_to_send ++ F ∧
      (ProcessWriteOpBuffers P s bytes).1 = (F.map fun d => d.payload.length).sum ∧
      (∀ d ∈ F, d.header.message_number = s.p_session.message_seq_gen.Next.1 ∧
        d.header.destination_socket = s.p_session.remote_socket_id) ∧
      (bytes.length ≤ (s.max_send_size + 1 - s.packets_to_send.length) *
          (s.p_session.packet_data_size - P.header_size) →
        (F.map fun d => d.payload).flatten = bytes ∧
        (ProcessWriteOpBuffers P s bytes).1 = bytes.length) := by
  refine ⟨rfl, ?_⟩
  have hq : (ProcessWriteOp P s false bytes).2.packets_to_send =
      (ProcessWriteOpBuffers P s bytes).2.packets_to_send := rfl
  rw [hq, ProcessWriteOpBuffers_closed_form]
  generalize hps : s.p_session.packet_data_size - P.header_size = ps
  generalize hr : s.max_send_size + 1 - s.packets_to_send.length = r
  have hhead := acceptedFragments_header P.new_datagram ps s.p_session.message_seq_gen.current
    s.p_session.remote_socket_id r 0 bytes
  have hpay := acceptedFragments_payload P.new_datagram ps s.p_session.message_seq_gen.current
    s.p_session.remote_socket_id r 0 bytes
  by_cases hfit : bytes.length ≤ r * ps
  · rw [if_pos hfit]
    have hall : ((acceptedFragments P.new_datagram ps s.p_session.message_seq_gen.current
        s.p_session.remote_socket_id r 0 bytes).map fun d => d.payload).flatten = bytes := by
      rw [hpay]; exact List.take_of_length_le hfit
    refine ⟨_, rfl, rfl, ?_, ?_, fun _ => ⟨hall, rfl⟩⟩
    · rw [sum_payload_length, hall]
    · intro d hd
      exact ⟨(hhead d hd).1, (hhead d hd).2.1⟩
  · rw [if_neg hfit]
    by_cases h0 : r = 0
    · rw [if_pos h0]
      exact ⟨[], by simp, by simp, by simp, by simp, fun h => absurd h hfit⟩
    · rw [if_neg h0]
      have hlen := acceptedFragments_length_full P.new_datagram ps
        s.p_session.message_seq_gen.current s.p_session.remote_socket_id r 0 bytes (by omega)
      have hne : acceptedFragments P.new_datagram ps s.p_session.message_seq_gen.current
          s.p_session.remote_socket_id r 0 bytes ≠ [] := by
        intro h; rw [h] at hlen; simp at hlen; omega
      obtain ⟨_, h2, _, h4, h5, _⟩ := setBackPosition_spec
        (if r = 1 then MessagePosition.ONLY_ONE_PACKET else MessagePosition.LAST)
        (acceptedFragments P.new_datagram ps s.p_session.message_seq_gen.current
          s.p_session.remote_socket_id r 0 bytes)
      refine ⟨setBackPosition
        (if r = 1 then MessagePosition.ONLY_ONE_PACKET else MessagePosition.LAST)
        (acceptedFragments P.new_datagram ps s.p_session.message_seq_gen.current
          s.p_session.remote_socket_id r 0 bytes), ?_, ?_, ?_, ?_, fun h => absurd h hfit⟩
      · simp only []
        rw [setBackPosition_append _ _ _ hne]
      · simp only []
        rw [setBackPosition_append _ _ _ hne]
      · rw [sum_payload_length, h2, hpay, List.length_take]
        simp only []
        omega
      · intro d hd
        exact ⟨forall_mem_of_map_eq (fun d => d.header.message_number) _ _ _ h4
            (fun d hd => (hhead d hd).1) d hd,
          forall_mem_of_map_eq (fun d => d.header.destination_socket) _ _ _ h5
            (fun d hd => (hhead d hd).2.1) d hd⟩

/-! ## Preservation of the invariant -/

theorem isUnackedKey_iff (nack : List (Nat × SendDatagram)) (x : Nat) :
    isUnackedKey nack x = true ↔ ∃ d, mapFind x nack = some d ∧ d.acked = false := by
  unfold isUnackedKey
  cases h : mapFind x nack with
  | none => simp
  | some d => simp

theorem nackPacketsLoop_snd : ∀ (m : List (Nat × SendDatagram)) (loss : List Nat),
    (nackPacketsLoop m loss).2 = m.filter (fun e => !e.2.acked || e.2.pending_send) := by
  intro m
  induction m with
  | nil => intro loss; rfl
  | cons e m ih =>
    intro loss
    cases ha : e.2.acked <;> cases hp : e.2.pending_send <;>
      simp [nackPacketsLoop, ha, hp, ih]

theorem mem_nackPacketsLoop_fst : ∀ (m : List (Nat × SendDatagram)) (loss : List Nat) (y : Nat),
    y ∈ (nackPacketsLoop m loss).1 ↔ y ∈ loss ∨ ∃ e ∈ m, e.2.acked = false ∧ e.1 = y := by
  intro m
  induction m with
  | nil => intro loss y; simp [nackPacketsLoop]
  | cons e m ih =>
    intro loss y
    cases ha : e.2.acked
    · simp only [nackPacketsLoop, ha, Bool.not_false, if_true, ih, mem_setInsert,
        List.mem_cons, exists_eq_or_imp, true_and]
      constructor
      · rintro ((h | h) | h)
        · exact Or.inr (Or.inl h.symm)
        · exact Or.inl h
        · exact Or.inr (Or.inr h)
      · rintro (h | h | h)
        · exact Or.inl (Or.inr h)
        · exact Or.inl (Or.inl h.symm)
        · exact Or.inr h
    · cases hp : e.2.pending_send <;>
        simp [nackPacketsLoop, ha, hp, ih]

theorem UpdateLossListFromNackPackets_Inv (s : Sender) (h : s.Inv) :
    (UpdateLossListFromNackPackets s).Inv := by
  obtain ⟨hk, hl, hq⟩ := h
  unfold UpdateLossListFromNackPackets
  split_ifs with he
  · exact ⟨hk, hl, hq⟩
  · refine ⟨?_, ?_, hq⟩
    · show KeysAscending (nackPacketsLoop s.nack_packets s.loss_packets).2
      rw [nackPacketsLoop_snd]
      exact keys_sorted_filter _ _ hk
    · show LossIn (nackPacketsLoop s.nack_packets s.loss_packets).1
        (nackPacketsLoop s.nack_packets s.loss_packets).2
      intro y hy
      rw [nackPacketsLoop_snd, isUnackedKey_iff]
      rcases (mem_nackPacketsLoop_fst _ _ _).mp hy with hy | ⟨e, he, ha, hey⟩
      · obtain ⟨d, hd, hda⟩ := (isUnackedKey_iff _ _).mp (hl y hy)
        exact ⟨d, mapFind_filter y d _ _ hd (by simp [hda]), hda⟩
      · refine ⟨e.2, mapFind_filter y e.2 _ _ ?_ (by simp [ha]), ha⟩
        rw [← hey]
        exact mapFind_of_mem_sorted _ hk e he

theorem ackLoop_LossIn : ∀ (fuel c : Nat) (loss : List Nat) (nack : List (Nat × SendDatagram)),
    LossIn loss nack →
    LossIn (ackLoop fuel c loss nack).1 (ackLoop fuel c loss nack).2 ∧
    (ackLoop fuel c loss nack).2.map Prod.fst = nack.map Prod.fst := by
  intro fuel
  induction fuel with
  | zero => intro c loss nack h; exact ⟨h, rfl⟩
  | succ fuel ih =>
    intro c loss nack h
    cases hf : mapFind c nack with
    | none =>
      have hres : ackLoop (fuel + 1) c loss nack = (loss, nack) := by simp only [ackLoop, hf]
      rw [hres]
      exact ⟨h, rfl⟩
    | some d =>
      have hres : ackLoop (fuel + 1) c loss nack =
          ackLoop fuel (Dec c) (setErase c loss) (mapSetAcked c nack) := by
        simp only [ackLoop, hf]
      rw [hres]
      have h2 : LossIn (setErase c loss) (mapSetAcked c nack) := by
        intro x hx
        obtain ⟨hx1, hx2⟩ := (mem_setErase _ _ _).mp hx
        obtain ⟨d2, hd2, hda⟩ := (isUnackedKey_iff _ _).mp (h x hx1)
        rw [isUnackedKey_iff, mapFind_mapSetAcked, hd2]
        exact ⟨d2, by simp [hx2], hda⟩
      obtain ⟨i1, i2⟩ := ih (Dec c) _ _ h2
      exact ⟨i1, i2.trans (keys_mapSetAcked c nack)⟩

theorem AckPackets_Inv (s : Sender) (seq_number : Nat) (h : s.Inv) :
    (AckPackets s seq_number).Inv := by
  obtain ⟨hk, hl, hq⟩ := h
  obtain ⟨i1, i2⟩ := ackLoop_LossIn SEQ_MOD (Dec (GetPacketSequenceValue seq_number))
    s.loss_packets s.nack_packets hl
  refine ⟨?_, i1, hq⟩
  show ((ackLoop SEQ_MOD (Dec (GetPacketSequenceValue seq_number))
    s.loss_packets s.nack_packets).2.map Prod.fst).Pairwise _
  rw [i2]
  exact hk

theorem NextScheduledPacket_Inv (s : Sender) (e : Nat) (g : Int) (h : s.Inv) :
    (NextScheduledPacket s e g).2.Inv := by
  obtain ⟨hk, hl, hq⟩ := h
  rcases NextScheduledPacket_cases s e g with
    ⟨x, rest, d, _, _, _, hres⟩ | ⟨t, hres, htq, hts, htc, _, ht⟩
  · rw [hres]
    refine ⟨hk, ?_, hq⟩
    intro y hy
    exact hl y ((mem_setErase _ _ _).mp hy).1
  · have htInv : t.Inv := by
      rcases ht with ⟨_, rfl⟩ | ⟨x, rest, _, htl, htn, _⟩
      · exact ⟨hk, hl, hq⟩
      · rcases htn with htn | htn
        · refine ⟨by rw [htn]; exact hk, ?_, by rw [htq]; exact hq⟩
          intro y hy
          rw [htl] at hy
          rw [htn]
          exact hl y ((mem_setErase _ _ _).mp hy).1
        · refine ⟨by rw [htn]; exact keys_sorted_filter _ _ hk, ?_, by rw [htq]; exact hq⟩
          intro y hy
          rw [htl] at hy
          obtain ⟨hy1, hy2⟩ := (mem_setErase _ _ _).mp hy
          have := hl y hy1
          rw [isUnackedKey_iff] at this ⊢
          rw [htn, mapFind_mapErase_ne y x _ hy2]
          exact this
    obtain ⟨tk, tl, tq⟩ := htInv
    rw [hres]
    rcases freshPacket_cases t s.p_session.packet_seq_gen.current e g with
      h1 | h1 | ⟨front, rest, d, hfr, _, hd, _, hn, hpq, hlo, _, _⟩
    · rw [h1.2]; exact ⟨tk, tl, tq⟩
    · rw [h1.2.2.2]; exact ⟨tk, tl, tq⟩
    · have hda : d.acked = false := by
        rw [hd]
        exact tq front (by rw [hfr]; exact List.mem_cons_self _ _)
      refine ⟨?_, ?_, ?_⟩
      · rw [hn]; exact keys_sorted_mapAssign _ _ _ tk
      · rw [hn, hlo]
        intro y hy
        rw [isUnackedKey_iff]
        by_cases hyq : y = s.p_session.packet_seq_gen.current
        · rw [hyq, mapFind_mapAssign_self]
          exact ⟨d, rfl, hda⟩
        · rw [mapFind_mapAssign_ne y _ _ _ hyq]
          exact (isUnackedKey_iff _ _).mp (tl y hy)
      · rw [hpq]
        intro d2 hd2
        exact tq d2 (by rw [hfr]; exact List.mem_cons_of_mem _ hd2)



theorem ProcessWriteOpBuffers_frame (P : Protocol) (s : Sender) (bytes : List Nat) :
    (ProcessWriteOpBuffers P s bytes).2.loss_packets = s.loss_packets ∧
    (ProcessWriteOpBuffers P s bytes).2.nack_packets = s.nack_packets ∧
    (P.new_datagram.acked = false → (∀ d ∈ s.packets_to_send, d.acked = false) →
      ∀ d ∈ (ProcessWriteOpBuffers P s bytes).2.packets_to_send, d.acked = false) := by
  rw [ProcessWriteOpBuffers_closed_form]
  generalize s.p_session.packet_data_size - P.header_size = ps
  generalize s.max_send_size + 1 - s.packets_to_send.length = r
  have hhead := acceptedFragments_header P.new_datagram ps s.p_session.message_seq_gen.current
    s.p_session.remote_socket_id r 0 bytes
  have hall : P.new_datagram.acked = false → (∀ d ∈ s.packets_to_send, d.acked = false) →
      ∀ d ∈ s.packets_to_send ++ acceptedFragments P.new_datagram ps
        s.p_session.message_seq_gen.current s.p_session.remote_socket_id r 0 bytes,
        d.acked = false := by
    intro hP hq d hd
    rcases List.mem_append.mp hd with hd | hd
    · exact hq d hd
    · rw [(hhead d hd).2.2.1]; exact hP
  by_cases hfit : bytes.length ≤ r * ps
  · rw [if_pos hfit]
    exact ⟨rfl, rfl, hall⟩
  · rw [if_neg hfit]
    by_cases h0 : r = 0
    · rw [if_pos h0]
      exact ⟨rfl, rfl, fun _ hq => hq⟩
    · rw [if_neg h0]
      refine ⟨rfl, rfl, ?_⟩
      intro hP hq
      exact forall_mem_of_map_eq (fun d => d.acked) false _ _
        (setBackPosition_spec _ _).2.2.1 (hall hP hq)

theorem ProcessWriteOp_Inv (P : Protocol) (hP : P.new_datagram.acked = false) (s : Sender)
    (bytes : List Nat) (h : s.Inv) : (ProcessWriteOp P s false bytes).2.Inv := by
  obtain ⟨hk, hl, hq⟩ := h
  obtain ⟨f1, f2, f3⟩ := ProcessWriteOpBuffers_frame P s bytes
  have e1 : (ProcessWriteOp P s false bytes).2.loss_packets = s.loss_packets := f1
  have e2 : (ProcessWriteOp P s false bytes).2.nack_packets = s.nack_packets := f2
  have e3 : (ProcessWriteOp P s false bytes).2.packets_to_send =
      (ProcessWriteOpBuffers P s bytes).2.packets_to_send := rfl
  unfold Sender.Inv
  rw [e1, e2, e3]
  exact ⟨hk, hl, f3 hP hq⟩

/-- The invariant is kept by every operation other than
`UpdateLossListFromNackDgr`, hence by every sequence of such operations. -/
theorem runOps_Inv (P : Protocol) (hP : P.new_datagram.acked = false) :
    ∀ (ops : List SenderOp) (s : Sender), (∀ op ∈ ops, op.isLocal = true) → s.Inv →
      (runOps P ops s).Inv := by
  intro ops
  induction ops with
  | nil => intro s _ h; exact h
  | cons op ops ih =>
    intro s hops h
    have hop := hops op (List.mem_cons_self _ _)
    have hrest : ∀ o ∈ ops, o.isLocal = true := fun o ho => hops o (List.mem_cons_of_mem _ ho)
    have hstep : (op.apply P s).Inv := by
      cases op with
      | write b => exact ProcessWriteOp_Inv P hP s b h
      | nackPackets => exact UpdateLossListFromNackPackets_Inv s h
      | next e g => exact NextScheduledPacket_Inv s e g h
      | ack q => exact AckPackets_Inv s q h
      | nackDgr l => simp [SenderOp.isLocal] at hop
    exact ih (op.apply P s) hrest hstep

/-! ## Claim on the loss set invariant -/

/-- C4, as stated, fails: on a fresh sender `UpdateLossListFromNackDgr` with
the loss list `[5]` puts 5 into `loss_packets_` although `nack_packets_` is
empty. -/
theorem UpdateLossListFromNackDgr_breaks_invariant :
    (runOps exProtocol [SenderOp.nackDgr [5]] (exSender 4)).loss_packets = [5] ∧
    (runOps exProtocol [SenderOp.nackDgr [5]] (exSender 4)).nack_packets = [] ∧
    ¬ LossIn (runOps exProtocol [SenderOp.nackDgr [5]] (exSender 4)).loss_packets
      (runOps exProtocol [SenderOp.nackDgr [5]] (exSender 4)).nack_packets := by
  decide

/-- C4, amended: starting from an empty sender, after any sequence of writes
(`ProcessWriteOp`), `UpdateLossListFromNackPackets`, `NextScheduledPacket` and
`AckPackets`, every element of `loss_packets_` is a key of `nack_packets_`
whose datagram has `acked == false`, provided a newly constructed datagram is
not acknowledged. -/
theorem loss_set_within_unacked_keys (P : Protocol) (sess : Session) (cc : CongestionControl)
    (ops : List SenderOp) (hP : P.new_datagram.acked = false)
    (hops : ∀ op ∈ ops, op.isLocal = true) :
    ∀ x ∈ (runOps P ops (Sender.init sess cc)).loss_packets,
      ∃ d, mapFind x (runOps P ops (Sender.init sess cc)).nack_packets = some d ∧
        d.acked = false := by
  have hinit : (Sender.init sess cc).Inv := by
    refine ⟨?_, ?_, ?_⟩
    · exact List.Pairwise.nil
    · intro x hx; simp [Sender.init] at hx
    · intro d hd; simp [Sender.init] at hd
  intro x hx
  exact (isUnackedKey_iff _ _).mp ((runOps_Inv P hP ops _ hops hinit).2.1 x hx)

/-- Witness of C4 amended: after the run `exRun` the loss set is `[1]` and 1
is an unacknowledged key of the map. -/
theorem loss_set_within_unacked_keys_witness :
    exProtocol.new_datagram.acked = false ∧
    (runOps exProtocol exRun (exSender 4)).loss_packets = [1] ∧
    ∀ x ∈ (runOps exProtocol exRun (exSender 4)).loss_packets,
      ∃ d, mapFind x (runOps exProtocol exRun (exSender 4)).nack_packets = some d ∧
        d.acked = false :=
  ⟨rfl, by decide,
    loss_set_within_unacked_keys exProtocol (exSession 4) (exCC 4) exRun rfl (by decide)⟩

/-! ## The range loop of `UpdateLossListFromNackDgr` -/

theorem Inc_add_mod (j i : Nat) : Inc ((j + i) % SEQ_MOD) = (j + (i + 1)) % SEQ_MOD := by
  unfold Inc SEQ_MOD
  omega

/-- The range loop in closed form.  With `d` the forward distance from `j` to
`second_range` in the 31 bit space, the loop stops by itself after `d`
iterations, whatever fuel at least `d` it is given, and inserts the `d`
sequence numbers `j, Inc j, ...` that come before `second_range`. -/
theorem rangeLoop_spec (second_range : Nat) (hl : second_range < SEQ_MOD) :
    ∀ (d fuel j : Nat) (loss : List Nat), j < SEQ_MOD →
      (second_range + SEQ_MOD - j) % SEQ_MOD = d → d ≤ fuel →
      rangeLoop fuel j second_range loss = rangeLoop d j second_range loss ∧
      ∀ y, y ∈ rangeLoop fuel j second_range loss ↔
        y ∈ loss ∨ ∃ i, i < d ∧ y = (j + i) % SEQ_MOD := by
  intro d
  induction d with
  | zero =>
    intro fuel j loss hj hd _
    have hjl : j = second_range := by
      unfold SEQ_MOD at *
      omega
    have h1 : rangeLoop fuel j second_range loss = loss := by
      cases fuel with
      | zero => rfl
      | succ f => simp [rangeLoop, hjl]
    rw [h1]
    exact ⟨rfl, fun y => by simp⟩
  | succ d ih =>
    intro fuel j loss hj hd hfuel
    obtain ⟨f, rfl⟩ : ∃ f, fuel = f + 1 := ⟨fuel - 1, by omega⟩
    have hjl : j ≠ second_range := by
      intro h
      unfold SEQ_MOD at *
      omega
    have hInc : Inc j < SEQ_MOD := by
      unfold Inc SEQ_MOD
      omega
    have hd2 : (second_range + SEQ_MOD - Inc j) % SEQ_MOD = d := by
      unfold Inc SEQ_MOD at *
      omega
    obtain ⟨e1, e2⟩ := ih f (Inc j) (setInsert j loss) hInc hd2 (by omega)
    have hstep : ∀ n, rangeLoop (n + 1) j second_range loss =
        rangeLoop n (Inc j) second_range (setInsert j loss) := by
      intro n
      simp [rangeLoop, hjl]
    rw [hstep f, hstep d]
    refine ⟨e1, ?_⟩
    intro y
    rw [e2 y, mem_setInsert]
    have hInc2 : ∀ i, (Inc j + i) % SEQ_MOD = (j + (i + 1)) % SEQ_MOD := by
      intro i
      unfold Inc SEQ_MOD
      omega
    constructor
    · rintro ((h | h) | ⟨i, hi, h⟩)
      · refine Or.inr ⟨0, by omega, ?_⟩
        rw [h, Nat.add_zero, Nat.mod_eq_of_lt hj]
      · exact Or.inl h
      · exact Or.inr ⟨i + 1, by omega, by rw [h, hInc2]⟩
    · rintro (h | ⟨i, hi, h⟩)
      · exact Or.inl (Or.inr h)
      · cases i with
        | zero =>
          left; left
          rw [h, Nat.add_zero, Nat.mod_eq_of_lt hj]
        | succ i => exact Or.inr ⟨i, by omega, by rw [h, hInc2]⟩

/-- The range end is never inserted by the range loop: it is in the loss set
afterwards only if it was there before. -/
theorem rangeLoop_excludes_end (first_range second_range : Nat) (loss : List Nat)
    (hf : first_range < SEQ_MOD) (hl : second_range < SEQ_MOD)
    (h : second_range ∉ loss) :
    second_range ∉ rangeLoop SEQ_MOD first_range second_range loss := by
  have hd : (second_range + SEQ_MOD - first_range) % SEQ_MOD ≤ SEQ_MOD :=
    le_of_lt (Nat.mod_lt _ (by unfold SEQ_MOD; omega))
  obtain ⟨_, e2⟩ := rangeLoop_spec second_range hl _ SEQ_MOD first_range loss hf rfl hd
  intro hmem
  rcases (e2 second_range).mp hmem with h1 | ⟨i, hi, h1⟩
  · exact h h1
  · unfold SEQ_MOD at *
    omega

/-! ## Claims on the window gate and on fresh packets -/

/-- C11: with an empty loss set, a map holding at least
`min (cc window, session window)` entries and a current sequence number that is
not 1 modulo 16, `NextScheduledPacket` returns null and changes nothing (queue,
map, generator and every other field).  When the current sequence number is 1
modulo 16 and `packets_to_send_` is not empty a datagram is returned whatever
the window; with an empty loss set it is taken from the queue. -/
theorem NextScheduledPacket_window_gate (s : Sender) (e : Nat) (g : Int) :
    (s.loss_packets = [] →
      min s.p_congestion_control.window_flow_size s.p_session.window_flow_size
        ≤ s.nack_packets.length →
      s.p_session.packet_seq_gen.current % 16 ≠ 1 →
      NextScheduledPacket s e g = (none, s)) ∧
    (s.p_session.packet_seq_gen.current % 16 = 1 → s.packets_to_send ≠ [] →
      (NextScheduledPacket s e g).1 ≠ none ∧
      (s.loss_packets = [] →
        (NextScheduledPacket s e g).2.packets_to_send = s.packets_to_send.tail)) := by
  refine ⟨?_, ?_⟩
  · intro hl hw hq
    have h : NextScheduledPacket s e g =
        freshPacket s s.p_session.packet_seq_gen.current e g := by
      simp [NextScheduledPacket, hl]
    rw [h]
    rcases freshPacket_cases s s.p_session.packet_seq_gen.current e g with
      h1 | h1 | ⟨_, _, _, _, hopen, _⟩
    · exact h1.2
    · exact h1.2.2.2
    · rcases hopen with h2 | h2
      · exact absurd h2 hq
      · omega
  · intro hq hne
    refine ⟨?_, ?_⟩
    · rcases NextScheduledPacket_cases s e g with
        ⟨_, _, d, _, _, _, h⟩ | ⟨t, h, htq, hts, _, _, _⟩
      · rw [h]; simp
      · rw [h]
        rcases freshPacket_cases t s.p_session.packet_seq_gen.current e g with
          h1 | h1 | ⟨_, _, d, _, _, _, h1, _⟩
        · rw [htq] at h1; exact absurd h1.1 hne
        · exact absurd hq h1.2.1
        · rw [h1]; simp
    · intro hl
      have h : NextScheduledPacket s e g =
          freshPacket s s.p_session.packet_seq_gen.current e g := by
        simp [NextScheduledPacket, hl]
      rw [h]
      rcases freshPacket_cases s s.p_session.packet_seq_gen.current e g with
        h1 | h1 | ⟨front, rest, _, hfr, _, _, _, _, hpq, _⟩
      · exact absurd h1.1 hne
      · exact absurd hq h1.2.1
      · rw [hpq, hfr]; rfl

/-- Witness of C11: the gate closes at sequence number 2 and is passed at 17. -/
theorem NextScheduledPacket_window_gate_witness :
    NextScheduledPacket (exGate 2) 0 0 = (none, exGate 2) ∧
    (NextScheduledPacket (exGate 17) 0 0).1 ≠ none ∧
    (NextScheduledPacket (exGate 17) 0 0).2.nack_packets.length = 2 :=
  ⟨(NextScheduledPacket_window_gate (exGate 2) 0 0).1 rfl (by decide) (by decide),
    ((NextScheduledPacket_window_gate (exGate 17) 0 0).2 (by decide) (by decide)).1,
    by decide⟩

/-- C12: with an empty loss set, a queue `front :: rest` and an open window
(fewer entries in the map than the minimum of the two windows, or a current
sequence number that is 1 modulo 16), `NextScheduledPacket` returns `front`
stamped with the time stamp and with the generator's value before the call;
afterwards the generator is advanced by one, the queue is `rest`, the
congestion control holds that sequence number as last sent one, and the map
binds that sequence number to the returned datagram. -/
theorem NextScheduledPacket_fresh (s : Sender) (e : Nat) (g : Int)
    (front : SendDatagram) (rest : List SendDatagram)
    (hl : s.loss_packets = []) (hq : s.packets_to_send = front :: rest)
    (hw : s.nack_packets.length <
        min s.p_congestion_control.window_flow_size s.p_session.window_flow_size ∨
      s.p_session.packet_seq_gen.current % 16 = 1) :
    ∃ d : SendDatagram,
      (NextScheduledPacket s e g).1 = some d ∧
      d.header.packet_sequence_number = s.p_session.packet_seq_gen.current ∧
      d.header.timestamp = e % 4294967296 ∧
      d.payload = front.payload ∧ d.acked = front.acked ∧
      d.pending_send = front.pending_send ∧
      d.header.message_number = front.header.message_number ∧
      d.header.message_position = front.header.message_position ∧
      d.header.destination_socket = front.header.destination_socket ∧
      (NextScheduledPacket s e g).2.p_session.packet_seq_gen =
        s.p_session.packet_seq_gen.Next.2 ∧
      (NextScheduledPacket s e g).2.p_session.packet_seq_gen.current =
        Inc s.p_session.packet_seq_gen.current ∧
      (NextScheduledPacket s e g).2.packets_to_send = rest ∧
      (NextScheduledPacket s e g).2.p_congestion_control.last_send_seq_num =
        s.p_session.packet_seq_gen.current ∧
      (NextScheduledPacket s e g).2.nack_packets =
        mapAssign s.p_session.packet_seq_gen.current d s.nack_packets ∧
      mapFind s.p_session.packet_seq_gen.current (NextScheduledPacket s e g).2.nack_packets =
        some d := by
  have h : NextScheduledPacket s e g =
      freshPacket s s.p_session.packet_seq_gen.current e g := by
    simp [NextScheduledPacket, hl]
  rw [h]
  rcases freshPacket_cases s s.p_session.packet_seq_gen.current e g with
    h1 | h1 | ⟨front2, rest2, d, hfr, _, hd, hret, hn, hpq, _, hsess, hcc⟩
  · rw [hq] at h1; exact absurd h1.1 (by simp)
  · rcases hw with hw | hw
    · omega
    · exact absurd hw h1.2.1
  · rw [hq] at hfr
    obtain ⟨hf1, hf2⟩ := List.cons.inj hfr
    subst hf1 hf2
    refine ⟨d, hret, ?_, ?_, ?_, ?_, ?_, ?_, ?_, ?_, ?_, ?_, hpq, ?_, hn, ?_⟩
    · rw [hd]
    · rw [hd]
    · rw [hd]
    · rw [hd]
    · rw [hd]
    · rw [hd]
    · rw [hd]
    · rw [hd]
    · rw [hsess]; rfl
    · rw [hsess]
    · rw [hcc]
    · rw [hn]; exact mapFind_mapAssign_self _ _ _

/-- Witness of C12: the first datagram of a write on a fresh sender. -/
theorem NextScheduledPacket_fresh_witness :
    (ProcessWriteOpBuffers exProtocol (exSender 4) [1, 2, 3]).2.loss_packets = [] ∧
    ∃ d : SendDatagram,
      (NextScheduledPacket (ProcessWriteOpBuffers exProtocol (exSender 4) [1, 2, 3]).2
        5 0).1 = some d ∧
      d.header.packet_sequence_number = 0 ∧ d.header.timestamp = 5 ∧ d.payload = [1, 2, 3] :=
  ⟨rfl,
    let ⟨d, h1, h2, h3, h4, _⟩ := NextScheduledPacket_fresh
      (ProcessWriteOpBuffers exProtocol (exSender 4) [1, 2, 3]).2 5 0
      (mkFragment exDatagram 0 7 [1, 2, 3] MessagePosition.MIDDLE) [] rfl (by decide)
      (Or.inl (by decide))
    ⟨d, h1, h2, h3, h4⟩⟩

/-! ## Claim on the pacing rule -/

/-- The value of `next_sending_packet_time_` after the second half of
`NextScheduledPacket` has sent a datagram. -/
theorem freshPacket_time (s : Sender) (q e : Nat) (g : Int) (d : SendDatagram)
    (h : (freshPacket s q e g).1 = some d) :
    d.header.packet_sequence_number = q ∧
    (freshPacket s q e g).2.next_sending_packet_time =
      (if q % 16 = 0 ∨ s.loss_packets ≠ [] then 0
        else max 0 (s.p_congestion_control.sending_period - g)) := by
  cases hs : s.packets_to_send with
  | nil => simp [freshPacket, hs] at h
  | cons front rest =>
    by_cases hg : (q % 16 != 1 && decide (s.nack_packets.length ≥
        min s.p_congestion_control.window_flow_size s.p_session.window_flow_size)) = true
    · simp only [freshPacket, hs, hg, if_true] at h
      exact absurd h (by simp)
    · simp only [freshPacket, hs, hg, mapFind_mapAssign_self] at h ⊢
      have hd := Option.some.inj h
      refine ⟨by rw [← hd], ?_⟩
      simp only [UpdateNextSendingPacketTime]
      by_cases h0 : q % 16 = 0
      · simp [h0]
      · by_cases hl : s.loss_packets = []
        · by_cases hp : s.p_congestion_control.sending_period - g > 0
          · simp [h0, hl, hp]
            omega
          · simp [h0, hl, hp]
            omega
        · simp [h0, hl]

/-- C13: whenever `NextScheduledPacket` returns a datagram `d`, with `g` the
time measured inside the call, `next_sending_packet_time_` is 0 if the packet
sequence number of `d` is 0 modulo 16 or the loss set is still not empty, and
`max (0, sending_period - g)` otherwise; it is never negative. -/
theorem NextScheduledPacket_pacing (s : Sender) (e : Nat) (g : Int) (d : SendDatagram)
    (h : (NextScheduledPacket s e g).1 = some d) :
    (NextScheduledPacket s e g).2.next_sending_packet_time =
      (if d.header.packet_sequence_number % 16 = 0 ∨
          (NextScheduledPacket s e g).2.loss_packets ≠ [] then 0
        else max 0 (s.p_congestion_control.sending_period - g)) ∧
    0 ≤ (NextScheduledPacket s e g).2.next_sending_packet_time := by
  have hmain : (NextScheduledPacket s e g).2.next_sending_packet_time =
      (if d.header.packet_sequence_number % 16 = 0 ∨
          (NextScheduledPacket s e g).2.loss_packets ≠ [] then 0
        else max 0 (s.p_congestion_control.sending_period - g)) := by
    rcases NextScheduledPacket_cases s e g with
      ⟨x, rest, d2, _, _, _, hres⟩ | ⟨t, hres, _, _, htc, _, _⟩
    · rw [hres] at h ⊢
      have hd : d2 = d := Option.some.inj h
      subst hd
      simp only [UpdateNextSendingPacketTime]
      by_cases h0 : d2.header.packet_sequence_number % 16 = 0
      · simp [h0]
      · by_cases hl : setErase x s.loss_packets = []
        · by_cases hp : s.p_congestion_control.sending_period - g > 0
          · simp [h0, hl, hp]
            omega
          · simp [h0, hl, hp]
            omega
        · simp [h0, hl]
    · rw [hres] at h ⊢
      obtain ⟨h1, h2⟩ := freshPacket_time t _ e g d h
      rw [h2, h1, freshPacket_loss, htc]
  refine ⟨hmain, ?_⟩
  rw [hmain]
  split_ifs
  · exact le_refl 0
  · exact le_max_left 0 _

/-- Witness of C13: a retransmission while another loss is pending, and the
first datagram of a write with 400 ns spent in the call. -/
theorem NextScheduledPacket_pacing_witness :
    (NextScheduledPacket exLossy 0 400).2.next_sending_packet_time = 0 ∧
    (NextScheduledPacket (exGate 17) 0 400).2.next_sending_packet_time = 600 ∧
    0 ≤ (NextScheduledPacket (exGate 17) 0 400).2.next_sending_packet_time :=
  ⟨by decide, by decide,
    (NextScheduledPacket_pacing (exGate 17) 0 400
      ({ exDatagram with
          payload := [9]
          header := { exDatagram.header with packet_sequence_number := 17 } })
      (by decide)).2⟩

/-! ## Claim on `UpdateLossListFromNackPackets` -/

/-- C14: on a sender whose map is not empty, `UpdateLossListFromNackPackets`
(i) puts the key of every unacknowledged entry into the loss set, (ii) removes
the entries that are acknowledged and not pending, (iii) keeps every other
entry as it is, in order, and (iv) leaves in the loss set its previous elements
and the unacknowledged keys and nothing else; the flow is asked once to
schedule the session. -/
theorem UpdateLossListFromNackPackets_spec (s : Sender) (hne : s.nack_packets ≠ []) :
    (∀ e ∈ s.nack_packets, e.2.acked = false →
      e.1 ∈ (UpdateLossListFromNackPackets s).loss_packets) ∧
    (∀ e ∈ s.nack_packets, e.2.acked = true → e.2.pending_send = false →
      e ∉ (UpdateLossListFromNackPackets s).nack_packets) ∧
    (∀ e ∈ s.nack_packets, (e.2.acked = false ∨ e.2.pending_send = true) →
      e ∈ (UpdateLossListFromNackPackets s).nack_packets) ∧
    (UpdateLossListFromNackPackets s).nack_packets =
      s.nack_packets.filter (fun e => !e.2.acked || e.2.pending_send) ∧
    (∀ y, y ∈ (UpdateLossListFromNackPackets s).loss_packets ↔
      y ∈ s.loss_packets ∨ ∃ e ∈ s.nack_packets, e.2.acked = false ∧ e.1 = y) ∧
    (UpdateLossListFromNackPackets s).p_session.flow_registrations =
      s.p_session.flow_registrations + 1 := by
  have hemp : s.nack_packets.isEmpty = false := by
    cases hs : s.nack_packets with
    | nil => exact absurd hs hne
    | cons a l => rfl
  have hn : (UpdateLossListFromNackPackets s).nack_packets =
      (nackPacketsLoop s.nack_packets s.loss_packets).2 := by
    simp [UpdateLossListFromNackPackets, hemp, Sender.RegisterNewSocket]
  have hl : (UpdateLossListFromNackPackets s).loss_packets =
      (nackPacketsLoop s.nack_packets s.loss_packets).1 := by
    simp [UpdateLossListFromNackPackets, hemp, Sender.RegisterNewSocket]
  have hr : (UpdateLossListFromNackPackets s).p_session.flow_registrations =
      s.p_session.flow_registrations + 1 := by
    simp [UpdateLossListFromNackPackets, hemp, Sender.RegisterNewSocket]
  rw [hn, hl, nackPacketsLoop_snd]
  refine ⟨?_, ?_, ?_, rfl, ?_, hr⟩
  · intro e he ha
    exact (mem_nackPacketsLoop_fst _ _ _).mpr (Or.inr ⟨e, he, ha, rfl⟩)
  · intro e _ ha hp hmem
    have := (List.mem_filter.mp hmem).2
    simp [ha, hp] at this
  · intro e he hcond
    refine List.mem_filter.mpr ⟨he, ?_⟩
    rcases hcond with hc | hc <;> simp [hc]
  · intro y
    exact mem_nackPacketsLoop_fst _ _ _

/-- Witness of C14: the keys 1 (acknowledged), 2 (acknowledged, pending) and 3
(not acknowledged) in flight, 7 in the loss set. -/
theorem UpdateLossListFromNackPackets_spec_witness :
    exSweep.nack_packets ≠ [] ∧
    (UpdateLossListFromNackPackets exSweep).loss_packets = [3, 7] ∧
    ((UpdateLossListFromNackPackets exSweep).nack_packets.map fun e => e.1) = [2, 3] ∧
    (UpdateLossListFromNackPackets exSweep).nack_packets =
      exSweep.nack_packets.filter (fun e => !e.2.acked || e.2.pending_send) :=
  ⟨by decide, by decide, by decide,
    (UpdateLossListFromNackPackets_spec exSweep (by decide)).2.2.2.1⟩

/-! ## Claim on the defaults of `BaseState` -/

/-- C15: the defaults of `BaseState`, for a state object `st` of any state
class that does not override them.  `PushReadOp` and `PushWriteOp` complete
the operation with `not_connected` and 0 bytes, `HasPacketToSend` is false,
`NextScheduledPacket` is null, `NextScheduledPacketTime` is 0, and connection,
control and data datagrams leave the state as it is. -/
theorem BaseState_defaults {σ δ : Type} (st : σ) (dgr : δ) :
    BaseState.PushReadOp st =
      (st, { ec := ErrorCode.not_connected, bytes_transferred := 0 }) ∧
    BaseState.PushWriteOp st =
      (st, { ec := ErrorCode.not_connected, bytes_transferred := 0 }) ∧
    BaseState.HasPacketToSend st = false ∧
    BaseState.NextScheduledPacket st = (none, st) ∧
    BaseState.NextScheduledPacketTime st = 0 ∧
    BaseState.OnConnectionDgr st dgr = st ∧
    BaseState.OnControlDgr st dgr = st ∧
    BaseState.OnDataDgr st dgr = st :=
  ⟨rfl, rfl, rfl, rfl, rfl, rfl, rfl, rfl⟩

/-! ## Lemmas on the ACK timer handler -/

theorem LaunchAckTimer_frame (st : ConnectedState) :
    st.LaunchAckTimer.stop_timers = st.stop_timers ∧
    st.LaunchAckTimer.receiver = st.receiver ∧
    st.LaunchAckTimer.sender = st.sender ∧
    st.LaunchAckTimer.connection_info = st.connection_info ∧
    st.LaunchAckTimer.ack_seq_gen = st.ack_seq_gen ∧
    st.LaunchAckTimer.sent = st.sent ∧
    st.LaunchAckTimer.start_timestamp = st.start_timestamp ∧
    st.LaunchAckTimer.packet_received_since_light_ack = st.packet_received_since_light_ack ∧
    st.LaunchAckTimer.exp_timer = st.exp_timer ∧
    st.LaunchAckTimer.session_state = st.session_state := by
  unfold ConnectedState.LaunchAckTimer
  split_ifs <;> exact ⟨rfl, rfl, rfl, rfl, rfl, rfl, rfl, rfl, rfl, rfl⟩

theorem ackSuppressed_timer_iff (st : ConnectedState) (a : Nat) (now : Int) :
    st.ackSuppressed false a now = true ↔
      (a = st.receiver.largest_ack_number_acknowledged ∨
        (a = st.receiver.last_ack_number ∧
          now - st.receiver.last_ack_timestamp < 2 * st.connection_info.rtt)) := by
  simp [ConnectedState.ackSuppressed]

theorem ackSuppressed_congr (st st2 : ConnectedState) (l : Bool) (a : Nat) (now : Int)
    (hr : st2.receiver = st.receiver) (hc : st2.connection_info = st.connection_info) :
    st2.ackSuppressed l a now = st.ackSuppressed l a now := by
  simp [ConnectedState.ackSuppressed, hr, hc]

/-- The ACK timer handler run on a timer fire with the timers running: the ACK
timer is launched again, and the ACK is sent unless it is suppressed. -/
theorem AckTimerHandler_timer (E : Env) (st : ConnectedState) (now : Int)
    (hs : st.stop_timers = false) :
    st.AckTimerHandler E false now =
      if st.ackSuppressed false
          (E.AckNumber st.receiver st.sender.p_session.packet_seq_gen) now then
        st.LaunchAckTimer
      else st.LaunchAckTimer.emitAck E false
        (E.AckNumber st.receiver st.sender.p_session.packet_seq_gen) now := by
  obtain ⟨_, f2, f3, f4, _⟩ := LaunchAckTimer_frame st
  simp only [ConnectedState.AckTimerHandler, hs, Bool.false_eq_true, if_false, Bool.not_false,
    if_true, f2, f3]
  rw [ackSuppressed_congr st st.LaunchAckTimer _ _ _ f2 f4]

theorem emitAck_frame (E : Env) (st : ConnectedState) (l : Bool) (a : Nat) (now : Int) :
    (st.emitAck E l a now).stop_timers = st.stop_timers ∧
    (st.emitAck E l a now).sender = st.sender ∧
    (st.emitAck E l a now).connection_info = st.connection_info ∧
    (st.emitAck E l a now).ack_timer = st.ack_timer ∧
    (st.emitAck E l a now).exp_timer = st.exp_timer ∧
    (st.emitAck E l a now).session_state = st.session_state ∧
    (st.emitAck E l a now).start_timestamp = st.start_timestamp ∧
    (st.emitAck E l a now).cc_events = st.cc_events ∧
    (st.emitAck E l a now).ack_seq_gen = st.ack_seq_gen.Next.2 ∧
    (st.emitAck E l a now).receiver =
      { E.StoreAck st.receiver st.ack_seq_gen.current a l now with last_ack_number := a } :=
  ⟨rfl, rfl, rfl, rfl, rfl, rfl, rfl, rfl, rfl, rfl⟩

/-! ## Claims on the ACK timer -/

/-- C17: on an ACK timer fire with the timers running, `a` being the ack
number of the receiver, no ACK is sent if and only if `a` is the largest ack
number acknowledged, or `a` is the last ack number and less than twice the
round trip time has passed since the last ACK; then neither the ack sequence
generator nor the receiver changes.  In every other case exactly one full ACK
is sent, carrying `a`, the round trip time and its variance, the available
buffer size, the arrival speed and the link capacity, with the current value
of the ack sequence generator as additional info; the generator is advanced
and `StoreAck` is called on the receiver with that value and `a`.  The ACK
timer is launched again in both cases. -/
theorem AckTimerHandler_decision (E : Env) (st : ConnectedState) (now : Int) (a : Nat)
    (hs : st.stop_timers = false)
    (ha : a = E.AckNumber st.receiver st.sender.p_session.packet_seq_gen) :
    ((st.AckTimerHandler E false now).sent = st.sent ↔
      (a = st.receiver.largest_ack_number_acknowledged ∨
        (a = st.receiver.last_ack_number ∧
          now - st.receiver.last_ack_timestamp < 2 * st.connection_info.rtt))) ∧
    ((a = st.receiver.largest_ack_number_acknowledged ∨
        (a = st.receiver.last_ack_number ∧
          now - st.receiver.last_ack_timestamp < 2 * st.connection_info.rtt)) →
      (st.AckTimerHandler E false now).ack_seq_gen = st.ack_seq_gen ∧
      (st.AckTimerHandler E false now).receiver = st.receiver) ∧
    (¬ (a = st.receiver.largest_ack_number_acknowledged ∨
        (a = st.receiver.last_ack_number ∧
          now - st.receiver.last_ack_timestamp < 2 * st.connection_info.rtt)) →
      (st.AckTimerHandler E false now).sent = st.sent ++
        [{ type := ControlType.ACK
           additional_info := st.ack_seq_gen.current
           ack := some
            (toUInt32 ((E.StoreAck st.receiver st.ack_seq_gen.current a false
                now).last_ack_timestamp - st.start_timestamp),
              AckPayload.full a (toUInt32 st.connection_info.rtt)
                (toUInt32 st.connection_info.rtt_var)
                (if E.AvailableReceiveBufferSize st.receiver < 2 then 2
                  else E.AvailableReceiveBufferSize st.receiver)
                (E.GetPacketArrivalSpeed st.receiver)
                (E.GetEstimatedLinkCapacity st.receiver)) }] ∧
      (st.AckTimerHandler E false now).ack_seq_gen.current = Inc st.ack_seq_gen.current ∧
      (st.AckTimerHandler E false now).receiver =
        { E.StoreAck st.receiver st.ack_seq_gen.current a false now with
          last_ack_number := a }) ∧
    (st.AckTimerHandler E false now).ack_timer =
      st.ack_timer.launch st.connection_info.ack_period := by
  obtain ⟨_, f2, f3, f4, f5, f6, f7, f8, _⟩ := LaunchAckTimer_frame st
  have hl : st.LaunchAckTimer.ack_timer = st.ack_timer.launch st.connection_info.ack_period := by
    simp [ConnectedState.LaunchAckTimer, hs]
  rw [AckTimerHandler_timer E st now hs, ← ha]
  by_cases hc : st.ackSuppressed false a now = true
  · have hcond := (ackSuppressed_timer_iff st a now).mp hc
    rw [if_pos hc]
    exact ⟨⟨fun _ => hcond, fun _ => f6⟩, fun _ => ⟨f5, f2⟩, fun h => absurd hcond h, hl⟩
  · have hcond : ¬ (a = st.receiver.largest_ack_number_acknowledged ∨
        (a = st.receiver.last_ack_number ∧
          now - st.receiver.last_ack_timestamp < 2 * st.connection_info.rtt)) :=
      fun h => hc ((ackSuppressed_timer_iff st a now).mpr h)
    rw [if_neg hc]
    have hsent : (st.LaunchAckTimer.emitAck E false a now).sent = st.sent ++
        [{ type := ControlType.ACK
           additional_info := st.ack_seq_gen.current
           ack := some
            (toUInt32 ((E.StoreAck st.receiver st.ack_seq_gen.current a false
                now).last_ack_timestamp - st.start_timestamp),
              AckPayload.full a (toUInt32 st.connection_info.rtt)
                (toUInt32 st.connection_info.rtt_var)
                (if E.AvailableReceiveBufferSize st.receiver < 2 then 2
                  else E.AvailableReceiveBufferSize st.receiver)
                (E.GetPacketArrivalSpeed st.receiver)
                (E.GetEstimatedLinkCapacity st.receiver)) }] := by
      simp [ConnectedState.emitAck, ConnectedState.ackPayload, f2, f4, f5, f6, f7]
    refine ⟨⟨?_, fun h => absurd h hcond⟩, fun h => absurd h hcond, fun _ => ⟨hsent, ?_, ?_⟩, ?_⟩
    · intro h
      rw [hsent] at h
      have := congrArg List.length h
      simp at this
    · rw [(emitAck_frame E _ false a now).2.2.2.2.2.2.2.2.1, f5]; rfl
    · rw [(emitAck_frame E _ false a now).2.2.2.2.2.2.2.2.2, f2, f5]
    · rw [(emitAck_frame E _ false a now).2.2.2.1]; exact hl

/-- Witness of C17: the receiver has everything up to 41, nothing was
acknowledged yet; the fire sends a full ACK for 42 with ack sequence number 5
and `StoreAck` of the example receiver records it. -/
theorem AckTimerHandler_decision_witness :
    (exConnected (exSender 4) 100).stop_timers = false ∧
    ((exConnected (exSender 4) 100).AckTimerHandler exEnv false 1000000).sent =
      [{ type := ControlType.ACK, additional_info := 5,
         ack := some (1000000, AckPayload.full 42 100 0 100 0 0) }] ∧
    ((exConnected (exSender 4) 100).AckTimerHandler exEnv false
      1000000).ack_seq_gen.current = 6 ∧
    ((exConnected (exSender 4) 100).AckTimerHandler exEnv false
      1000000).receiver.ack_history = [{ ack_seq := 5, packet_seq := 42, timestamp := 1000000 }] :=
  ⟨rfl,
    ((AckTimerHandler_decision exEnv (exConnected (exSender 4) 100) 1000000 42 rfl
      (by decide)).2.2.1 (by decide)).1,
    by decide, by decide⟩

theorem AckTimerHandler_timer_frame (E : Env) (st : ConnectedState) (now : Int) :
    (st.AckTimerHandler E false now).stop_timers = st.stop_timers ∧
    (st.AckTimerHandler E false now).sender = st.sender ∧
    (st.AckTimerHandler E false now).connection_info = st.connection_info ∧
    (st.AckTimerHandler E false now).sent.length ≤ st.sent.length + 1 := by
  obtain ⟨f1, _, f3, f4, _, f6, _⟩ := LaunchAckTimer_frame st
  by_cases hs : st.stop_timers = false
  · rw [AckTimerHandler_timer E st now hs]
    split_ifs
    · exact ⟨f1, f3, f4, by rw [f6]; omega⟩
    · obtain ⟨e1, e2, e3, _⟩ := emitAck_frame E st.LaunchAckTimer false
        (E.AckNumber st.receiver st.sender.p_session.packet_seq_gen) now
      refine ⟨e1.trans f1, e2.trans f3, e3.trans f4, ?_⟩
      simp [ConnectedState.emitAck, f6]
  · have hs2 : st.stop_timers = true := by simpa using hs
    simp [ConnectedState.AckTimerHandler, hs2]

/-- C18, as stated, fails: with a round trip time of 100 microseconds two ACK
timer fires 10 ms apart, with no datagram between them and the same ack
number 42, both send an ACK. -/
theorem AckTimerHandler_repeats_ack :
    exEnv.AckNumber ((exConnected (exSender 4) 100).AckTimerHandler exEnv false
        1000000).receiver (exSender 4).p_session.packet_seq_gen =
      exEnv.AckNumber (exConnected (exSender 4) 100).receiver
        (exSender 4).p_session.packet_seq_gen ∧
    (((exConnected (exSender 4) 100).AckTimerHandler exEnv false 1000000).sent.map
        fun p => p.additional_info) = [5] ∧
    ((((exConnected (exSender 4) 100).AckTimerHandler exEnv false 1000000).AckTimerHandler
        exEnv false 1010000).sent.map fun p => (p.type, p.additional_info)) =
      [(ControlType.ACK, 5), (ControlType.ACK, 6)] := by
  decide

/-- C18, amended: of two consecutive ACK timer fires with the timers running
and the same ack number of the receiver at both, at most one sends an ACK,
provided the second fire comes less than twice the round trip time after the
time stamp of the last ACK.  (When the first fire has sent an ACK the second
sends none.) -/
theorem AckTimerHandler_at_most_one (E : Env) (st : ConnectedState) (now1 now2 : Int)
    (hs : st.stop_timers = false)
    (hsame : E.AckNumber (st.AckTimerHandler E false now1).receiver
        st.sender.p_session.packet_seq_gen =
      E.AckNumber st.receiver st.sender.p_session.packet_seq_gen)
    (htime : now2 - (st.AckTimerHandler E false now1).receiver.last_ack_timestamp <
      2 * st.connection_info.rtt) :
    ((st.AckTimerHandler E false now1).AckTimerHandler E false now2).sent.length ≤
      st.sent.length + 1 ∧
    ((st.AckTimerHandler E false now1).sent ≠ st.sent →
      ((st.AckTimerHandler E false now1).AckTimerHandler E false now2).sent =
        (st.AckTimerHandler E false now1).sent) := by
  obtain ⟨g1, g2, g3, g4⟩ := AckTimerHandler_timer_frame E st now1
  obtain ⟨k1, k2, k3, k4⟩ := AckTimerHandler_timer_frame E (st.AckTimerHandler E false now1) now2
  have hsecond : (st.AckTimerHandler E false now1).sent ≠ st.sent →
      ((st.AckTimerHandler E false now1).AckTimerHandler E false now2).sent =
        (st.AckTimerHandler E false now1).sent := by
    intro hemit
    have hlast : (st.AckTimerHandler E false now1).receiver.last_ack_number =
        E.AckNumber st.receiver st.sender.p_session.packet_seq_gen := by
      rw [AckTimerHandler_timer E st now1 hs] at hemit ⊢
      split_ifs at hemit ⊢ with hc
      · exact absurd (LaunchAckTimer_frame st).2.2.2.2.2.1 hemit
      · rw [(emitAck_frame E _ _ _ _).2.2.2.2.2.2.2.2.2]
    have hsup : (st.AckTimerHandler E false now1).ackSuppressed false
        (E.AckNumber (st.AckTimerHandler E false now1).receiver
          (st.AckTimerHandler E false now1).sender.p_session.packet_seq_gen) now2 = true := by
      rw [ackSuppressed_timer_iff, g2, g3, hsame, hlast]
      exact Or.inr ⟨rfl, htime⟩
    rw [AckTimerHandler_timer E _ now2 (g1.trans hs), if_pos hsup]
    exact (LaunchAckTimer_frame _).2.2.2.2.2.1
  refine ⟨?_, hsecond⟩
  by_cases hemit : (st.AckTimerHandler E false now1).sent = st.sent
  · rw [← hemit]; exact k4
  · rw [hsecond hemit]; exact g4

/-- Witness of C18 amended: a round trip time of 100 ms, two fires 10 ms apart,
one ACK. -/
theorem AckTimerHandler_at_most_one_witness :
    (exConnected (exSender 4) 100000).stop_timers = false ∧
    (1010000 : Int) - ((exConnected (exSender 4) 100000).AckTimerHandler exEnv false
      1000000).receiver.last_ack_timestamp < 2 * 100000 ∧
    (((exConnected (exSender 4) 100000).AckTimerHandler exEnv false 1000000).AckTimerHandler
      exEnv false 1010000).sent.length ≤ 0 + 1 :=
  ⟨rfl, by decide,
    (AckTimerHandler_at_most_one exEnv (exConnected (exSender 4) 100000) 1000000 1010000 rfl
      (by decide) (by decide)).1⟩

/-! ## Claim on the light ACK cadence -/

theorem ResetExp_frame (E : Env) (st : ConnectedState) (w : Bool) (now : Int) :
    (st.ResetExp E w now).stop_timers = st.stop_timers ∧
    (st.ResetExp E w now).sent = st.sent ∧
    (st.ResetExp E w now).packet_received_since_light_ack =
      st.packet_received_since_light_ack ∧
    (st.ResetExp E w now).ack_seq_gen = st.ack_seq_gen ∧
    (st.ResetExp E w now).sender = st.sender ∧
    (st.ResetExp E w now).connection_info = st.connection_info ∧
    (st.ResetExp E w now).session_state = st.session_state ∧
    (st.ResetExp E w now).cc_events = st.cc_events ∧
    (st.ResetExp E w now).receiver = E.ResetExpCounter st.receiver now := by
  unfold ConnectedState.ResetExp
  simp only []
  split_ifs <;> exact ⟨rfl, rfl, rfl, rfl, rfl, rfl, rfl, rfl, rfl⟩

theorem countDataDgr_frame (E : Env) (st : ConnectedState) (d : DataDatagram) (now : Int) :
    (st.countDataDgr E d now).stop_timers = st.stop_timers ∧
    (st.countDataDgr E d now).sent = st.sent ∧
    (st.countDataDgr E d now).packet_received_since_light_ack =
      (st.packet_received_since_light_ack + 1) % 4294967296 ∧
    (st.countDataDgr E d now).ack_seq_gen = st.ack_seq_gen ∧
    (st.countDataDgr E d now).session_state = st.session_state := by
  obtain ⟨r1, r2, r3, r4, _, _, r7, _, _⟩ := ResetExp_frame E st false now
  unfold ConnectedState.countDataDgr
  simp only []
  split_ifs <;> exact ⟨r1, r2, by rw [← r3], r4, r7⟩

/-- The call of `AckTimerHandler` made by `OnDataDgr`, with the timers running,
always sends. -/
theorem AckTimerHandler_light (E : Env) (st : ConnectedState) (now : Int)
    (hs : st.stop_timers = false) :
    st.AckTimerHandler E true now =
      st.emitAck E true (E.AckNumber st.receiver st.sender.p_session.packet_seq_gen) now := by
  simp [ConnectedState.AckTimerHandler, hs, ConnectedState.ackSuppressed]

theorem lightAcks_append_light (l : List ControlPacket) (info ts a : Nat) :
    lightAcks (l ++ [(⟨ControlType.ACK, info, some (ts, AckPayload.light a)⟩ : ControlPacket)]) =
      lightAcks l + 1 := by
  simp [lightAcks, List.filter_append]

/-- One data datagram with the timers running and fewer than 64 datagrams
counted: the counter goes up by one modulo 64, and a light ACK, and nothing
else, is sent exactly when it comes back to 0. -/
theorem OnDataDgr_step (E : Env) (st : ConnectedState) (d : DataDatagram) (now : Int)
    (hs : st.stop_timers = false) (hc : st.packet_received_since_light_ack < 64) :
    (st.OnDataDgr E d now).stop_timers = false ∧
    (st.OnDataDgr E d now).packet_received_since_light_ack =
      (st.packet_received_since_light_ack + 1) % 64 ∧
    lightAcks (st.OnDataDgr E d now).sent =
      lightAcks st.sent + (st.packet_received_since_light_ack + 1) / 64 ∧
    (st.OnDataDgr E d now).sent.length =
      st.sent.length + (st.packet_received_since_light_ack + 1) / 64 := by
  obtain ⟨c1, c2, c3, _, _⟩ := countDataDgr_frame E st d now
  have hc3 : (st.countDataDgr E d now).packet_received_since_light_ack =
      st.packet_received_since_light_ack + 1 := by
    rw [c3]; omega
  unfold ConnectedState.OnDataDgr
  simp only []
  by_cases h64 : (st.countDataDgr E d now).packet_received_since_light_ack ≥ 64
  · rw [if_pos h64, AckTimerHandler_light E _ now (c1.trans hs)]
    have hlight : (true && decide
        ((st.countDataDgr E d now).packet_received_since_light_ack ≥ 64)) = true := by
      simp [h64]
    have e1 : st.packet_received_since_light_ack + 1 = 64 := by omega
    refine ⟨?_, ?_, ?_, ?_⟩
    · exact c1.trans hs
    · simp only [ConnectedState.emitAck, hlight, if_true]
      omega
    · simp only [ConnectedState.emitAck, ConnectedState.ackPayload, hlight, if_true]
      rw [lightAcks_append_light, c2, e1]
    · simp only [ConnectedState.emitAck, List.length_append, List.length_singleton]
      rw [c2, e1]
  · rw [if_neg h64]
    have e1 : st.packet_received_since_light_ack + 1 < 64 := by omega
    refine ⟨c1.trans hs, ?_, ?_, ?_⟩
    · rw [hc3]; omega
    · rw [c2]; omega
    · rw [c2]; omega

/-- C16: in the connected state with the timers running and the counter of
datagrams received since the last light ACK at 0, after `n` consecutive data
datagrams `OnDataDgr` has sent `n / 64` light ACKs, and no other control
packet, and the counter is `n % 64`. -/
theorem OnDataDgr_light_ack_cadence (E : Env) (st : ConnectedState)
    (dgrs : List (DataDatagram × Int))
    (hs : st.stop_timers = false) (hc : st.packet_received_since_light_ack = 0) :
    lightAcks (st.OnDataDgrs E dgrs).sent = lightAcks st.sent + dgrs.length / 64 ∧
    (st.OnDataDgrs E dgrs).sent.length = st.sent.length + dgrs.length / 64 ∧
    (st.OnDataDgrs E dgrs).packet_received_since_light_ack = dgrs.length % 64 := by
  have gen : ∀ (l : List (DataDatagram × Int)) (t : ConnectedState),
      t.stop_timers = false → t.packet_received_since_light_ack < 64 →
      lightAcks (t.OnDataDgrs E l).sent =
        lightAcks t.sent + (t.packet_received_since_light_ack + l.length) / 64 ∧
      (t.OnDataDgrs E l).sent.length =
        t.sent.length + (t.packet_received_since_light_ack + l.length) / 64 ∧
      (t.OnDataDgrs E l).packet_received_since_light_ack =
        (t.packet_received_since_light_ack + l.length) % 64 := by
    intro l
    induction l with
    | nil =>
      intro t _ htc
      simp only [ConnectedState.OnDataDgrs, List.length_nil, Nat.add_zero]
      refine ⟨?_, ?_, ?_⟩ <;> omega
    | cons x xs ih =>
      intro t hts htc
      obtain ⟨s1, s2, s3, s4⟩ := OnDataDgr_step E t x.1 x.2 hts htc
      obtain ⟨i1, i2, i3⟩ := ih (t.OnDataDgr E x.1 x.2) s1 (by rw [s2]; omega)
      simp only [ConnectedState.OnDataDgrs, List.length_cons]
      rw [i1, i2, i3, s2, s3, s4]
      refine ⟨?_, ?_, ?_⟩ <;> omega
  have := gen dgrs st hs (by omega)
  rw [hc, Nat.zero_add] at this
  exact this

/-- Witness of C16: 200 data datagrams give 3 light ACKs and leave the counter at 8. -/
theorem OnDataDgr_light_ack_cadence_witness :
    (exConnected (exSender 4) 100).stop_timers = false ∧
    lightAcks ((exConnected (exSender 4) 100).OnDataDgrs exEnv
      (List.replicate 200 ({ packet_sequence_number := 1, payload := [] }, 0))).sent = 3 ∧
    ((exConnected (exSender 4) 100).OnDataDgrs exEnv
      (List.replicate 200 ({ packet_sequence_number := 1, payload := [] }, 0))
      ).packet_received_since_light_ack = 8 := by
  have h := OnDataDgr_light_ack_cadence exEnv (exConnected (exSender 4) 100)
    (List.replicate 200 ({ packet_sequence_number := 1, payload := [] }, 0)) rfl rfl
  rw [List.length_replicate] at h
  have h0 : lightAcks (exConnected (exSender 4) 100).sent = 0 := rfl
  rw [h0] at h
  exact ⟨rfl, h.1, h.2.2⟩

/-! ## Claims on the EXP timer -/

theorem UpdateLossListFromNackPackets_cc (s : Sender) :
    (UpdateLossListFromNackPackets s).p_congestion_control = s.p_congestion_control := by
  unfold UpdateLossListFromNackPackets
  split_ifs <;> rfl

/-- The sender after the first step of `ExpTimerHandler`: the unacknowledged
entries in flight are put into the loss set when it is empty. -/
theorem ExpTimerHandler_cases (E : Env) (st : ConnectedState) (now : Int)
    (hs : st.stop_timers = false) :
    ∃ s1 : Sender,
      s1 = (if st.sender.loss_packets = [] then UpdateLossListFromNackPackets st.sender
        else st.sender) ∧
      st.ExpTimerHandler E false now =
        if E.HasTimeout st.receiver now then
          { st with
            sender := { s1 with
              p_congestion_control := E.OnTimeout s1.p_congestion_control }
            cc_events := st.cc_events ++ [CCEvent.OnTimeout]
            session_state := StateType.CLOSED }
        else
          { st with
            sender := s1
            sent :=
              if s1.loss_packets = [] then
                st.sent ++
                  [(⟨ControlType.KEEP_ALIVE, E.NO_ADDITIONAL_INFO, none⟩ : ControlPacket)]
              else st.sent
            receiver := E.IncExpCounter st.receiver
            connection_info :=
              E.UpdateExpPeriod st.connection_info (E.IncExpCounter st.receiver).exp_count
            exp_timer :=
              st.exp_timer.launch
                (E.UpdateExpPeriod st.connection_info
                  (E.IncExpCounter st.receiver).exp_count).exp_period } := by
  refine ⟨_, rfl, ?_⟩
  by_cases hl : st.sender.loss_packets = []
  · by_cases ht : E.HasTimeout st.receiver now = true
    · simp [ConnectedState.ExpTimerHandler, hs, HasLossPackets, hl, ht, ConnectedState.Close]
    · by_cases hl2 : (UpdateLossListFromNackPackets st.sender).loss_packets = []
      · simp [ConnectedState.ExpTimerHandler, hs, HasLossPackets, hl, ht, hl2,
          ConnectedState.LaunchExpTimer]
      · simp [ConnectedState.ExpTimerHandler, hs, HasLossPackets, hl, ht, hl2,
          ConnectedState.LaunchExpTimer]
  · by_cases ht : E.HasTimeout st.receiver now = true
    · simp [ConnectedState.ExpTimerHandler, hs, HasLossPackets, hl, ht, ConnectedState.Close]
    · simp [ConnectedState.ExpTimerHandler, hs, HasLossPackets, hl, ht,
        ConnectedState.LaunchExpTimer]

/-- C19: on an EXP timer fire without error, with the timers running, if
`receiver.HasTimeout()` holds then `OnTimeout` of the congestion control is
invoked and the state of the session becomes `CLOSED`; in that fire no
control packet (hence no KEEP_ALIVE) is sent, the receiver (hence the EXP
counter) is unchanged, and the EXP timer is not launched again, nor is the EXP
period recomputed. -/
theorem ExpTimerHandler_timeout (E : Env) (st : ConnectedState) (now : Int)
    (hs : st.stop_timers = false) (ht : E.HasTimeout st.receiver now = true) :
    (st.ExpTimerHandler E false now).session_state = StateType.CLOSED ∧
    (st.ExpTimerHandler E false now).cc_events = st.cc_events ++ [CCEvent.OnTimeout] ∧
    (st.ExpTimerHandler E false now).sender.p_congestion_control =
      E.OnTimeout st.sender.p_congestion_control ∧
    (st.ExpTimerHandler E false now).sent = st.sent ∧
    (st.ExpTimerHandler E false now).receiver = st.receiver ∧
    (st.ExpTimerHandler E false now).exp_timer = st.exp_timer ∧
    (st.ExpTimerHandler E false now).connection_info = st.connection_info := by
  obtain ⟨s1, hs1, h⟩ := ExpTimerHandler_cases E st now hs
  rw [h, if_pos ht]
  refine ⟨rfl, rfl, ?_, rfl, rfl, rfl, rfl⟩
  show E.OnTimeout s1.p_congestion_control = E.OnTimeout st.sender.p_congestion_control
  rw [hs1]
  split_ifs
  · rw [UpdateLossListFromNackPackets_cc]
  · rfl

/-- Witness of C19: 17 expirations and 11 s without reset. -/
theorem ExpTimerHandler_timeout_witness :
    exEnv.HasTimeout (exExpired (exSender 4)).receiver 11000000 = true ∧
    ((exExpired (exSender 4)).ExpTimerHandler exEnv false 11000000).session_state =
      StateType.CLOSED ∧
    ((exExpired (exSender 4)).ExpTimerHandler exEnv false 11000000).sent = [] ∧
    ((exExpired (exSender 4)).ExpTimerHandler exEnv false 11000000).receiver.exp_count = 17 ∧
    ((exExpired (exSender 4)).ExpTimerHandler exEnv false 11000000).exp_timer.waits = 0 :=
  ⟨by decide,
    (ExpTimerHandler_timeout exEnv (exExpired (exSender 4)) 11000000 rfl (by decide)).1,
    (ExpTimerHandler_timeout exEnv (exExpired (exSender 4)) 11000000 rfl (by decide)).2.2.2.1,
    by decide, by decide⟩

/-- C20: on an EXP timer fire without error, with the timers running and
`receiver.HasTimeout()` false: (i) if the loss set was empty on entry the
sender is the one after `UpdateLossListFromNackPackets`, so the key of every
unacknowledged entry in flight is in the loss set, and otherwise the sender is
unchanged; (ii) one KEEP_ALIVE is sent if the loss set is empty after (i) and
no control packet otherwise; (iii) `IncExpCounter` is applied once to the
receiver, which adds one to the EXP counter when `IncExpCounter` does;
(iv) the EXP period is recomputed by `UpdateExpPeriod` from the counter after
the increment and the EXP timer is launched with it.  The session stays in
its state. -/
theorem ExpTimerHandler_no_timeout (E : Env) (st : ConnectedState) (now : Int)
    (hs : st.stop_timers = false) (ht : E.HasTimeout st.receiver now = false) :
    (st.sender.loss_packets = [] →
      (st.ExpTimerHandler E false now).sender = UpdateLossListFromNackPackets st.sender ∧
      ∀ e ∈ st.sender.nack_packets, e.2.acked = false →
        e.1 ∈ (st.ExpTimerHandler E false now).sender.loss_packets) ∧
    (st.sender.loss_packets ≠ [] → (st.ExpTimerHandler E false now).sender = st.sender) ∧
    ((st.ExpTimerHandler E false now).sender.loss_packets = [] →
      (st.ExpTimerHandler E false now).sent = st.sent ++
        [(⟨ControlType.KEEP_ALIVE, E.NO_ADDITIONAL_INFO, none⟩ : ControlPacket)]) ∧
    ((st.ExpTimerHandler E false now).sender.loss_packets ≠ [] →
      (st.ExpTimerHandler E false now).sent = st.sent) ∧
    (st.ExpTimerHandler E false now).receiver = E.IncExpCounter st.receiver ∧
    ((∀ r, (E.IncExpCounter r).exp_count = r.exp_count + 1) →
      (st.ExpTimerHandler E false now).receiver.exp_count = st.receiver.exp_count + 1) ∧
    (st.ExpTimerHandler E false now).connection_info =
      E.UpdateExpPeriod st.connection_info
        (st.ExpTimerHandler E false now).receiver.exp_count ∧
    (st.ExpTimerHandler E false now).exp_timer =
      st.exp_timer.launch (st.ExpTimerHandler E false now).connection_info.exp_period ∧
    (st.ExpTimerHandler E false now).session_state = st.session_state ∧
    (st.ExpTimerHandler E false now).cc_events = st.cc_events := by
  obtain ⟨s1, hs1, h⟩ := ExpTimerHandler_cases E st now hs
  have ht2 : ¬ E.HasTimeout st.receiver now = true := by rw [ht]; simp
  rw [h, if_neg ht2]
  refine ⟨?_, ?_, ?_, ?_, rfl, fun hinc => hinc st.receiver, rfl, rfl, rfl, rfl⟩
  · intro hl
    rw [if_pos hl] at hs1
    refine ⟨hs1, ?_⟩
    intro e he ha
    show e.1 ∈ s1.loss_packets
    rw [hs1]
    by_cases hn : st.sender.nack_packets.isEmpty = true
    · rw [List.isEmpty_iff] at hn
      rw [hn] at he
      exact absurd he (List.not_mem_nil e)
    · have hl2 : (UpdateLossListFromNackPackets st.sender).loss_packets =
          (nackPacketsLoop st.sender.nack_packets st.sender.loss_packets).1 := by
        simp [UpdateLossListFromNackPackets, hn, Sender.RegisterNewSocket]
      rw [hl2]
      exact (mem_nackPacketsLoop_fst _ _ _).mpr (Or.inr ⟨e, he, ha, rfl⟩)
  · intro hl
    rw [if_neg hl] at hs1
    exact hs1
  · intro hl
    have hl2 : s1.loss_packets = [] := hl
    show (if s1.loss_packets = [] then _ else _) = _
    rw [if_pos hl2]
  · intro hl
    have hl2 : s1.loss_packets ≠ [] := hl
    show (if s1.loss_packets = [] then _ else _) = _
    rw [if_neg hl2]

/-- Witness of C20: nothing in flight, a KEEP_ALIVE is sent, the EXP counter
goes from 1 to 2 and the timer is launched with the period for 2. -/
theorem ExpTimerHandler_no_timeout_witness :
    exEnv.HasTimeout (exConnected (exSender 4) 100).receiver 5 = false ∧
    ((exConnected (exSender 4) 100).ExpTimerHandler exEnv false 5).sent =
      [(⟨ControlType.KEEP_ALIVE, 0, none⟩ : ControlPacket)] ∧
    ((exConnected (exSender 4) 100).ExpTimerHandler exEnv false 5).receiver.exp_count = 2 ∧
    ((exConnected (exSender 4) 100).ExpTimerHandler exEnv false 5).exp_timer =
      { expiry := some 10400, waits := 1 } :=
  ⟨by decide,
    (ExpTimerHandler_no_timeout exEnv (exConnected (exSender 4) 100) 5 rfl
      (by decide)).2.2.1 (by decide),
    (ExpTimerHandler_no_timeout exEnv (exConnected (exSender 4) 100) 5 rfl
      (by decide)).2.2.2.2.2.1 (fun _ => rfl),
    by decide⟩

/-! ## Lemmas on the handlers of control datagrams -/

theorem OnAck_frame (E : Env) (st : ConnectedState) (d : AckDatagram) :
    (st.OnAck E d).session_state = st.session_state ∧
    (st.OnAck E d).stop_timers = st.stop_timers ∧
    (st.OnAck E d).ack_seq_gen = st.ack_seq_gen ∧
    (st.OnAck E d).sent = st.sent ++
      [(⟨ControlType.ACK_OF_ACK, d.additional_info, none⟩ : ControlPacket)] ∧
    (st.OnAck E d).receiver.exp_count = st.receiver.exp_count ∧
    (st.OnAck E d).receiver.last_exp_reset = st.receiver.last_exp_reset ∧
    (st.OnAck E d).exp_timer = st.exp_timer := by
  unfold ConnectedState.OnAck
  simp only []
  split_ifs <;> exact ⟨rfl, rfl, rfl, rfl, rfl, rfl, rfl⟩

theorem OnNAck_frame (E : Env) (st : ConnectedState) (l : List Nat) :
    (st.OnNAck E l).session_state = st.session_state ∧
    (st.OnNAck E l).stop_timers = st.stop_timers ∧
    (st.OnNAck E l).ack_seq_gen = st.ack_seq_gen ∧
    (st.OnNAck E l).sent = st.sent ∧
    (st.OnNAck E l).receiver = st.receiver ∧
    (st.OnNAck E l).exp_timer = st.exp_timer := by
  unfold ConnectedState.OnNAck
  simp only []
  split_ifs <;> exact ⟨rfl, rfl, rfl, rfl, rfl, rfl⟩

theorem OnAckOfAck_frame (E : Env) (st : ConnectedState) (a : Nat) (now : Int) :
    (st.OnAckOfAck E a now).session_state = st.session_state ∧
    (st.OnAckOfAck E a now).stop_timers = st.stop_timers ∧
    (st.OnAckOfAck E a now).ack_seq_gen = st.ack_seq_gen ∧
    (st.OnAckOfAck E a now).sent = st.sent ∧
    (st.OnAckOfAck E a now).exp_timer = st.exp_timer ∧
    (st.OnAckOfAck E a now).receiver.exp_count = (E.AckAck st.receiver a now).2.exp_count ∧
    (st.OnAckOfAck E a now).receiver.last_exp_reset =
      (E.AckAck st.receiver a now).2.last_exp_reset := by
  unfold ConnectedState.OnAckOfAck
  simp only []
  cases (E.AckAck st.receiver a now).1 with
  | none => exact ⟨rfl, rfl, rfl, rfl, rfl, rfl, rfl⟩
  | some r =>
    simp only []
    split_ifs <;> exact ⟨rfl, rfl, rfl, rfl, rfl, rfl, rfl⟩

/-! ## Claims on the control datagrams -/

/-- C22: for every control datagram handled by `OnControlDgr` in a session
whose state is the connected one, the state of the session becomes the closed
one if and only if the type of the datagram is SHUTDOWN; for every other type,
a type code the `switch` does not list included, it stays the connected
one. -/
theorem OnControlDgr_closes_iff_shutdown (E : Env) (st : ConnectedState)
    (dgr : ControlDatagram) (now : Int) (hc : st.session_state = StateType.CONNECTED) :
    ((st.OnControlDgr E dgr now).session_state = StateType.CLOSED ↔
      dgr.flags = ControlType.SHUTDOWN) ∧
    (dgr.flags ≠ ControlType.SHUTDOWN →
      (st.OnControlDgr E dgr now).session_state = StateType.CONNECTED) := by
  have hr : ∀ w, (st.ResetExp E w now).session_state = StateType.CONNECTED := fun w =>
    (ResetExp_frame E st w now).2.2.2.2.2.2.1.trans hc
  unfold ConnectedState.OnControlDgr
  cases hf : dgr.flags with
  | KEEP_ALIVE => simp [hr]
  | ACK => simp [(OnAck_frame E _ _).1, hr]
  | NACK => simp [(OnNAck_frame E _ _).1, hr]
  | SHUTDOWN => simp [ConnectedState.Close]
  | ACK_OF_ACK => simp [(OnAckOfAck_frame E _ _ _).1, hr]
  | MESSAGE_DROP_REQUEST => simp [hr]
  | other c => simp [hc]

theorem OnControlDgr_closes_iff_shutdown_witness :
    (exConnected (exSender 4) 100).session_state = StateType.CONNECTED ∧
    ((exConnected (exSender 4) 100).OnControlDgr exEnv
      (exControlDgr ControlType.SHUTDOWN false) 0).session_state = StateType.CLOSED ∧
    ((exConnected (exSender 4) 100).OnControlDgr exEnv
      (exControlDgr (ControlType.other 15) false) 0).session_state = StateType.CONNECTED :=
  ⟨rfl,
    (OnControlDgr_closes_iff_shutdown exEnv (exConnected (exSender 4) 100)
      (exControlDgr ControlType.SHUTDOWN false) 0 rfl).1.2 rfl,
    (OnControlDgr_closes_iff_shutdown exEnv (exConnected (exSender 4) 100)
      (exControlDgr (ControlType.other 15) false) 0 rfl).2 (by simp [exControlDgr])⟩
theorem countDataDgr_receiver (E : Env) (st : ConnectedState) (d : DataDatagram) (now : Int) :
    (st.countDataDgr E d now).receiver =
      E.OnDataDatagram (E.ResetExpCounter st.receiver now) d := by
  have hr := (ResetExp_frame E st false now).2.2.2.2.2.2.2.2
  unfold ConnectedState.countDataDgr
  simp only []
  split_ifs <;> simp only [hr]

/-- C21: `OnDataDgr` and, for each of the six types KEEP_ALIVE, ACK, NAK,
SHUTDOWN, ACK_OF_ACK and MESSAGE_DROP_REQUEST, `OnControlDgr` call
`ResetExpCounter` on the receiver before anything else: when the receiver
operations that may follow it (`OnDataDatagram`, `StoreAck`, `AckAck`) leave
the EXP counter and the time of its last reset alone, both have after the
handler the values `ResetExpCounter` gives them.  For KEEP_ALIVE and
MESSAGE_DROP_REQUEST the handler does nothing else but cancel the EXP timer
when no packet is in flight: sender, congestion control, connection info and
the packets sent are unchanged and the receiver is the reset one. -/
theorem OnControlDgr_resets_exp (E : Env) (st : ConnectedState) (now : Int)
    (hdata : ∀ r d, (E.OnDataDatagram r d).exp_count = r.exp_count ∧
      (E.OnDataDatagram r d).last_exp_reset = r.last_exp_reset)
    (hstore : ∀ r a b l t, (E.StoreAck r a b l t).exp_count = r.exp_count ∧
      (E.StoreAck r a b l t).last_exp_reset = r.last_exp_reset)
    (hackack : ∀ r a t, (E.AckAck r a t).2.exp_count = r.exp_count ∧
      (E.AckAck r a t).2.last_exp_reset = r.last_exp_reset) :
    (∀ d : DataDatagram,
      (st.OnDataDgr E d now).receiver.exp_count =
        (E.ResetExpCounter st.receiver now).exp_count ∧
      (st.OnDataDgr E d now).receiver.last_exp_reset =
        (E.ResetExpCounter st.receiver now).last_exp_reset) ∧
    (∀ dgr : ControlDatagram, (∀ c, dgr.flags ≠ ControlType.other c) →
      (st.OnControlDgr E dgr now).receiver.exp_count =
        (E.ResetExpCounter st.receiver now).exp_count ∧
      (st.OnControlDgr E dgr now).receiver.last_exp_reset =
        (E.ResetExpCounter st.receiver now).last_exp_reset) ∧
    (∀ dgr : ControlDatagram,
      dgr.flags = ControlType.KEEP_ALIVE ∨ dgr.flags = ControlType.MESSAGE_DROP_REQUEST →
      st.OnControlDgr E dgr now =
        { st with
          receiver := E.ResetExpCounter st.receiver now
          exp_timer := if st.sender.nack_packets = [] then st.exp_timer.cancel
            else st.exp_timer } ∧
      (st.OnControlDgr E dgr now).sender = st.sender ∧
      (st.OnControlDgr E dgr now).receiver = E.ResetExpCounter st.receiver now ∧
      (st.OnControlDgr E dgr now).cc_events = st.cc_events ∧
      (st.OnControlDgr E dgr now).connection_info = st.connection_info ∧
      (st.OnControlDgr E dgr now).sent = st.sent) := by
  have hreset : ∀ w, (st.ResetExp E w now).receiver = E.ResetExpCounter st.receiver now :=
    fun w => (ResetExp_frame E st w now).2.2.2.2.2.2.2.2
  have hkeep : st.ResetExp E false now =
      { st with
        receiver := E.ResetExpCounter st.receiver now
        exp_timer := if st.sender.nack_packets = [] then st.exp_timer.cancel
          else st.exp_timer } := by
    unfold ConnectedState.ResetExp HasNackPackets
    cases hn : st.sender.nack_packets <;> simp [hn]
  refine ⟨?_, ?_, ?_⟩
  · intro d
    have hcr := countDataDgr_receiver E st d now
    unfold ConnectedState.OnDataDgr
    simp only []
    split_ifs with h64
    · by_cases hs : (st.countDataDgr E d now).stop_timers = false
      · rw [AckTimerHandler_light E _ now hs,
          (emitAck_frame E (st.countDataDgr E d now) true _ now).2.2.2.2.2.2.2.2.2]
        show (E.StoreAck _ _ _ _ _).exp_count = _ ∧ (E.StoreAck _ _ _ _ _).last_exp_reset = _
        rw [(hstore _ _ _ _ _).1, (hstore _ _ _ _ _).2, hcr]
        exact hdata _ _
      · have hs2 : (st.countDataDgr E d now).stop_timers = true := by simpa using hs
        simp only [ConnectedState.AckTimerHandler, hs2, if_true]
        rw [hcr]; exact hdata _ _
    · rw [hcr]; exact hdata _ _
  · intro dgr hlisted
    unfold ConnectedState.OnControlDgr
    cases hf : dgr.flags with
    | KEEP_ALIVE => simp [hreset]
    | ACK =>
      obtain ⟨_, _, _, _, h5, h6, _⟩ := OnAck_frame E (st.ResetExp E true now)
        ⟨dgr.additional_info, dgr.ack_payload⟩
      simp [h5, h6, hreset]
    | NACK =>
      simp [(OnNAck_frame E _ _).2.2.2.2.1, hreset]
    | SHUTDOWN => simp [ConnectedState.Close, hreset]
    | ACK_OF_ACK =>
      obtain ⟨_, _, _, _, _, h6, h7⟩ := OnAckOfAck_frame E (st.ResetExp E false now)
        dgr.additional_info now
      simp only [h6, h7, hreset]
      exact hackack _ _ _
    | MESSAGE_DROP_REQUEST => simp [hreset]
    | other c => exact absurd hf (hlisted c)
  · intro dgr hk
    have hcall : st.OnControlDgr E dgr now = st.ResetExp E false now := by
      unfold ConnectedState.OnControlDgr
      rcases hk with hk | hk <;> rw [hk]
    rw [hcall, hkeep]
    exact ⟨rfl, rfl, rfl, rfl, rfl, rfl⟩

theorem OnControlDgr_resets_exp_witness :
    ((exExpired (exSender 4)).receiver.exp_count = 17 ∧
      (exEnv.ResetExpCounter (exExpired (exSender 4)).receiver 70).exp_count = 1) ∧
    (((exExpired (exSender 4)).OnDataDgr exEnv ⟨42, [1, 2]⟩ 70).receiver.exp_count = 1 ∧
      ((exExpired (exSender 4)).OnDataDgr exEnv ⟨42, [1, 2]⟩ 70).receiver.last_exp_reset = 70) ∧
    (((exExpired (exSender 4)).OnControlDgr exEnv
        (exControlDgr ControlType.ACK false) 70).receiver.exp_count = 1 ∧
      ((exExpired (exSender 4)).OnControlDgr exEnv
        (exControlDgr ControlType.ACK false) 70).receiver.last_exp_reset = 70) ∧
    ((exExpired (exSender 4)).OnControlDgr exEnv
        (exControlDgr ControlType.KEEP_ALIVE false) 70).sender = exSender 4 :=
  have h := OnControlDgr_resets_exp exEnv (exExpired (exSender 4)) 70
    (fun _ _ => ⟨rfl, rfl⟩) (fun _ _ _ _ _ => ⟨rfl, rfl⟩)
    (fun r a t => by
      simp only [exEnv]
      split <;> exact ⟨rfl, rfl⟩)
  ⟨⟨rfl, rfl⟩, h.1 ⟨42, [1, 2]⟩,
    h.2.1 (exControlDgr ControlType.ACK false) (fun c => by simp [exControlDgr]),
    (h.2.2 (exControlDgr ControlType.KEEP_ALIVE false) (Or.inl rfl)).2.1⟩

theorem AckPackets_frame (s : Sender) (x : Nat) :
    (AckPackets s x).p_session = s.p_session ∧
    (AckPackets s x).p_congestion_control = s.p_congestion_control ∧
    (AckPackets s x).packets_to_send = s.packets_to_send ∧
    (AckPackets s x).next_sending_packet_time = s.next_sending_packet_time ∧
    (AckPackets s x).max_send_size = s.max_send_size ∧
    (AckPackets s x).unqueue_write_op = s.unqueue_write_op ∧
    (AckPackets s x).write_ops_queue = s.write_ops_queue :=
  ⟨rfl, rfl, rfl, rfl, rfl, rfl, rfl⟩

/-- The sender after `OnAck`: the one `AckPackets` leaves, but for the window
of the session and the data of the congestion control. -/
theorem OnAck_sender (E : Env) (st : ConnectedState) (d : AckDatagram) :
    (st.OnAck E d).sender.loss_packets =
      (AckPackets st.sender
        (GetPacketSequenceValue d.payload.max_packet_sequence_number)).loss_packets ∧
    (st.OnAck E d).sender.nack_packets =
      (AckPackets st.sender
        (GetPacketSequenceValue d.payload.max_packet_sequence_number)).nack_packets ∧
    (st.OnAck E d).sender.packets_to_send = st.sender.packets_to_send ∧
    (st.OnAck E d).sender.write_ops_queue = st.sender.write_ops_queue ∧
    (st.OnAck E d).sender.p_session.packet_seq_gen = st.sender.p_session.packet_seq_gen ∧
    (st.OnAck E d).receiver.last_ack2_seq_number = d.additional_info := by
  unfold ConnectedState.OnAck
  simp only []
  split_ifs <;> exact ⟨rfl, rfl, rfl, rfl, rfl, rfl⟩

/-- C23: let `p` be the packet number of an ACK handled by `OnAck`, bit 31
masked off, and `L` the largest acknowledged sequence number of the receiver.
For a light ACK the connection info is unchanged, `OnAck` of the congestion
control is not invoked and its data is unchanged; if `Compare(p, L) >= 0` the
window of the session becomes the stored value of `window - SeqOffset(L, p)`
and `L` becomes `p`, otherwise both are unchanged.  For an ACK that is not
light, if `Compare(p, L) >= 0` the window of the session becomes the available
buffer size of the ACK and `L` becomes `p`. -/
theorem OnAck_light_window (E : Env) (st : ConnectedState) (d : AckDatagram) (p L : Nat)
    (hp : p = GetPacketSequenceValue d.payload.max_packet_sequence_number)
    (hL : L = st.receiver.largest_acknowledged_seq_number) :
    (d.payload.IsLightAck = true →
      (st.OnAck E d).connection_info = st.connection_info ∧
      (st.OnAck E d).cc_events = st.cc_events ∧
      (st.OnAck E d).sender.p_congestion_control = st.sender.p_congestion_control ∧
      (E.Compare st.sender.p_session.packet_seq_gen p L ≥ 0 →
        (st.OnAck E d).sender.p_session.window_flow_size =
          E.window_sub st.sender.p_session.window_flow_size
            (E.SeqOffset st.sender.p_session.packet_seq_gen L p) ∧
        (st.OnAck E d).receiver.largest_acknowledged_seq_number = p) ∧
      (E.Compare st.sender.p_session.packet_seq_gen p L < 0 →
        (st.OnAck E d).sender.p_session.window_flow_size =
          st.sender.p_session.window_flow_size ∧
        (st.OnAck E d).receiver.largest_acknowledged_seq_number = L)) ∧
    (d.payload.IsLightAck = false →
      E.Compare st.sender.p_session.packet_seq_gen p L ≥ 0 →
      (st.OnAck E d).sender.p_session.window_flow_size = d.payload.available_buffer_size ∧
      (st.OnAck E d).receiver.largest_acknowledged_seq_number = p) := by
  subst hp hL
  refine ⟨fun hlight => ⟨?_, ?_, ?_, fun hc => ?_, fun hc => ?_⟩, fun hfull hc => ?_⟩
  · unfold ConnectedState.OnAck
    simp only [hlight, if_true]
    split_ifs <;> rfl
  · unfold ConnectedState.OnAck
    simp only [hlight, if_true]
    split_ifs <;> rfl
  · unfold ConnectedState.OnAck
    simp only [hlight, if_true]
    split_ifs <;> rfl
  · unfold ConnectedState.OnAck
    simp only [hlight, if_true]
    split_ifs with h1 h2 h2
    · exact ⟨rfl, rfl⟩
    · exact absurd hc h2
    · exact ⟨rfl, rfl⟩
    · exact absurd hc h2
  · unfold ConnectedState.OnAck
    simp only [hlight, if_true]
    split_ifs with h1 h2 h2
    · exact absurd h2 (not_le.mpr hc)
    · exact ⟨rfl, rfl⟩
    · exact absurd h2 (not_le.mpr hc)
    · exact ⟨rfl, rfl⟩
  · unfold ConnectedState.OnAck
    simp only [hfull, Bool.false_eq_true, if_false]
    split_ifs <;> first | exact ⟨rfl, rfl⟩ | exact absurd hc (by assumption)

theorem OnAck_light_window_witness :
    exEnv.Compare (exSender 100).p_session.packet_seq_gen 10 0 = 1 ∧
    exEnv.SeqOffset (exSender 100).p_session.packet_seq_gen 0 10 = 10 ∧
    (exSender 100).p_session.window_flow_size = 100 ∧
    (((exConnected (exSender 100) 100).OnAck exEnv
        ⟨9, (exControlDgr ControlType.ACK true).ack_payload⟩).sender.p_session.window_flow_size =
          90 ∧
      ((exConnected (exSender 100) 100).OnAck exEnv
        ⟨9, (exControlDgr ControlType.ACK true).ack_payload⟩
          ).receiver.largest_acknowledged_seq_number = 10) ∧
    (((exConnected (exSender 100) 100).OnAck exEnv
        ⟨9, (exControlDgr ControlType.ACK false).ack_payload⟩).sender.p_session.window_flow_size =
          50 ∧
      ((exConnected (exSender 100) 100).OnAck exEnv
        ⟨9, (exControlDgr ControlType.ACK false).ack_payload⟩
          ).receiver.largest_acknowledged_seq_number = 10) :=
  ⟨by decide, by decide, rfl,
    ((OnAck_light_window exEnv (exConnected (exSender 100) 100)
      ⟨9, (exControlDgr ControlType.ACK true).ack_payload⟩ 10 0 (by decide) rfl).1 rfl).2.2.2.1
        (by decide),
    (OnAck_light_window exEnv (exConnected (exSender 100) 100)
      ⟨9, (exControlDgr ControlType.ACK false).ack_payload⟩ 10 0 (by decide) rfl).2 rfl
        (by decide)⟩
/-- C24: for every control datagram of type ACK handled by `OnControlDgr`,
light or full, the loss set and the map of packets in flight of the sender are
those `AckPackets` gives for the packet number of the ACK with bit 31 masked
off, the rest of the sender's queues being untouched, and exactly one control
packet is sent: an ACK_OF_ACK whose additional info is the additional info of
the ACK received, which the receiver also records as last ACK2 sequence
number. -/
theorem OnControlDgr_ack_echo (E : Env) (st : ConnectedState) (dgr : ControlDatagram)
    (now : Int) (hack : dgr.flags = ControlType.ACK) :
    (st.OnControlDgr E dgr now).sender.loss_packets =
      (AckPackets st.sender
        (dgr.ack_payload.max_packet_sequence_number &&& 0x7FFFFFFF)).loss_packets ∧
    (st.OnControlDgr E dgr now).sender.nack_packets =
      (AckPackets st.sender
        (dgr.ack_payload.max_packet_sequence_number &&& 0x7FFFFFFF)).nack_packets ∧
    (st.OnControlDgr E dgr now).sender.packets_to_send = st.sender.packets_to_send ∧
    (st.OnControlDgr E dgr now).sender.write_ops_queue = st.sender.write_ops_queue ∧
    (st.OnControlDgr E dgr now).sent = st.sent ++
      [(⟨ControlType.ACK_OF_ACK, dgr.additional_info, none⟩ : ControlPacket)] ∧
    (st.OnControlDgr E dgr now).receiver.last_ack2_seq_number = dgr.additional_info := by
  obtain ⟨_, r2, _, _, r5, _⟩ := ResetExp_frame E st true now
  obtain ⟨s1, s2, s3, s4, _, s6⟩ := OnAck_sender E (st.ResetExp E true now)
    ⟨dgr.additional_info, dgr.ack_payload⟩
  obtain ⟨_, _, _, f4, _⟩ := OnAck_frame E (st.ResetExp E true now)
    ⟨dgr.additional_info, dgr.ack_payload⟩
  have hcall : st.OnControlDgr E dgr now =
      (st.ResetExp E true now).OnAck E ⟨dgr.additional_info, dgr.ack_payload⟩ := by
    unfold ConnectedState.OnControlDgr
    rw [hack]
  rw [hcall, s1, s2, s3, s4, s6, f4, r2, r5]
  exact ⟨rfl, rfl, rfl, rfl, rfl, rfl⟩

theorem OnControlDgr_ack_echo_witness :
    (exControlDgr ControlType.ACK true).flags = ControlType.ACK ∧
    ((exConnected exLossy 100).OnControlDgr exEnv (exControlDgr ControlType.ACK true) 0).sent =
      [⟨ControlType.ACK_OF_ACK, 9, none⟩] ∧
    ((exConnected exLossy 100).OnControlDgr exEnv
        (exControlDgr ControlType.ACK true) 0).sender.loss_packets =
      (AckPackets exLossy 10).loss_packets :=
  ⟨rfl,
    (OnControlDgr_ack_echo exEnv (exConnected exLossy 100)
      (exControlDgr ControlType.ACK true) 0 rfl).2.2.2.2.1,
    (OnControlDgr_ack_echo exEnv (exConnected exLossy 100)
      (exControlDgr ControlType.ACK true) 0 rfl).1⟩

/-! ## Lemmas on the cache of connection infos -/

theorem cacheFind_cacheAssign_self (a : List Char) (p : Nat) (m : List (List Char × Nat)) :
    cacheFind a (cacheAssign a p m) = some p := by
  induction m with
  | nil => simp [cacheAssign, cacheFind]
  | cons e m ih =>
    unfold cacheAssign
    split_ifs with h1 h2
    · simp [cacheFind]
    · simp [cacheFind]
    · simp [cacheFind, h2, ih]

theorem length_cacheAssign_le (a : List Char) (p : Nat) (m : List (List Char × Nat)) :
    (cacheAssign a p m).length ≤ m.length + 1 := by
  induction m with
  | nil => simp [cacheAssign]
  | cons e m ih =>
    unfold cacheAssign
    split_ifs
    all_goals simp only [List.length_cons]
    all_goals omega

theorem oldestLoop_mem (l : List (List Char × Nat)) (o : List Char × Nat) :
    oldestLoop l o ∈ o :: l := by
  induction l generalizing o with
  | nil => simp [oldestLoop]
  | cons c l ih =>
    unfold oldestLoop
    have h := ih (if c.2 < o.2 then c else o)
    split_ifs at h ⊢ with hc
    · simp only [List.mem_cons] at h ⊢; tauto
    · simp only [List.mem_cons] at h ⊢; tauto

theorem oldestLoop_le (l : List (List Char × Nat)) (o : List Char × Nat) :
    ∀ e ∈ o :: l, (oldestLoop l o).2 ≤ e.2 := by
  induction l generalizing o with
  | nil => simp [oldestLoop]
  | cons c l ih =>
    unfold oldestLoop
    have h := ih (if c.2 < o.2 then c else o)
    intro e he
    simp only [List.mem_cons] at he h
    split_ifs at h ⊢ with hc
    · rcases he with he | he | he
      · have := h c (Or.inl rfl); rw [he]; omega
      · rw [he]; exact h c (Or.inl rfl)
      · exact h e (Or.inr he)
    · rcases he with he | he | he
      · rw [he]; exact h o (Or.inl rfl)
      · have := h o (Or.inl rfl); rw [he]; omega
      · exact h e (Or.inr he)

/-- `FreeItem` on a map that is not empty erases one entry, one whose pointer
is the least of the map. -/
theorem FreeItem_cons (max : Nat) (first : List Char × Nat) (rest : List (List Char × Nat)) :
    ∃ victim, victim ∈ first :: rest ∧ (∀ e ∈ first :: rest, victim.2 ≤ e.2) ∧
      ConnectionsInfoManager.FreeItem ⟨max, first :: rest⟩ =
        some ⟨max, (first :: rest).erase victim⟩ ∧
      ((first :: rest).erase victim).length = rest.length := by
  refine ⟨oldestLoop (first :: rest) first, ?_, ?_, rfl, ?_⟩
  · have h := oldestLoop_mem (first :: rest) first
    simp only [List.mem_cons] at h ⊢
    tauto
  · intro e he
    exact oldestLoop_le (first :: rest) first e (List.mem_cons_of_mem _ he)
  · have h := oldestLoop_mem (first :: rest) first
    have hm : oldestLoop (first :: rest) first ∈ first :: rest := by
      simp only [List.mem_cons] at h ⊢
      tauto
    rw [List.length_erase_of_mem hm]
    simp

/-- One call of `GetConnectionInfo` returns; it keeps the bound
`max_cache_size_ + 1` on the number of entries. -/
theorem GetConnectionInfo_step (m : ConnectionsInfoManager) (e : NextEndpoint) (fresh : Nat)
    (hb : m.connections_info.length ≤ m.max_cache_size + 1) :
    ∃ p m1, m.GetConnectionInfo e fresh = some (p, m1) ∧
      m1.max_cache_size = m.max_cache_size ∧
      m1.connections_info.length ≤ m.max_cache_size + 1 := by
  unfold ConnectionsInfoManager.GetConnectionInfo
  simp only []
  cases hf : cacheFind e.address m.connections_info with
  | some q => exact ⟨q, m, rfl, rfl, hb⟩
  | none =>
    simp only []
    split_ifs with hgt
    · obtain ⟨max, l⟩ := m
      cases l with
      | nil => simp at hgt
      | cons first rest =>
        obtain ⟨victim, _, _, hfree, hlen⟩ := FreeItem_cons max first rest
        rw [hfree]
        refine ⟨fresh, _, rfl, rfl, ?_⟩
        have h1 := length_cacheAssign_le e.address fresh ((first :: rest).erase victim)
        simp only [List.length_cons] at hb
        simp only [] at h1 ⊢
        omega
    · refine ⟨fresh, _, rfl, rfl, ?_⟩
      have h1 := length_cacheAssign_le e.address fresh m.connections_info
      simp only [] at h1 ⊢
      omega

theorem lookups_bound (cs : List (NextEndpoint × Nat)) (m : ConnectionsInfoManager)
    (hb : m.connections_info.length ≤ m.max_cache_size + 1) :
    ∃ m1, m.lookups cs = some m1 ∧ m1.max_cache_size = m.max_cache_size ∧
      m1.connections_info.length ≤ m.max_cache_size + 1 := by
  induction cs generalizing m with
  | nil => exact ⟨m, rfl, rfl, hb⟩
  | cons c cs ih =>
    obtain ⟨p, m1, hcall, hmax, hlen⟩ := GetConnectionInfo_step m c.1 c.2 hb
    obtain ⟨m2, hrun, hmax2, hlen2⟩ := ih m1 (by rw [hmax]; exact hlen)
    refine ⟨m2, ?_, hmax2.trans hmax, by rw [← hmax]; exact hlen2⟩
    unfold ConnectionsInfoManager.lookups
    rw [hcall]
    exact hrun

/-! ## Claims on the cache of connection infos -/

/-- C25 (the code departs from the claim): from the empty cache every series
of `GetConnectionInfo` calls returns and leaves at most `max_cache_size_ + 1`
entries, and that number is reached: `FreeItem` runs when the size is greater
than `max_cache_size_`, so a cache built with `max_cache_size` 1 holds two
entries after two lookups and the default cache of 64 holds 65 entries after 65
lookups of different addresses. -/
theorem GetConnectionInfo_size_bound :
    (∀ (max_cache_size : Nat) (calls : List (NextEndpoint × Nat)),
      ∃ m1, (ConnectionsInfoManager.init max_cache_size).lookups calls = some m1 ∧
        m1.connections_info.length ≤ max_cache_size + 1) ∧
    ((ConnectionsInfoManager.init 1).lookups (exCalls.take 2)).map
        (fun m => m.connections_info.length) = some 2 ∧
    ((ConnectionsInfoManager.init 64).lookups (exDistinctCalls 65)).map
        (fun m => m.connections_info.length) = some 65 := by
  refine ⟨fun max_cache_size calls => ?_, by decide, by decide⟩
  obtain ⟨m1, h1, _, h3⟩ := lookups_bound calls (ConnectionsInfoManager.init max_cache_size)
    (by simp [ConnectionsInfoManager.init])
  exact ⟨m1, h1, h3⟩
/-- C26 (the code departs from the claim): when `FreeItem` runs on a map that
is not empty it erases exactly one entry, and that entry is one whose pointer
compares least, whatever the order of the lookups.  In a cache built with
`max_cache_size` 1, after lookups of 10.0.0.1 and 10.0.0.2, whose objects are
allocated at the addresses 100 and 200, and a second lookup of 10.0.0.1, a
lookup of 10.0.0.3 evicts 10.0.0.1, the address used last, where the least
recently used address is 10.0.0.2. -/
theorem FreeItem_evicts_least_pointer :
    (∀ (max_cache_size : Nat) (first : List Char × Nat) (rest : List (List Char × Nat)),
      ∃ victim, victim ∈ first :: rest ∧ (∀ e ∈ first :: rest, victim.2 ≤ e.2) ∧
        ConnectionsInfoManager.FreeItem ⟨max_cache_size, first :: rest⟩ =
          some ⟨max_cache_size, (first :: rest).erase victim⟩ ∧
        ((first :: rest).erase victim).length + 1 = (first :: rest).length) ∧
    ((ConnectionsInfoManager.init 1).lookups exCalls).map (fun m => m.connections_info) =
      some [("10.0.0.1".toList, 100), ("10.0.0.2".toList, 200)] ∧
    ((ConnectionsInfoManager.init 1).lookups
        (exCalls ++ [({ address := "10.0.0.3".toList, port := 9000 }, 300)])).map
        (fun m => m.connections_info) =
      some [("10.0.0.2".toList, 200), ("10.0.0.3".toList, 300)] ∧
    leastRecentlyUsed (exCalls.map fun c => c.1.address)
      ["10.0.0.1".toList, "10.0.0.2".toList] = some "10.0.0.2".toList := by
  refine ⟨fun max_cache_size first rest => ?_, by decide, by decide, by decide⟩
  obtain ⟨victim, h1, h2, h3, h4⟩ := FreeItem_cons max_cache_size first rest
  exact ⟨victim, h1, h2, h3, by rw [h4]; rfl⟩

/-- C27: `GetConnectionInfo` always returns, and the pointer it returns is the
entry of the cache under the address string of the endpoint after the call, so
the address is then present; if the address was present before, the entry
found is returned and the cache is unchanged; a second lookup of an endpoint
with the same address string, whatever its port, returns the same pointer and
leaves the cache as it is. -/
theorem GetConnectionInfo_keyed_by_address (m : ConnectionsInfoManager) (e e2 : NextEndpoint)
    (fresh fresh2 : Nat) :
    ∃ p m1, m.GetConnectionInfo e fresh = some (p, m1) ∧
      cacheFind e.address m1.connections_info = some p ∧
      (∀ q, cacheFind e.address m.connections_info = some q → p = q ∧ m1 = m) ∧
      (e2.address = e.address → m1.GetConnectionInfo e2 fresh2 = some (p, m1)) := by
  have hsecond : ∀ (p : Nat) (m1 : ConnectionsInfoManager),
      cacheFind e.address m1.connections_info = some p →
      e2.address = e.address → m1.GetConnectionInfo e2 fresh2 = some (p, m1) := by
    intro p m1 hfind haddr
    unfold ConnectionsInfoManager.GetConnectionInfo
    simp only [haddr, hfind]
  cases hf : cacheFind e.address m.connections_info with
  | some q =>
    refine ⟨q, m, ?_, hf, ?_, hsecond q m hf⟩
    · unfold ConnectionsInfoManager.GetConnectionInfo
      simp only [hf]
    · intro q2 hq2
      exact ⟨(Option.some.inj hq2), rfl⟩
  | none =>
    have hcall : ∃ m0 : ConnectionsInfoManager, m.GetConnectionInfo e fresh =
        some (fresh, { m0 with
          connections_info := cacheAssign e.address fresh m0.connections_info }) := by
      unfold ConnectionsInfoManager.GetConnectionInfo
      simp only [hf]
      split_ifs with hgt
      · obtain ⟨max, l⟩ := m
        cases l with
        | nil => simp at hgt
        | cons first rest =>
          obtain ⟨victim, _, _, hfree, _⟩ := FreeItem_cons max first rest
          rw [hfree]
          exact ⟨_, rfl⟩
      · exact ⟨m, rfl⟩
    obtain ⟨m0, hm0⟩ := hcall
    have hfind := cacheFind_cacheAssign_self e.address fresh m0.connections_info
    refine ⟨fresh, _, hm0, hfind, ?_, hsecond fresh _ hfind⟩
    intro q hq
    exact absurd hq (by simp)

theorem GetConnectionInfo_keyed_by_address_witness :
    ((ConnectionsInfoManager.init 1).lookups (exCalls.take 2)).map
        (fun m => (m.GetConnectionInfo { address := "10.0.0.1".toList, port := 9001 } 300).map
          fun r => r.1) = some (some 100) ∧
    ∃ p m1, (ConnectionsInfoManager.init 1).GetConnectionInfo
        { address := "10.0.0.1".toList, port := 9000 } 100 = some (p, m1) ∧
      cacheFind "10.0.0.1".toList m1.connections_info = some p ∧
      (∀ q, cacheFind "10.0.0.1".toList (ConnectionsInfoManager.init 1).connections_info =
        some q → p = q ∧ m1 = ConnectionsInfoManager.init 1) ∧
      ("10.0.0.1".toList = "10.0.0.1".toList →
        m1.GetConnectionInfo { address := "10.0.0.1".toList, port := 9001 } 300 =
          some (p, m1)) :=
  ⟨by decide,
    GetConnectionInfo_keyed_by_address (ConnectionsInfoManager.init 1)
      { address := "10.0.0.1".toList, port := 9000 }
      { address := "10.0.0.1".toList, port := 9001 } 100 300⟩

/-! ## Lemmas on the ACKs sent -/

theorem ackPayload_congr (E : Env) (st st2 : ConnectedState) (l : Bool) (a : Nat)
    (hr : st2.receiver = st.receiver) (hc : st2.connection_info = st.connection_info) :
    st2.ackPayload E l a = st.ackPayload E l a := by
  simp [ConnectedState.ackPayload, hr, hc]

/-- The cases of `AckTimerHandler`: with the timers stopped nothing happens;
otherwise the ACK timer is launched again on a timer fire, and the ACK is
built and sent unless it is suppressed. -/
theorem AckTimerHandler_cases (E : Env) (st : ConnectedState) (l : Bool) (now : Int) :
    (st.stop_timers = true → st.AckTimerHandler E l now = st) ∧
    (st.stop_timers = false →
      st.ackSuppressed l (E.AckNumber st.receiver st.sender.p_session.packet_seq_gen) now =
        true →
      st.AckTimerHandler E l now = st.LaunchAckTimer) ∧
    (st.stop_timers = false →
      st.ackSuppressed l (E.AckNumber st.receiver st.sender.p_session.packet_seq_gen) now =
        false →
      st.AckTimerHandler E l now =
        (if l then st else st.LaunchAckTimer).emitAck E l
          (E.AckNumber st.receiver st.sender.p_session.packet_seq_gen) now) := by
  refine ⟨fun hs => ?_, fun hs hsup => ?_, fun hs hsup => ?_⟩
  · simp [ConnectedState.AckTimerHandler, hs]
  · cases l with
    | true => simp [ConnectedState.ackSuppressed] at hsup
    | false => rw [AckTimerHandler_timer E st now hs, if_pos hsup]
  · cases l with
    | true => rw [AckTimerHandler_light E st now hs]; rfl
    | false =>
      rw [AckTimerHandler_timer E st now hs, if_neg (by simp [hsup])]
      rfl

/-- What `emitAck` sends and leaves, read on the state before the launch of
the ACK timer. -/
theorem emitAck_launched (E : Env) (st : ConnectedState) (l : Bool) (a : Nat) (now : Int) :
    ((if l then st else st.LaunchAckTimer).emitAck E l a now).sent = st.sent ++
      [(⟨ControlType.ACK, st.ack_seq_gen.current,
        some (toUInt32 ((E.StoreAck st.receiver st.ack_seq_gen.current a l
            now).last_ack_timestamp - st.start_timestamp),
          st.ackPayload E (l && decide (st.packet_received_since_light_ack ≥ 64)) a)⟩ :
        ControlPacket)] ∧
    ((if l then st else st.LaunchAckTimer).emitAck E l a now).ack_seq_gen =
      st.ack_seq_gen.Next.2 ∧
    ((if l then st else st.LaunchAckTimer).emitAck E l a now).receiver =
      { E.StoreAck st.receiver st.ack_seq_gen.current a l now with last_ack_number := a } := by
  obtain ⟨_, f2, _, f4, f5, f6, f7, f8, _⟩ := LaunchAckTimer_frame st
  cases l with
  | true => exact ⟨rfl, rfl, rfl⟩
  | false =>
    simp only [Bool.false_eq_true, if_false]
    refine ⟨?_, ?_, ?_⟩
    · simp only [ConnectedState.emitAck, f2, f5, f6, f7, f8, Bool.false_and,
        ackPayload_congr E st st.LaunchAckTimer false a f2 f4]
    · rw [(emitAck_frame E _ _ _ _).2.2.2.2.2.2.2.2.1, f5]
    · rw [(emitAck_frame E _ _ _ _).2.2.2.2.2.2.2.2.2, f2, f5]

theorem ackPayload_number (E : Env) (st : ConnectedState) (l : Bool) (a : Nat) :
    (st.ackPayload E l a).max_packet_sequence_number = a := by
  unfold ConnectedState.ackPayload
  split_ifs <;> rfl

/-- C28: every ACK packet `AckTimerHandler` sends with a full payload carries
as available buffer size the greater of 2 and
`receiver.AvailableReceiveBufferSize()`, hence at least 2; and the handler
does send such a packet when the timers run, the ACK is not suppressed and the
call is not the one of a light ACK after 64 datagrams. -/
theorem AckTimerHandler_buffer_floor (E : Env) (st : ConnectedState) (l : Bool) (now : Int) :
    (∃ new, (st.AckTimerHandler E l now).sent = st.sent ++ new ∧
      ∀ pkt ∈ new, ∀ ts a r v b s c, pkt.ack = some (ts, AckPayload.full a r v b s c) →
        b = max 2 (E.AvailableReceiveBufferSize st.receiver) ∧ 2 ≤ b) ∧
    (st.stop_timers = false →
      st.ackSuppressed l (E.AckNumber st.receiver st.sender.p_session.packet_seq_gen) now =
        false →
      (l && decide (st.packet_received_since_light_ack ≥ 64)) = false →
      ∃ ts a r v s c, (st.AckTimerHandler E l now).sent = st.sent ++
        [(⟨ControlType.ACK, st.ack_seq_gen.current,
          some (ts, AckPayload.full a r v (max 2 (E.AvailableReceiveBufferSize st.receiver))
            s c)⟩ : ControlPacket)]) := by
  obtain ⟨c1, c2, c3⟩ := AckTimerHandler_cases E st l now
  have hmax : (if E.AvailableReceiveBufferSize st.receiver < 2 then 2
      else E.AvailableReceiveBufferSize st.receiver) =
      max 2 (E.AvailableReceiveBufferSize st.receiver) := by
    split_ifs <;> omega
  constructor
  · by_cases hs : st.stop_timers = true
    · exact ⟨[], by rw [c1 hs]; simp, by simp⟩
    · have hs2 : st.stop_timers = false := by simpa using hs
      cases hsup : st.ackSuppressed l
          (E.AckNumber st.receiver st.sender.p_session.packet_seq_gen) now with
      | true =>
        exact ⟨[], by rw [c2 hs2 hsup, (LaunchAckTimer_frame st).2.2.2.2.2.1]; simp, by simp⟩
      | false =>
        refine ⟨_, by rw [c3 hs2 hsup]; exact (emitAck_launched E st l _ now).1, ?_⟩
        intro pkt hpkt ts a r v b s c hack
        rw [List.mem_singleton] at hpkt
        rw [hpkt] at hack
        simp only [ConnectedState.ackPayload, hmax, Option.some.injEq, Prod.mk.injEq] at hack
        split_ifs at hack with hl
        · exact absurd hack.2 (by simp)
        · have hb := hack.2
          simp only [AckPayload.full.injEq] at hb
          rw [← hb.2.2.2.1]
          exact ⟨rfl, le_max_left _ _⟩
  · intro hs hsup hfull
    refine ⟨toUInt32 ((E.StoreAck st.receiver st.ack_seq_gen.current
        (E.AckNumber st.receiver st.sender.p_session.packet_seq_gen) l now).last_ack_timestamp -
          st.start_timestamp),
      E.AckNumber st.receiver st.sender.p_session.packet_seq_gen,
      toUInt32 st.connection_info.rtt, toUInt32 st.connection_info.rtt_var,
      E.GetPacketArrivalSpeed st.receiver, E.GetEstimatedLinkCapacity st.receiver, ?_⟩
    rw [c3 hs hsup, (emitAck_launched E st l _ now).1, hfull]
    simp only [ConnectedState.ackPayload, Bool.false_eq_true, if_false, hmax]

theorem AckTimerHandler_buffer_floor_witness :
    exEnv.AvailableReceiveBufferSize
      { (exConnected (exSender 4) 100) with
        receiver := { exReceiver with available_buffer := 0 } }.receiver = 0 ∧
    ∃ ts a r v s c,
      ({ (exConnected (exSender 4) 100) with
          receiver := { exReceiver with available_buffer := 0 } }.AckTimerHandler exEnv false
            1000000).sent =
        [(⟨ControlType.ACK, 5, some (ts, AckPayload.full a r v 2 s c)⟩ : ControlPacket)] :=
  ⟨rfl,
    (AckTimerHandler_buffer_floor exEnv
      { (exConnected (exSender 4) 100) with
        receiver := { exReceiver with available_buffer := 0 } } false 1000000).2
      rfl (by decide) rfl⟩
theorem ackSeqs_append_ack (sent : List ControlPacket) (info : Nat)
    (ack : Option (Nat × AckPayload)) :
    ackSeqs (sent ++ [(⟨ControlType.ACK, info, ack⟩ : ControlPacket)]) =
      ackSeqs sent ++ [info] := by
  simp [ackSeqs, List.filter_append]

theorem ackSeqs_append_other (sent : List ControlPacket) (p : ControlPacket)
    (hp : p.type ≠ ControlType.ACK) : ackSeqs (sent ++ [p]) = ackSeqs sent := by
  simp [ackSeqs, List.filter_append, hp]

theorem AckStep_refl (st st2 : ConnectedState) (hsent : st2.sent = st.sent)
    (hgen : st2.ack_seq_gen = st.ack_seq_gen) : st.AckStep st2 :=
  Or.inl ⟨by rw [hsent], hgen⟩

theorem AckStep_trans_left (st st1 st2 : ConnectedState) (hsent : ackSeqs st1.sent = ackSeqs st.sent)
    (hgen : st1.ack_seq_gen = st.ack_seq_gen) (h : st1.AckStep st2) : st.AckStep st2 := by
  unfold ConnectedState.AckStep at h ⊢
  rw [hsent, hgen] at h
  exact h

theorem AckOrder_step (st st2 : ConnectedState) (h : st.AckStep st2) (ho : st.AckOrder) :
    st2.AckOrder := by
  unfold ConnectedState.AckOrder at ho ⊢
  rcases h with ⟨h1, h2⟩ | ⟨h1, h2⟩
  · rw [h1, h2]; exact ho
  · rw [h1, h2]
    refine List.Chain'.append ho (List.chain'_singleton _) ?_
    intro x hx y hy
    simp at hx hy
    rw [← hx, ← hy]

theorem AckTimerHandler_AckStep (E : Env) (st : ConnectedState) (l : Bool) (now : Int) :
    st.AckStep (st.AckTimerHandler E l now) := by
  obtain ⟨c1, c2, c3⟩ := AckTimerHandler_cases E st l now
  by_cases hs : st.stop_timers = true
  · rw [c1 hs]; exact AckStep_refl st st rfl rfl
  · have hs2 : st.stop_timers = false := by simpa using hs
    cases hsup : st.ackSuppressed l
        (E.AckNumber st.receiver st.sender.p_session.packet_seq_gen) now with
    | true =>
      rw [c2 hs2 hsup]
      exact AckStep_refl st _ (LaunchAckTimer_frame st).2.2.2.2.2.1
        (LaunchAckTimer_frame st).2.2.2.2.1
    | false =>
      rw [c3 hs2 hsup]
      obtain ⟨e1, e2, _⟩ := emitAck_launched E st l
        (E.AckNumber st.receiver st.sender.p_session.packet_seq_gen) now
      exact Or.inr ⟨by rw [e1, ackSeqs_append_ack], by rw [e2]; rfl⟩

theorem OnDataDgr_AckStep (E : Env) (st : ConnectedState) (d : DataDatagram) (now : Int) :
    st.AckStep (st.OnDataDgr E d now) := by
  obtain ⟨_, c2, _, c4, _⟩ := countDataDgr_frame E st d now
  unfold ConnectedState.OnDataDgr
  simp only []
  split_ifs
  · exact AckStep_trans_left st _ _ (by rw [c2]) c4 (AckTimerHandler_AckStep E _ true now)
  · exact AckStep_refl st _ c2 c4

theorem OnControlDgr_AckStep (E : Env) (st : ConnectedState) (dgr : ControlDatagram)
    (now : Int) : st.AckStep (st.OnControlDgr E dgr now) := by
  have hr : ∀ w, (st.ResetExp E w now).sent = st.sent ∧
      (st.ResetExp E w now).ack_seq_gen = st.ack_seq_gen := fun w =>
    ⟨(ResetExp_frame E st w now).2.1, (ResetExp_frame E st w now).2.2.2.1⟩
  unfold ConnectedState.OnControlDgr
  cases hf : dgr.flags with
  | KEEP_ALIVE => exact AckStep_refl st _ (hr false).1 (hr false).2
  | ACK =>
    obtain ⟨_, _, f3, f4, _⟩ := OnAck_frame E (st.ResetExp E true now)
      ⟨dgr.additional_info, dgr.ack_payload⟩
    refine Or.inl ⟨?_, f3.trans (hr true).2⟩
    simp only []
    rw [f4, ackSeqs_append_other _ _ (by simp), (hr true).1]
  | NACK =>
    obtain ⟨_, _, f3, f4, _⟩ := OnNAck_frame E (st.ResetExp E true now) dgr.loss_packets
    exact AckStep_refl st _ (f4.trans (hr true).1) (f3.trans (hr true).2)
  | SHUTDOWN => exact AckStep_refl st _ (hr false).1 (hr false).2
  | ACK_OF_ACK =>
    obtain ⟨_, _, f3, f4, _⟩ := OnAckOfAck_frame E (st.ResetExp E false now)
      dgr.additional_info now
    exact AckStep_refl st _ (f4.trans (hr false).1) (f3.trans (hr false).2)
  | MESSAGE_DROP_REQUEST => exact AckStep_refl st _ (hr false).1 (hr false).2
  | other c => exact AckStep_refl st _ rfl rfl

theorem LaunchExpTimer_frame (E : Env) (st : ConnectedState) :
    (st.LaunchExpTimer E).sent = st.sent ∧
    (st.LaunchExpTimer E).ack_seq_gen = st.ack_seq_gen := by
  unfold ConnectedState.LaunchExpTimer
  split_ifs <;> exact ⟨rfl, rfl⟩

theorem ExpTimerHandler_AckStep (E : Env) (st : ConnectedState) (ec : Bool) (now : Int) :
    st.AckStep (st.ExpTimerHandler E ec now) := by
  by_cases hs : st.stop_timers = true
  · refine AckStep_refl st _ ?_ ?_ <;> simp [ConnectedState.ExpTimerHandler, hs]
  · have hs2 : st.stop_timers = false := by simpa using hs
    cases ec with
    | true =>
      have hcall : st.ExpTimerHandler E true now = st.LaunchExpTimer E := by
        simp [ConnectedState.ExpTimerHandler, hs2]
      rw [hcall]
      exact AckStep_refl st _ (LaunchExpTimer_frame E st).1 (LaunchExpTimer_frame E st).2
    | false =>
      obtain ⟨s1, _, heq⟩ := ExpTimerHandler_cases E st now hs2
      rw [heq]
      split_ifs
      · exact AckStep_refl st _ rfl rfl
      · exact Or.inl ⟨ackSeqs_append_other _ _ (by simp), rfl⟩
      · exact AckStep_refl st _ rfl rfl

theorem Stop_AckStep (E : Env) (st : ConnectedState) : st.AckStep (st.Stop E).1 :=
  Or.inl ⟨ackSeqs_append_other _ _ (by simp), rfl⟩

theorem handle_AckStep (E : Env) (st : ConnectedState) (ev : ConnectedEvent) :
    st.AckStep (st.handle E ev) := by
  cases ev with
  | dataDgr d now => exact OnDataDgr_AckStep E st d now
  | controlDgr dgr now => exact OnControlDgr_AckStep E st dgr now
  | ackTimer now => exact AckTimerHandler_AckStep E st false now
  | expTimer ec now => exact ExpTimerHandler_AckStep E st ec now
  | stop => exact Stop_AckStep E st

theorem run_AckOrder (E : Env) (evs : List ConnectedEvent) (st : ConnectedState)
    (ho : st.AckOrder) : (st.run E evs).AckOrder := by
  induction evs generalizing st with
  | nil => exact ho
  | cons ev evs ih => exact ih _ (AckOrder_step st _ (handle_AckStep E st ev) ho)
/-- C29: whenever `AckTimerHandler` sends an ACK, light or full, the ACK has
as additional info the current value of the ack sequence generator of the
session, the generator is advanced by `Inc`, the packet number of the payload
is the ack number `a` of the receiver, and `StoreAck` is called with that
value of the generator and `a`, the pair sent; when it sends nothing the
generator is left alone.  Hence, over every series of events of the connected
state, the ack sequence numbers of the ACKs sent, followed by the next value
of the generator, go from each to the next by `Inc`. -/
theorem AckTimerHandler_ack_seq_order (E : Env) (st : ConnectedState)
    (evs : List ConnectedEvent) (ho : st.AckOrder) :
    (∀ (l : Bool) (now : Int) (a : Nat),
      a = E.AckNumber st.receiver st.sender.p_session.packet_seq_gen →
      ((st.stop_timers = true ∨ st.ackSuppressed l a now = true) →
        (st.AckTimerHandler E l now).sent = st.sent ∧
        (st.AckTimerHandler E l now).ack_seq_gen = st.ack_seq_gen) ∧
      (st.stop_timers = false → st.ackSuppressed l a now = false →
        ∃ ts payload,
          (st.AckTimerHandler E l now).sent = st.sent ++
            [(⟨ControlType.ACK, st.ack_seq_gen.current, some (ts, payload)⟩ : ControlPacket)] ∧
          payload.max_packet_sequence_number = a ∧
          (st.AckTimerHandler E l now).ack_seq_gen.current = Inc st.ack_seq_gen.current ∧
          (st.AckTimerHandler E l now).receiver =
            { E.StoreAck st.receiver st.ack_seq_gen.current a l now with
              last_ack_number := a })) ∧
    List.Chain' (fun a b => b = Inc a)
      (ackSeqs (st.run E evs).sent ++ [(st.run E evs).ack_seq_gen.current]) ∧
    List.Chain' (fun a b => b = Inc a) (ackSeqs (st.run E evs).sent) := by
  have hrun := run_AckOrder E evs st ho
  refine ⟨fun l now a ha => ⟨fun hno => ?_, fun hs hsup => ?_⟩, hrun,
    List.Chain'.left_of_append hrun⟩
  · subst ha
    obtain ⟨c1, c2, _⟩ := AckTimerHandler_cases E st l now
    by_cases hs : st.stop_timers = true
    · rw [c1 hs]; exact ⟨rfl, rfl⟩
    · have hs2 : st.stop_timers = false := by simpa using hs
      rcases hno with hno | hno
      · exact absurd hno hs
      · rw [c2 hs2 hno]
        exact ⟨(LaunchAckTimer_frame st).2.2.2.2.2.1, (LaunchAckTimer_frame st).2.2.2.2.1⟩
  · subst ha
    obtain ⟨_, _, c3⟩ := AckTimerHandler_cases E st l now
    obtain ⟨e1, e2, e3⟩ := emitAck_launched E st l
      (E.AckNumber st.receiver st.sender.p_session.packet_seq_gen) now
    rw [c3 hs hsup]
    exact ⟨_, _, e1, ackPayload_number E st _ _, by rw [e2]; rfl, e3⟩

theorem AckTimerHandler_ack_seq_order_witness :
    (exConnected (exSender 4) 100).AckOrder ∧
    ackSeqs ((exConnected (exSender 4) 100).run exEnv exEvents).sent = [5, 6] ∧
    ((exConnected (exSender 4) 100).run exEnv exEvents).ack_seq_gen.current = 7 ∧
    List.Chain' (fun a b => b = Inc a)
      (ackSeqs ((exConnected (exSender 4) 100).run exEnv exEvents).sent) :=
  ⟨List.chain'_singleton _, by decide, by decide,
    (AckTimerHandler_ack_seq_order exEnv (exConnected (exSender 4) 100) exEvents
      (List.chain'_singleton _)).2.2⟩

/-! ## Claims on stopping the connected state -/

theorem closeLoop_closed_form (fuel : Nat) (q : WriteOpsQueue)
    (done : List (WriteOp × Completion)) (hf : q.ops.length < fuel) :
    closeLoop fuel q done =
      ({ q with ops := [] },
        done ++ q.ops.map fun w =>
          (w, { ec := ErrorCode.operation_canceled, bytes_transferred := 0 })) := by
  induction fuel generalizing q done with
  | zero => omega
  | succ n ih =>
    obtain ⟨ops, closed⟩ := q
    cases ops with
    | nil => simp [closeLoop, WriteOpsQueue.get]
    | cons w rest =>
      simp only [closeLoop, WriteOpsQueue.get]
      rw [ih _ _ (by simp only [List.length_cons] at hf ⊢; omega)]
      simp

theorem Sender_Stop_closed_form (s : Sender) :
    s.Stop =
      ({ s with unqueue_write_op := false, write_ops_queue := { ops := [], closed := true } },
        s.write_ops_queue.ops.map fun w =>
          (w, { ec := ErrorCode.operation_canceled, bytes_transferred := 0 })) := by
  unfold Sender.Stop Sender.CloseWriteOpsQueue Sender.StopUnqueueWriteOp
  simp only []
  rw [closeLoop_closed_form _ _ _ (Nat.lt_succ_self _)]
  simp [WriteOpsQueue.close]

/-- C30: `ConnectedState::Stop` completes every write operation waiting in the
queue of the sender, in order, with `operation_canceled` and 0 bytes, and
leaves the queue empty and closed.  It is `CloseConnection` run on the state
`StopServices` leaves: in that state the unqueue flag of the sender is already
cleared and `OnClose` of the congestion control has not been invoked yet; it
is invoked once by `CloseConnection`.  A write operation pushed after `Stop`
is refused by the queue, which is left as it is, and is completed with the
error of the queue and 0 bytes. -/
theorem Stop_cancels_pending_writes (E : Env) (st : ConnectedState) (write_op : WriteOp)
    (hec : E.push_closed_error ≠ ErrorCode.success) :
    (st.Stop E).2 = st.sender.write_ops_queue.ops.map (fun w =>
      (w, { ec := ErrorCode.operation_canceled, bytes_transferred := 0 })) ∧
    (st.Stop E).1.sender.write_ops_queue = { ops := [], closed := true } ∧
    (st.Stop E).1 = (st.StopTimers.StopServices E).1.CloseConnection E ∧
    (st.StopTimers.StopServices E).1.sender.unqueue_write_op = false ∧
    (st.StopTimers.StopServices E).1.cc_events = st.cc_events ∧
    (st.Stop E).1.cc_events = st.cc_events ++ [CCEvent.OnClose] ∧
    (st.Stop E).1.sender.unqueue_write_op = false ∧
    (st.Stop E).1.PushWriteOp E write_op =
      ((st.Stop E).1,
        some (write_op, { ec := E.push_closed_error, bytes_transferred := 0 })) := by
  have hstop := Sender_Stop_closed_form st.sender
  have hserv : st.StopTimers.StopServices E =
      ({ st.StopTimers with
          sender := { st.sender with
            unqueue_write_op := false, write_ops_queue := { ops := [], closed := true } }
          receiver := E.ReceiverStop st.receiver },
        st.sender.write_ops_queue.ops.map fun w =>
          (w, { ec := ErrorCode.operation_canceled, bytes_transferred := 0 })) := by
    unfold ConnectedState.StopServices
    simp only []
    have hs : st.StopTimers.sender = st.sender := rfl
    rw [hs, hstop]
    rfl
  have hq : (st.Stop E).1.sender.write_ops_queue = { ops := [], closed := true } := by
    unfold ConnectedState.Stop
    simp only [hserv]
    rfl
  refine ⟨?_, hq, rfl, ?_, ?_, ?_, ?_, ?_⟩
  · unfold ConnectedState.Stop
    simp only [hserv]
  · rw [hserv]
  · rw [hserv]; rfl
  · unfold ConnectedState.Stop
    simp only [hserv]
    rfl
  · unfold ConnectedState.Stop
    simp only [hserv]
    rfl
  · unfold ConnectedState.PushWriteOp Sender.PushWriteOp
    simp only [hq, WriteOpsQueue.push, if_true, hec, ne_eq, not_false_eq_true]
    have hsame : { (st.Stop E).1.sender with write_ops_queue := { ops := [], closed := true } } =
        (st.Stop E).1.sender := by
      rw [← hq]
    rw [hsame]

theorem Stop_cancels_pending_writes_witness :
    exEnv.push_closed_error ≠ ErrorCode.success ∧
    ((exConnected exPending 100).Stop exEnv).2.map (fun c => (c.1.id, c.2.ec, c.2.bytes_transferred)) =
      [(1, ErrorCode.operation_canceled, 0), (2, ErrorCode.operation_canceled, 0)] ∧
    ((exConnected exPending 100).Stop exEnv).1.sender.write_ops_queue =
      { ops := [], closed := true } ∧
    (((exConnected exPending 100).Stop exEnv).1.PushWriteOp exEnv
      { id := 3, const_buffers := [4] }).2 =
      some ({ id := 3, const_buffers := [4] },
        { ec := ErrorCode.connection_aborted, bytes_transferred := 0 }) :=
  have h := Stop_cancels_pending_writes exEnv (exConnected exPending 100)
    { id := 3, const_buffers := [4] } (by decide)
  ⟨by decide, by rw [h.1]; rfl, h.2.1, by rw [h.2.2.2.2.2.2.2]; rfl⟩

/-! ## Claims on retransmission and on the map of packets in flight -/

/-- C31: when the smallest element `x` of the loss set is a key of the map of
packets in flight whose datagram `d` is not acknowledged, `NextScheduledPacket`
returns `d` as it is stored, sequence number and payload included, and the
state after the call is the state before it but for the loss set, which loses
`x`, and the next sending time: the packet sequence generator, the queue
`packets_to_send_`, the map with its keys and entries, the congestion control
data and the queue of write operations are unchanged. -/
theorem NextScheduledPacket_retransmission_frame (s : Sender) (e : Nat) (g : Int) (x : Nat)
    (rest : List Nat) (d : SendDatagram) (hl : s.loss_packets = x :: rest)
    (hf : mapFind x s.nack_packets = some d) (ha : d.acked = false) :
    (NextScheduledPacket s e g).1 = some d ∧
    (NextScheduledPacket s e g).2 =
      { s with
        loss_packets := setErase x s.loss_packets
        next_sending_packet_time := (NextScheduledPacket s e g).2.next_sending_packet_time } ∧
    (NextScheduledPacket s e g).2.p_session.packet_seq_gen = s.p_session.packet_seq_gen ∧
    (NextScheduledPacket s e g).2.packets_to_send = s.packets_to_send ∧
    (NextScheduledPacket s e g).2.nack_packets = s.nack_packets ∧
    mapFind x (NextScheduledPacket s e g).2.nack_packets = some d ∧
    (NextScheduledPacket s e g).2.loss_packets = setErase x s.loss_packets ∧
    (s.loss_packets.Pairwise (fun a b => a < b) →
      (NextScheduledPacket s e g).2.loss_packets = rest ∧ ∀ y ∈ s.loss_packets, x ≤ y) := by
  have hcall : NextScheduledPacket s e g =
      (some d, UpdateNextSendingPacketTime
        { s with loss_packets := setErase x s.loss_packets } d g) := by
    simp [NextScheduledPacket, hl, hf, ha]
  rw [hcall]
  refine ⟨rfl, rfl, rfl, rfl, rfl, hf, rfl, fun hs => ⟨?_, ?_⟩⟩
  · show setErase x s.loss_packets = rest
    rw [hl] at hs ⊢
    exact setErase_head_of_sorted x rest hs
  · intro y hy
    rw [hl] at hs hy
    rcases List.mem_cons.mp hy with h | h
    · exact le_of_eq h.symm
    · exact le_of_lt (List.rel_of_pairwise_cons hs h)

theorem NextScheduledPacket_retransmission_frame_witness :
    exLossy.loss_packets = [3, 5] ∧
    (NextScheduledPacket exLossy 0 0).1 =
      some { exDatagram with payload := [1], header := { exDatagram.header with
        packet_sequence_number := 3 } } ∧
    (NextScheduledPacket exLossy 0 0).2.loss_packets = [5] ∧
    (NextScheduledPacket exLossy 0 0).2.nack_packets = exLossy.nack_packets ∧
    (NextScheduledPacket exLossy 0 0).2.packets_to_send = exLossy.packets_to_send ∧
    (NextScheduledPacket exLossy 0 0).2.p_session.packet_seq_gen =
      exLossy.p_session.packet_seq_gen :=
  have h := NextScheduledPacket_retransmission_frame exLossy 0 0 3 [5]
    { exDatagram with payload := [1], header := { exDatagram.header with
      packet_sequence_number := 3 } } rfl (by decide) rfl
  ⟨rfl, h.1, (h.2.2.2.2.2.2.2 (by decide)).1, h.2.2.2.2.1, h.2.2.2.1, h.2.2.1⟩

/-! ## The NAK loop with its index -/

/-- The bounded range loop exits by its condition within `SEQ_MOD` tests and
gives what `rangeLoop` gives. -/
theorem rangeLoopBounded_eq (second_range : Nat) (hl : second_range < SEQ_MOD) :
    ∀ (d fuel j : Nat) (loss : List Nat), j < SEQ_MOD →
      (second_range + SEQ_MOD - j) % SEQ_MOD = d → d < fuel →
      rangeLoopBounded fuel j second_range loss = some (rangeLoop d j second_range loss) := by
  intro d
  induction d with
  | zero =>
    intro fuel j loss hj hd hfuel
    have hjl : j = second_range := by
      unfold SEQ_MOD at *
      omega
    cases fuel with
    | zero => omega
    | succ n => simp [rangeLoopBounded, rangeLoop, hjl]
  | succ d ih =>
    intro fuel j loss hj hd hfuel
    have hne : j ≠ second_range := by
      intro h
      rw [h] at hd
      unfold SEQ_MOD at *
      omega
    cases fuel with
    | zero => omega
    | succ n =>
      have hInc : Inc j < SEQ_MOD := by
        unfold Inc SEQ_MOD
        omega
      have hd2 : (second_range + SEQ_MOD - Inc j) % SEQ_MOD = d := by
        unfold Inc SEQ_MOD at *
        omega
      simp only [rangeLoopBounded, rangeLoop, bne_iff_ne, ne_eq, hne, not_false_eq_true,
        if_true]
      exact ih n (Inc j) (setInsert j loss) hInc hd2 (by omega)
theorem nackLoop_single (x : Nat) (t loss : List Nat) (h : IsInterval x = false) :
    nackLoop (x :: t) loss = nackLoop t (setInsert (GetPacketSequenceValue x) loss) := by
  cases t with
  | nil => simp [nackLoop, h]
  | cons y t => simp [nackLoop, h]

theorem nackLoop_start_last (x : Nat) (loss : List Nat) (h : IsInterval x = true) :
    nackLoop [x] loss = loss := by
  simp [nackLoop, h]

theorem nackLoop_start_start (x y : Nat) (t loss : List Nat) (hx : IsInterval x = true)
    (hy : IsInterval y = true) : nackLoop (x :: y :: t) loss = nackLoop t loss := by
  simp [nackLoop, hx, hy]

theorem nackLoop_range (x y : Nat) (t loss : List Nat) (hx : IsInterval x = true)
    (hy : IsInterval y = false) :
    nackLoop (x :: y :: t) loss =
      nackLoop t (rangeLoop SEQ_MOD (GetPacketSequenceValue x) (GetPacketSequenceValue y)
        loss) := by
  simp [nackLoop, hx, hy]

theorem rangeLoopBounded_masked (x y : Nat) (loss : List Nat) :
    rangeLoopBounded SEQ_MOD (GetPacketSequenceValue x) (GetPacketSequenceValue y) loss =
      some (rangeLoop SEQ_MOD (GetPacketSequenceValue x) (GetPacketSequenceValue y) loss) := by
  have hx := GetPacketSequenceValue_lt x
  have hy := GetPacketSequenceValue_lt y
  have hd : (GetPacketSequenceValue y + SEQ_MOD - GetPacketSequenceValue x) % SEQ_MOD <
      SEQ_MOD := Nat.mod_lt _ (by unfold SEQ_MOD; omega)
  rw [rangeLoopBounded_eq _ hy _ SEQ_MOD _ loss hx rfl hd,
    (rangeLoop_spec _ hy _ SEQ_MOD _ loss hx rfl (le_of_lt hd)).1]

theorem bit31_clear_of_lt (y : Nat) (h : y < SEQ_MOD) : IsInterval y = false := by
  unfold IsInterval
  have h2 : y < 2 ^ 31 := h
  have h3 : y &&& 0x80000000 = 0 := by
    have : (0x80000000 : Nat) = 2 ^ 31 := by norm_num
    rw [this, Nat.and_two_pow, Nat.testBit_lt_two_pow h2]
    rfl
  simp [h3]
/-- The loop with its index reads inside the bounds, ends, and gives what the
loop over the remaining elements gives. -/
theorem nackIndexLoop_eq (l : List Nat) (hlen : l.length + 1 < 4294967296) :
    ∀ (n i : Nat) (loss : List Nat), i ≤ l.length + 1 → l.length ≤ n + i →
      nackIndexLoop (n + 1) l i loss = Except.ok (nackLoop (l.drop i) loss) := by
  intro n
  induction n with
  | zero =>
    intro i loss _ hn
    have hge : ¬ i < l.length := by omega
    have hdrop : l.drop i = [] := List.drop_eq_nil_of_le (by omega)
    simp only [nackIndexLoop, hge, if_false, hdrop, nackLoop]
  | succ n ih =>
    intro i loss hi hn
    by_cases hlt : i < l.length
    · have hget : l[i]? = some l[i] := List.getElem?_eq_getElem hlt
      have hdrop : l.drop i = l[i] :: l.drop (i + 1) := List.drop_eq_getElem_cons hlt
      have hmod1 : (i + 1) % 4294967296 = i + 1 := Nat.mod_eq_of_lt (by omega)
      have hmod2 : (i + 1 + 1) % 4294967296 = i + 2 := Nat.mod_eq_of_lt (by omega)
      unfold nackIndexLoop
      simp only [hlt, if_true, hget, hdrop, hmod1, hmod2]
      cases hx : IsInterval l[i] with
      | false =>
        simp only [Bool.false_eq_true, if_false]
        rw [ih (i + 1) _ (by omega) (by omega), nackLoop_single _ _ _ hx]
      | true =>
        simp only [if_true]
        by_cases hlt1 : i + 1 < l.length
        · have hget1 : l[i + 1]? = some l[i + 1] := List.getElem?_eq_getElem hlt1
          have hdrop1 : l.drop (i + 1) = l[i + 1] :: l.drop (i + 2) :=
            List.drop_eq_getElem_cons hlt1
          simp only [hlt1, if_true, hget1, hdrop1]
          cases hy : IsInterval l[i + 1] with
          | false =>
            simp only [Bool.not_false, if_true, rangeLoopBounded_masked]
            rw [ih (i + 2) _ (by omega) (by omega), nackLoop_range _ _ _ _ hx hy]
          | true =>
            simp only [Bool.not_true, Bool.false_eq_true, if_false]
            rw [ih (i + 2) _ (by omega) (by omega), nackLoop_start_start _ _ _ _ hx hy]
        · have hdrop1 : l.drop (i + 1) = [] := List.drop_eq_nil_of_le (by omega)
          have hdrop2 : l.drop (i + 2) = [] := List.drop_eq_nil_of_le (by omega)
          simp only [hlt1, if_false, hdrop1]
          rw [ih (i + 2) _ (by omega) (by omega), hdrop2, nackLoop_start_last _ _ hx]
          simp [nackLoop]
    · have hdrop : l.drop i = [] := List.drop_eq_nil_of_le (by omega)
      simp only [nackIndexLoop, hlt, if_false, hdrop, nackLoop]

/-- Every sequence number the NAK loop adds to the loss set is below 2^31. -/
theorem nackLoop_mem_lt : ∀ (n : Nat) (l loss : List Nat), l.length ≤ n →
    ∀ y ∈ nackLoop l loss, y ∈ loss ∨ y < SEQ_MOD := by
  intro n
  induction n with
  | zero =>
    intro l loss hl y hy
    have : l = [] := List.length_eq_zero.mp (by omega)
    rw [this] at hy
    exact Or.inl (by simpa [nackLoop] using hy)
  | succ n ih =>
    intro l loss hl y hy
    cases l with
    | nil => exact Or.inl (by simpa [nackLoop] using hy)
    | cons x t =>
      simp only [List.length_cons] at hl
      cases hx : IsInterval x with
      | false =>
        rw [nackLoop_single _ _ _ hx] at hy
        rcases ih t _ (by omega) y hy with h | h
        · rcases (mem_setInsert _ _ _).mp h with h2 | h2
          · exact Or.inr (h2 ▸ GetPacketSequenceValue_lt x)
          · exact Or.inl h2
        · exact Or.inr h
      | true =>
        cases t with
        | nil =>
          rw [nackLoop_start_last _ _ hx] at hy
          exact Or.inl hy
        | cons z t =>
          simp only [List.length_cons] at hl
          cases hz : IsInterval z with
          | true =>
            rw [nackLoop_start_start _ _ _ _ hx hz] at hy
            exact ih t _ (by omega) y hy
          | false =>
            rw [nackLoop_range _ _ _ _ hx hz] at hy
            rcases ih t _ (by omega) y hy with h | h
            · have hd : (GetPacketSequenceValue z + SEQ_MOD - GetPacketSequenceValue x) %
                  SEQ_MOD < SEQ_MOD := Nat.mod_lt _ (by unfold SEQ_MOD; omega)
              rcases ((rangeLoop_spec _ (GetPacketSequenceValue_lt z) _ SEQ_MOD _ loss
                (GetPacketSequenceValue_lt x) rfl (le_of_lt hd)).2 y).mp h with h2 | ⟨i, _, h2⟩
              · exact Or.inl h2
              · exact Or.inr (h2 ▸ Nat.mod_lt _ (by unfold SEQ_MOD; omega))
            · exact Or.inr h

theorem UpdateLossListFromNackDgr_loss (s : Sender) (l : List Nat) :
    (UpdateLossListFromNackDgr s l).loss_packets = nackLoop l s.loss_packets := by
  unfold UpdateLossListFromNackDgr
  simp only []
  split_ifs <;> rfl

/-- C33: for every NAK loss list that a `uint32_t` index can walk, the loop of
`UpdateLossListFromNackDgr`, run with its index and with every read checked,
returns within `length + 1` tests of its condition, without a read outside the
list and with every range loop ended by its own condition, and its result is
the loss set of `UpdateLossListFromNackDgr`.  A range start that is the last
element, or that is followed by an element with bit 31 set, inserts nothing
(the element after it is skipped), and every sequence number of the loss set
after the call that was not in it before has bit 31 clear. -/
theorem UpdateLossListFromNackDgr_total (s : Sender) (nack_loss_list : List Nat) (fuel : Nat)
    (hlen : nack_loss_list.length + 1 < 4294967296) (hfuel : nack_loss_list.length < fuel) :
    nackIndexLoop fuel nack_loss_list 0 s.loss_packets =
      Except.ok (UpdateLossListFromNackDgr s nack_loss_list).loss_packets ∧
    (∀ y ∈ (UpdateLossListFromNackDgr s nack_loss_list).loss_packets,
      y ∈ s.loss_packets ∨ (y < 2147483648 ∧ IsInterval y = false)) ∧
    (∀ x loss, IsInterval x = true → nackLoop [x] loss = loss) ∧
    (∀ x y rest loss, IsInterval x = true → IsInterval y = true →
      nackLoop (x :: y :: rest) loss = nackLoop rest loss) := by
  refine ⟨?_, ?_, fun x loss hx => nackLoop_start_last x loss hx,
    fun x y rest loss hx hy => nackLoop_start_start x y rest loss hx hy⟩
  · obtain ⟨n, rfl⟩ : ∃ n, fuel = n + 1 := ⟨fuel - 1, by omega⟩
    rw [nackIndexLoop_eq nack_loss_list hlen n 0 _ (by omega) (by omega),
      UpdateLossListFromNackDgr_loss]
    rfl
  · intro y hy
    rw [UpdateLossListFromNackDgr_loss] at hy
    rcases nackLoop_mem_lt _ nack_loss_list _ (le_refl _) y hy with h | h
    · exact Or.inl h
    · exact Or.inr ⟨h, bit31_clear_of_lt y h⟩

theorem UpdateLossListFromNackDgr_total_witness :
    nackIndexLoop 7 [0x80000005, 7, 0x80000009, 0x8000000B, 12, 0x8000000D] 0 [] =
      Except.ok [5, 6, 12] ∧
    (UpdateLossListFromNackDgr (exSender 4)
      [0x80000005, 7, 0x80000009, 0x8000000B, 12, 0x8000000D]).loss_packets = [5, 6, 12] :=
  ⟨(UpdateLossListFromNackDgr_total (exSender 4)
    [0x80000005, 7, 0x80000009, 0x8000000B, 12, 0x8000000D] 7 (by decide) (by decide)).1,
    by decide⟩

/-! ## The connected state after `StopTimers` -/

theorem Timer_cancel_cancel (t : Timer) : t.cancel.cancel = t.cancel := rfl

theorem ResetExp_timers (E : Env) (st : ConnectedState) (w : Bool) (now : Int) :
    (st.ResetExp E w now).ack_timer = st.ack_timer ∧
    (st.ResetExp E w now).nack_timer = st.nack_timer ∧
    ((st.ResetExp E w now).exp_timer = st.exp_timer ∨
      (st.ResetExp E w now).exp_timer = st.exp_timer.cancel) := by
  unfold ConnectedState.ResetExp
  simp only []
  split_ifs
  · exact ⟨rfl, rfl, Or.inr rfl⟩
  · exact ⟨rfl, rfl, Or.inl rfl⟩

theorem countDataDgr_timers (E : Env) (st : ConnectedState) (d : DataDatagram) (now : Int) :
    (st.countDataDgr E d now).ack_timer = st.ack_timer ∧
    (st.countDataDgr E d now).nack_timer = st.nack_timer ∧
    ((st.countDataDgr E d now).exp_timer = st.exp_timer ∨
      (st.countDataDgr E d now).exp_timer = st.exp_timer.cancel) := by
  obtain ⟨r1, r2, r3⟩ := ResetExp_timers E st false now
  unfold ConnectedState.countDataDgr
  simp only []
  split_ifs <;> exact ⟨r1, r2, r3⟩

theorem OnAck_timers (E : Env) (st : ConnectedState) (d : AckDatagram) :
    (st.OnAck E d).ack_timer = st.ack_timer ∧ (st.OnAck E d).nack_timer = st.nack_timer := by
  unfold ConnectedState.OnAck
  simp only []
  split_ifs <;> exact ⟨rfl, rfl⟩

theorem OnNAck_timers (E : Env) (st : ConnectedState) (l : List Nat) :
    (st.OnNAck E l).ack_timer = st.ack_timer ∧ (st.OnNAck E l).nack_timer = st.nack_timer := by
  unfold ConnectedState.OnNAck
  simp only []
  split_ifs <;> exact ⟨rfl, rfl⟩

theorem OnAckOfAck_timers (E : Env) (st : ConnectedState) (a : Nat) (now : Int) :
    (st.OnAckOfAck E a now).ack_timer = st.ack_timer ∧
    (st.OnAckOfAck E a now).nack_timer = st.nack_timer := by
  unfold ConnectedState.OnAckOfAck
  simp only []
  cases (E.AckAck st.receiver a now).1 with
  | none => exact ⟨rfl, rfl⟩
  | some r =>
    simp only []
    split_ifs <;> exact ⟨rfl, rfl⟩

/-- With the timers stopped both timer handlers return at once. -/
theorem handlers_stopped (E : Env) (st : ConnectedState) (hs : st.stop_timers = true)
    (l ec : Bool) (now : Int) :
    st.AckTimerHandler E l now = st ∧ st.ExpTimerHandler E ec now = st := by
  constructor
  · exact (AckTimerHandler_cases E st l now).1 hs
  · simp [ConnectedState.ExpTimerHandler, hs]

theorem OnDataDgr_stopped (E : Env) (st : ConnectedState) (hs : st.stop_timers = true)
    (d : DataDatagram) (now : Int) : st.OnDataDgr E d now = st.countDataDgr E d now := by
  have hc : (st.countDataDgr E d now).stop_timers = true :=
    (countDataDgr_frame E st d now).1.trans hs
  unfold ConnectedState.OnDataDgr
  simp only []
  split_ifs
  · exact (handlers_stopped E _ hc true false now).1
  · rfl

theorem handle_QuietStep (E : Env) (st : ConnectedState) (hs : st.stop_timers = true)
    (ev : ConnectedEvent) : st.QuietStep (st.handle E ev) := by
  cases ev with
  | dataDgr d now =>
    obtain ⟨c1, c2, _, c4, _⟩ := countDataDgr_frame E st d now
    obtain ⟨t1, t2, t3⟩ := countDataDgr_timers E st d now
    show st.QuietStep (st.OnDataDgr E d now)
    rw [OnDataDgr_stopped E st hs d now]
    exact ⟨c1.trans hs, c4, Or.inl t1, Or.inl t2, t3, Or.inl c2⟩
  | controlDgr dgr now =>
    show st.QuietStep (st.OnControlDgr E dgr now)
    have hr : ∀ w, (st.ResetExp E w now).stop_timers = true ∧
        (st.ResetExp E w now).ack_seq_gen = st.ack_seq_gen ∧
        (st.ResetExp E w now).sent = st.sent := fun w =>
      ⟨(ResetExp_frame E st w now).1.trans hs, (ResetExp_frame E st w now).2.2.2.1,
        (ResetExp_frame E st w now).2.1⟩
    have ht := fun w => ResetExp_timers E st w now
    unfold ConnectedState.OnControlDgr
    cases hf : dgr.flags with
    | KEEP_ALIVE =>
      exact ⟨(hr false).1, (hr false).2.1, Or.inl (ht false).1, Or.inl (ht false).2.1,
        (ht false).2.2, Or.inl (hr false).2.2⟩
    | ACK =>
      obtain ⟨_, f2, f3, f4, _, _, f7⟩ := OnAck_frame E (st.ResetExp E true now)
        ⟨dgr.additional_info, dgr.ack_payload⟩
      obtain ⟨g1, g2⟩ := OnAck_timers E (st.ResetExp E true now)
        ⟨dgr.additional_info, dgr.ack_payload⟩
      refine ⟨f2.trans (hr true).1, f3.trans (hr true).2.1, Or.inl (g1.trans (ht true).1),
        Or.inl (g2.trans (ht true).2.1), ?_,
        Or.inr ⟨(⟨ControlType.ACK_OF_ACK, dgr.additional_info, none⟩ : ControlPacket), ?_,
          Or.inl rfl⟩⟩
      · simp only []
        rw [f7]
        exact (ht true).2.2
      · simp only []
        rw [f4, (hr true).2.2]
    | NACK =>
      obtain ⟨_, f2, f3, f4, _, f6⟩ := OnNAck_frame E (st.ResetExp E true now) dgr.loss_packets
      obtain ⟨g1, g2⟩ := OnNAck_timers E (st.ResetExp E true now) dgr.loss_packets
      refine ⟨f2.trans (hr true).1, f3.trans (hr true).2.1, Or.inl (g1.trans (ht true).1),
        Or.inl (g2.trans (ht true).2.1), ?_, Or.inl (f4.trans (hr true).2.2)⟩
      simp only []
      rw [f6]
      exact (ht true).2.2
    | SHUTDOWN =>
      exact ⟨(hr false).1, (hr false).2.1, Or.inl (ht false).1, Or.inl (ht false).2.1,
        (ht false).2.2, Or.inl (hr false).2.2⟩
    | ACK_OF_ACK =>
      obtain ⟨_, f2, f3, f4, f5, _⟩ := OnAckOfAck_frame E (st.ResetExp E false now)
        dgr.additional_info now
      obtain ⟨g1, g2⟩ := OnAckOfAck_timers E (st.ResetExp E false now) dgr.additional_info now
      refine ⟨f2.trans (hr false).1, f3.trans (hr false).2.1, Or.inl (g1.trans (ht false).1),
        Or.inl (g2.trans (ht false).2.1), ?_, Or.inl (f4.trans (hr false).2.2)⟩
      simp only []
      rw [f5]
      exact (ht false).2.2
    | MESSAGE_DROP_REQUEST =>
      exact ⟨(hr false).1, (hr false).2.1, Or.inl (ht false).1, Or.inl (ht false).2.1,
        (ht false).2.2, Or.inl (hr false).2.2⟩
    | other c => exact ⟨hs, rfl, Or.inl rfl, Or.inl rfl, Or.inl rfl, Or.inl rfl⟩
  | ackTimer now =>
    show st.QuietStep (st.AckTimerHandler E false now)
    rw [(handlers_stopped E st hs false false now).1]
    exact ⟨hs, rfl, Or.inl rfl, Or.inl rfl, Or.inl rfl, Or.inl rfl⟩
  | expTimer ec now =>
    show st.QuietStep (st.ExpTimerHandler E ec now)
    rw [(handlers_stopped E st hs false ec now).2]
    exact ⟨hs, rfl, Or.inl rfl, Or.inl rfl, Or.inl rfl, Or.inl rfl⟩
  | stop =>
    exact ⟨rfl, rfl, Or.inr rfl, Or.inr rfl, Or.inr rfl, Or.inr ⟨_, rfl, Or.inr rfl⟩⟩

theorem Quiet_step (st0 st st2 : ConnectedState) (hq : st0.Quiet st) (h : st.QuietStep st2) :
    st0.Quiet st2 := by
  obtain ⟨_, q2, q3, q4, q5, new, q6, q7⟩ := hq
  obtain ⟨h1, h2, h3, h4, h5, h6⟩ := h
  refine ⟨h1, h2.trans q2, ?_, ?_, ?_, ?_⟩
  · rcases h3 with h | h <;> rw [h, q3]
    rfl
  · rcases h4 with h | h <;> rw [h, q4]
    rfl
  · rcases h5 with h | h <;> rw [h, q5]
    rfl
  · rcases h6 with h | ⟨p, h, hp⟩
    · exact ⟨new, h.trans q6, q7⟩
    · refine ⟨new ++ [p], by rw [h, q6, List.append_assoc], ?_⟩
      intro p2 hp2
      rcases List.mem_append.mp hp2 with h2 | h2
      · exact q7 p2 h2
      · rw [List.mem_singleton.mp h2]; exact hp

theorem run_Quiet (E : Env) (st0 : ConnectedState) (evs : List ConnectedEvent)
    (st : ConnectedState) (hq : st0.Quiet st) : st0.Quiet (st.run E evs) := by
  induction evs generalizing st with
  | nil => exact hq
  | cons ev evs ih => exact ih _ (Quiet_step st0 st _ hq (handle_QuietStep E st hq.1 ev))
/-- C34: `StopTimers` sets `stop_timers_`, and in every state in which it is
set `AckTimerHandler`, on a timer fire or called for a light ACK, and
`ExpTimerHandler` return the state as it is: no packet is sent, the ack
sequence generator, the receiver with its EXP counter, the sender with its
loss set and the timers are unchanged, and `OnDataDgr` does what it does
before its call of `AckTimerHandler`.  Over every series of events after
`StopTimers` the flag stays set, the ack sequence generator does not move, the
three timers stay cancelled with no new wait, and the only control packets
sent are ACK_OF_ACK and SHUTDOWN packets, no ACK and no KEEP_ALIVE. -/
theorem StopTimers_nothing_emitted (E : Env) (st : ConnectedState)
    (evs : List ConnectedEvent) :
    st.StopTimers.stop_timers = true ∧
    (∀ st2 : ConnectedState, st2.stop_timers = true → ∀ (l ec : Bool) (now : Int),
      st2.AckTimerHandler E l now = st2 ∧ st2.ExpTimerHandler E ec now = st2 ∧
      ∀ d, st2.OnDataDgr E d now = st2.countDataDgr E d now) ∧
    (st.StopTimers.run E evs).stop_timers = true ∧
    (st.StopTimers.run E evs).ack_seq_gen = st.ack_seq_gen ∧
    (st.StopTimers.run E evs).ack_timer = { expiry := none, waits := st.ack_timer.waits } ∧
    (st.StopTimers.run E evs).nack_timer = { expiry := none, waits := st.nack_timer.waits } ∧
    (st.StopTimers.run E evs).exp_timer = { expiry := none, waits := st.exp_timer.waits } ∧
    ∃ new, (st.StopTimers.run E evs).sent = st.sent ++ new ∧
      ∀ p ∈ new, p.type ≠ ControlType.ACK ∧ p.type ≠ ControlType.KEEP_ALIVE ∧
        (p.type = ControlType.ACK_OF_ACK ∨ p.type = ControlType.SHUTDOWN) := by
  have hq : st.Quiet st.StopTimers := ⟨rfl, rfl, rfl, rfl, rfl, [], by
    simp [ConnectedState.StopTimers], by simp⟩
  obtain ⟨r1, r2, r3, r4, r5, new, r6, r7⟩ := run_Quiet E st evs _ hq
  refine ⟨rfl, fun st2 hs l ec now => ?_, r1, r2, r3, r4, r5, new, r6, fun p hp => ?_⟩
  · exact ⟨(handlers_stopped E st2 hs l ec now).1, (handlers_stopped E st2 hs l ec now).2,
      fun d => OnDataDgr_stopped E st2 hs d now⟩
  · rcases r7 p hp with h | h
    · exact ⟨by rw [h]; simp, by rw [h]; simp, Or.inl h⟩
    · exact ⟨by rw [h]; simp, by rw [h]; simp, Or.inr h⟩

theorem StopTimers_nothing_emitted_witness :
    ackSeqs ((exConnected (exSender 4) 100).run exEnv exEvents).sent = [5, 6] ∧
    ((exConnected (exSender 4) 100).StopTimers.run exEnv
      (exEvents ++ [ConnectedEvent.expTimer false 20000000])).sent = [] ∧
    ((exConnected (exSender 4) 100).StopTimers.run exEnv
      (exEvents ++ [ConnectedEvent.expTimer false 20000000])).ack_seq_gen.current = 5 ∧
    ((exConnected (exSender 4) 100).StopTimers.run exEnv
      (exEvents ++ [ConnectedEvent.expTimer false 20000000])).ack_timer =
        { expiry := none, waits := 0 } :=
  have h := StopTimers_nothing_emitted exEnv (exConnected (exSender 4) 100)
    (exEvents ++ [ConnectedEvent.expTimer false 20000000])
  ⟨by decide, by decide, by rw [h.2.2.2.1]; rfl, h.2.2.2.2.1⟩

/-! ## The map of packets in flight is keyed by the stamped sequence number -/

theorem ProcessWriteOp_appends (P : Protocol) (s : Sender) (bytes : List Nat) :
    (∃ F : List SendDatagram,
      (ProcessWriteOp P s false bytes).2.packets_to_send = s.packets_to_send ++ F) ∧
    (ProcessWriteOp P s false bytes).2.nack_packets = s.nack_packets ∧
    (ProcessWriteOp P s false bytes).2.p_session.packet_seq_gen =
      s.p_session.packet_seq_gen := by
  have hq : (ProcessWriteOp P s false bytes).2 =
      (ProcessWriteOpBuffers P s bytes).2.RegisterNewSocket := rfl
  rw [hq, ProcessWriteOpBuffers_closed_form]
  generalize hps : s.p_session.packet_data_size - P.header_size = ps
  generalize hr : s.max_send_size + 1 - s.packets_to_send.length = r
  by_cases hfit : bytes.length ≤ r * ps
  · rw [if_pos hfit]
    exact ⟨⟨_, rfl⟩, rfl, rfl⟩
  · rw [if_neg hfit]
    by_cases h0 : r = 0
    · rw [if_pos h0]
      exact ⟨⟨[], by simp [Sender.RegisterNewSocket]⟩, rfl, rfl⟩
    · rw [if_neg h0]
      have hlen := acceptedFragments_length_full P.new_datagram ps
        s.p_session.message_seq_gen.current s.p_session.remote_socket_id r 0 bytes (by omega)
      have hne : acceptedFragments P.new_datagram ps s.p_session.message_seq_gen.current
          s.p_session.remote_socket_id r 0 bytes ≠ [] := by
        intro h; rw [h] at hlen; simp at hlen; omega
      refine ⟨⟨setBackPosition
        (if r = 1 then MessagePosition.ONLY_ONE_PACKET else MessagePosition.LAST)
        (acceptedFragments P.new_datagram ps s.p_session.message_seq_gen.current
          s.p_session.remote_socket_id r 0 bytes), ?_⟩, rfl, rfl⟩
      simp only [Sender.RegisterNewSocket]
      rw [setBackPosition_append _ _ _ hne]

theorem KeyedBySeq_mapAssign (k : Nat) (d : SendDatagram) (m : List (Nat × SendDatagram))
    (hd : d.header.packet_sequence_number = k) (hm : KeyedBySeq m) :
    KeyedBySeq (mapAssign k d m) := by
  induction m with
  | nil =>
    intro e he
    simp only [mapAssign, List.mem_singleton] at he
    rw [he]; exact hd
  | cons a m ih =>
    have ha : a.2.header.packet_sequence_number = a.1 := hm a (List.mem_cons_self _ _)
    have hm2 : KeyedBySeq m := fun e he => hm e (List.mem_cons_of_mem _ he)
    unfold mapAssign
    split_ifs
    · intro e he
      rcases List.mem_cons.mp he with h | h
      · rw [h]; exact hd
      · exact hm e h
    · intro e he
      rcases List.mem_cons.mp he with h | h
      · rw [h]; exact hd
      · exact hm2 e h
    · intro e he
      rcases List.mem_cons.mp he with h | h
      · rw [h]; exact ha
      · exact ih hm2 e h

theorem KeyedBySeq_filter (p : Nat × SendDatagram → Bool) (m : List (Nat × SendDatagram))
    (hm : KeyedBySeq m) : KeyedBySeq (m.filter p) :=
  fun e he => hm e (List.mem_of_mem_filter he)

theorem KeyedBySeq_mapSetAcked (c : Nat) (m : List (Nat × SendDatagram))
    (hm : KeyedBySeq m) : KeyedBySeq (mapSetAcked c m) := by
  intro e he
  simp only [mapSetAcked, List.mem_map] at he
  obtain ⟨a, ha, rfl⟩ := he
  split_ifs
  · exact hm a ha
  · exact hm a ha

theorem KeyedBySeq_ackLoop : ∀ (fuel c : Nat) (loss : List Nat)
    (m : List (Nat × SendDatagram)), KeyedBySeq m → KeyedBySeq (ackLoop fuel c loss m).2 := by
  intro fuel
  induction fuel with
  | zero => intro c loss m hm; exact hm
  | succ n ih =>
    intro c loss m hm
    unfold ackLoop
    cases mapFind c m with
    | none => exact hm
    | some d => exact ih _ _ _ (KeyedBySeq_mapSetAcked c m hm)
/-- One call of `NextScheduledPacket`: the map stays keyed by the sequence
numbers; either nothing is taken from the queue and the session is left
alone, or the front of the queue is returned with its stamps, the sequence
number being the current value of the generator, which moves on by `Inc`. -/
theorem NextScheduledPacket_step (s : Sender) (e : Nat) (g : Int)
    (hk : KeyedBySeq s.nack_packets) :
    KeyedBySeq (NextScheduledPacket s e g).2.nack_packets ∧
    (((NextScheduledPacket s e g).2.packets_to_send = s.packets_to_send ∧
        (NextScheduledPacket s e g).2.p_session = s.p_session) ∨
      ∃ front rest, s.packets_to_send = front :: rest ∧
        (NextScheduledPacket s e g).2.packets_to_send = rest ∧
        (NextScheduledPacket s e g).1 =
          some (front.stamped (e % 4294967296) s.p_session.packet_seq_gen.current) ∧
        (NextScheduledPacket s e g).2.p_session.packet_seq_gen.current =
          Inc s.p_session.packet_seq_gen.current) := by
  rcases NextScheduledPacket_cases s e g with
    ⟨x, rest, d, _, _, _, heq⟩ | ⟨t, heq, tq, tsess, _, _, hor⟩
  · rw [heq]
    exact ⟨hk, Or.inl ⟨rfl, rfl⟩⟩
  · have htk : KeyedBySeq t.nack_packets := by
      rcases hor with ⟨_, ht⟩ | ⟨x, rest, _, _, hn, _⟩
      · rw [ht]; exact hk
      · rcases hn with hn | hn
        · rw [hn]; exact hk
        · rw [hn]; exact KeyedBySeq_filter _ _ hk
    rw [heq]
    rcases freshPacket_cases t s.p_session.packet_seq_gen.current e g with
      ⟨_, hf⟩ | ⟨_, _, _, hf⟩ | ⟨front, rest, d, hq, _, hd, h1, hnack, hpts, _, hsess, _⟩
    · rw [hf]; exact ⟨htk, Or.inl ⟨tq, tsess⟩⟩
    · rw [hf]; exact ⟨htk, Or.inl ⟨tq, tsess⟩⟩
    · refine ⟨?_, Or.inr ⟨front, rest, tq ▸ hq, hpts, ?_, ?_⟩⟩
      · rw [hnack]
        exact KeyedBySeq_mapAssign _ _ _ (by rw [hd]) htk
      · rw [h1, hd]; rfl
      · rw [hsess, tsess]

theorem SenderTrace_write (P : Protocol) (g0 : Nat) (s : Sender) (log : SenderLog)
    (bytes : List Nat) (h : SenderTrace g0 s log) :
    SenderTrace g0 ((SenderOp.write bytes).applyLogged P s log).1
      ((SenderOp.write bytes).applyLogged P s log).2 := by
  obtain ⟨h1, h2, h3, taken, h4, h5⟩ := h
  obtain ⟨⟨F, hF⟩, hn, hg⟩ := ProcessWriteOp_appends P s bytes
  refine ⟨?_, h2, ?_, taken, ?_, h5⟩
  · show KeyedBySeq (ProcessWriteOp P s false bytes).2.nack_packets
    rw [hn]; exact h1
  · show (ProcessWriteOp P s false bytes).2.p_session.packet_seq_gen.current = _
    rw [hg]; exact h3
  · show log.enqueued ++ (ProcessWriteOp P s false bytes).2.packets_to_send.drop
        s.packets_to_send.length = taken ++ (ProcessWriteOp P s false bytes).2.packets_to_send
    rw [hF, List.drop_left, h4, List.append_assoc]

theorem SenderTrace_next (g0 : Nat) (s : Sender) (log : SenderLog) (e : Nat) (g : Int)
    (P : Protocol) (h : SenderTrace g0 s log) :
    SenderTrace g0 ((SenderOp.next e g).applyLogged P s log).1
      ((SenderOp.next e g).applyLogged P s log).2 := by
  obtain ⟨h1, h2, h3, taken, h4, h5⟩ := h
  obtain ⟨hk, hcase⟩ := NextScheduledPacket_step s e g h1
  rcases hcase with ⟨hq, hsess⟩ | ⟨front, rest, hq, hrest, hret, hgen⟩
  · have hlog : ((SenderOp.next e g).applyLogged P s log).2 = log := by
      simp [SenderOp.applyLogged, hq]
    rw [hlog]
    exact ⟨hk, h2, by
      show (NextScheduledPacket s e g).2.p_session.packet_seq_gen.current = _
      rw [hsess]; exact h3, taken, by
      show log.enqueued = taken ++ (NextScheduledPacket s e g).2.packets_to_send
      rw [hq]; exact h4, h5⟩
  · have hne : (NextScheduledPacket s e g).2.packets_to_send ≠ s.packets_to_send := by
      rw [hrest, hq]
      intro hc
      have := congrArg List.length hc
      simp at this
    have hlog : ((SenderOp.next e g).applyLogged P s log).2 =
        { log with fresh := log.fresh ++
          [front.stamped (e % 4294967296) s.p_session.packet_seq_gen.current] } := by
      simp [SenderOp.applyLogged, hne, hret]
    rw [hlog]
    refine ⟨hk, ?_, ?_, taken ++ [front], ?_, ?_⟩
    · simp only [List.map_append, List.map_cons, List.map_nil, List.length_append,
        List.length_singleton]
      rw [List.iterate_add, h2, h3]
      rfl
    · show (NextScheduledPacket s e g).2.p_session.packet_seq_gen.current = _
      simp only [List.length_append, List.length_singleton]
      rw [hgen, h3, Function.iterate_succ_apply']
    · show log.enqueued = (taken ++ [front]) ++ (NextScheduledPacket s e g).2.packets_to_send
      rw [hrest, h4, hq, List.append_assoc]
      rfl
    · exact List.rel_append h5 (List.Forall₂.cons rfl List.Forall₂.nil)

theorem SenderTrace_apply (P : Protocol) (g0 : Nat) (s : Sender) (log : SenderLog)
    (op : SenderOp) (h : SenderTrace g0 s log) :
    SenderTrace g0 (op.applyLogged P s log).1 (op.applyLogged P s log).2 := by
  cases op with
  | write bytes => exact SenderTrace_write P g0 s log bytes h
  | next e g => exact SenderTrace_next g0 s log e g P h
  | nackPackets =>
    obtain ⟨h1, h2, h3, taken, h4, h5⟩ := h
    show SenderTrace g0 (UpdateLossListFromNackPackets s) log
    unfold UpdateLossListFromNackPackets
    split_ifs
    · exact ⟨h1, h2, h3, taken, h4, h5⟩
    · refine ⟨?_, h2, h3, taken, h4, h5⟩
      show KeyedBySeq (nackPacketsLoop s.nack_packets s.loss_packets).2
      rw [nackPacketsLoop_snd]
      exact KeyedBySeq_filter _ _ h1
  | ack seq_number =>
    obtain ⟨h1, h2, h3, taken, h4, h5⟩ := h
    exact ⟨KeyedBySeq_ackLoop _ _ _ _ h1, h2, h3, taken, h4, h5⟩
  | nackDgr l =>
    obtain ⟨h1, h2, h3, taken, h4, h5⟩ := h
    show SenderTrace g0 (UpdateLossListFromNackDgr s l) log
    unfold UpdateLossListFromNackDgr
    simp only []
    split_ifs
    · exact ⟨h1, h2, h3, taken, h4, h5⟩
    · exact ⟨h1, h2, h3, taken, h4, h5⟩

theorem runLogged_trace (P : Protocol) (g0 : Nat) (ops : List SenderOp) :
    ∀ (s : Sender) (log : SenderLog), SenderTrace g0 s log →
      SenderTrace g0 (runLogged P ops s log).1 (runLogged P ops s log).2 := by
  induction ops with
  | nil => intro s log h; exact h
  | cons op ops ih =>
    intro s log h
    exact ih _ _ (SenderTrace_apply P g0 s log op h)

theorem applyLogged_fst (P : Protocol) (s : Sender) (log : SenderLog) (op : SenderOp) :
    (op.applyLogged P s log).1 = op.apply P s := by
  cases op <;> rfl

theorem runLogged_fst (P : Protocol) (ops : List SenderOp) :
    ∀ (s : Sender) (log : SenderLog), (runLogged P ops s log).1 = runOps P ops s := by
  induction ops with
  | nil => intro s log; rfl
  | cons op ops ih =>
    intro s log
    show (runLogged P ops _ _).1 = runOps P ops (op.apply P s)
    rw [ih, applyLogged_fst]

theorem chain_iterate_Inc (g0 : Nat) : ∀ n, List.Chain' (fun a b => b = Inc a)
    (List.iterate Inc g0 n ++ [Inc^[n] g0]) := by
  intro n
  induction n generalizing g0 with
  | zero => exact List.chain'_singleton _
  | succ n ih =>
    have h := ih (Inc g0)
    rw [List.iterate, Function.iterate_succ_apply, List.cons_append]
    refine List.Chain'.cons' h ?_
    intro y hy
    cases n with
    | zero => simpa using hy.symm
    | succ m => simpa [List.iterate] using hy.symm
/-- C32: starting from an empty sender, after any sequence of sender
operations every entry of the map of packets in flight is stored under the
sequence number of its header.  The datagrams `NextScheduledPacket` returned
after taking them from `packets_to_send_` carry, in the order of the calls,
the sequence numbers `g0, Inc g0, Inc (Inc g0), ...` from the initial value
`g0` of the generator, each the `Inc` of the previous one, and the generator
holds the next one; they are, in that order and before their stamps, the
first of the datagrams that were pushed into `packets_to_send_`, the others
being still in the queue in the order they were pushed. -/
theorem nack_packets_keyed_by_sequence_number (P : Protocol) (sess : Session)
    (cc : CongestionControl) (ops : List SenderOp) :
    (runLogged P ops (Sender.init sess cc) ⟨[], []⟩).1 = runOps P ops (Sender.init sess cc) ∧
    (∀ k d, (k, d) ∈ (runOps P ops (Sender.init sess cc)).nack_packets →
      d.header.packet_sequence_number = k) ∧
    ((runLogged P ops (Sender.init sess cc) ⟨[], []⟩).2.fresh.map fun d =>
        d.header.packet_sequence_number) =
      List.iterate Inc sess.packet_seq_gen.current
        (runLogged P ops (Sender.init sess cc) ⟨[], []⟩).2.fresh.length ∧
    List.Chain' (fun a b => b = Inc a)
      (((runLogged P ops (Sender.init sess cc) ⟨[], []⟩).2.fresh.map fun d =>
          d.header.packet_sequence_number) ++
        [(runOps P ops (Sender.init sess cc)).p_session.packet_seq_gen.current]) ∧
    List.Forall₂ (fun d q => d = q.stamped d.header.timestamp d.header.packet_sequence_number)
      (runLogged P ops (Sender.init sess cc) ⟨[], []⟩).2.fresh
      ((runLogged P ops (Sender.init sess cc) ⟨[], []⟩).2.enqueued.take
        (runLogged P ops (Sender.init sess cc) ⟨[], []⟩).2.fresh.length) ∧
    (runLogged P ops (Sender.init sess cc) ⟨[], []⟩).2.enqueued.drop
        (runLogged P ops (Sender.init sess cc) ⟨[], []⟩).2.fresh.length =
      (runOps P ops (Sender.init sess cc)).packets_to_send := by
  have hinit : SenderTrace sess.packet_seq_gen.current (Sender.init sess cc) ⟨[], []⟩ :=
    ⟨fun e he => by simp [Sender.init] at he, rfl, rfl, [], rfl, List.Forall₂.nil⟩
  obtain ⟨h1, h2, h3, taken, h4, h5⟩ := runLogged_trace P _ ops _ _ hinit
  have hfst := runLogged_fst P ops (Sender.init sess cc) ⟨[], []⟩
  rw [hfst] at h1 h3 h4
  refine ⟨hfst, fun k d hkd => h1 (k, d) hkd, h2, ?_, ?_, ?_⟩
  · rw [h2, h3]
    exact chain_iterate_Inc _ _
  · rw [h4, List.take_left' h5.length_eq.symm]
    exact h5
  · rw [h4, List.drop_left' h5.length_eq.symm]

theorem nack_packets_keyed_by_sequence_number_witness :
    ((runLogged exProtocol exRun (exSender 4) ⟨[], []⟩).2.fresh.map fun d =>
      (d.header.packet_sequence_number, d.payload)) =
        [(0, [1, 2, 3, 4]), (1, [5, 6, 7, 8])] ∧
    ((runLogged exProtocol exRun (exSender 4) ⟨[], []⟩).2.enqueued.map fun d => d.payload) =
      [[1, 2, 3, 4], [5, 6, 7, 8], [9], [10, 11]] ∧
    ((runOps exProtocol exRun (exSender 4)).packets_to_send.map fun d => d.payload) =
      [[9], [10, 11]] ∧
    ((runOps exProtocol exRun (exSender 4)).nack_packets.map fun e => e.1) = [1] ∧
    ∀ k d, (k, d) ∈ (runOps exProtocol exRun (exSender 4)).nack_packets →
      d.header.packet_sequence_number = k :=
  ⟨by decide, by decide, by decide, by decide,
    (nack_packets_keyed_by_sequence_number exProtocol (exSession 4) (exCC 4) exRun).2.1⟩

end Udt
